import Mathlib

/-!
# IRK! infrared command codec

A shallow embedding of the infrared receive state machine, the frame
validator, the transmit encoder, the command dispatcher, the capture
interrupt with the foreground poll, and the usage selection of `src/IRK.c`
(firmware v2.07, PIC18F2550, Timer1 at 0.75 MHz), and of the receive state
machine of `src/smt/IRK.c` where it differs.

Conventions.
* `byte` is `unsigned short` (8 bits with this compiler) and `unsigned int`
  is 16 bits; both are embedded as `Nat`, with an explicit `% 256` or
  `% 65536` wherever the C code can wrap.
* The globals of the program are the fields of `State`; every C function
  `void f()` becomes `f : State → State`.
* Output that leaves the chip is kept in log fields of `State`
  (`irOut` with `irOutCapture`, `hidWrites`, `switchLog`, `switchWrites`),
  and two call logs (`rxLog`, `dispatched`) record which routine was
  entered, in program order.
* The LCD text, the backlight pin and Timer0/Timer3 are outside the model:
  a routine that touches only those is the identity on `State`.
* `HID_Write` is taken to succeed at the first attempt, so each
  `while(!HID_Write(..))` loop sends its report once.
-/

namespace IRK

/-! ## Constants (`#define`s of `src/IRK.c`) -/

abbrev BROADCAST_ADDRESS : Nat := 0xFF

abbrev STATE_IR_RESET : Nat := 0
abbrev STATE_IR_TRAINING_RECEIVED : Nat := 1
abbrev STATE_IR_RECEIVING_BITS : Nat := 2
abbrev STATE_IR_COMMAND_RECEIVED : Nat := 3

abbrev CMD_SET_DEVICE_ADDRESS : Nat := 0x00
abbrev CMD_PRESS_POWER_SWITCH : Nat := 0x01
abbrev CMD_PRESS_RESET_SWITCH : Nat := 0x02
abbrev CMD_INIT_USB : Nat := 0x03
abbrev CMD_SET_BACKLIGHT_OFF : Nat := 0x04
abbrev CMD_SET_BACKLIGHT_ON : Nat := 0x05
abbrev CMD_SET_BACKLIGHT_DELAY : Nat := 0x06
abbrev CMD_SET_DEBUG_ON : Nat := 0x07
abbrev CMD_SET_DEBUG_OFF : Nat := 0x08

abbrev WIDTH_ERROR_MARGIN : Nat := 100
abbrev WIDTH_SHORT : Nat := 600
abbrev WIDTH_LONG : Nat := 1650
abbrev WIDTH_TRAINING_PULSE : Nat := 1000
abbrev WIDTH_SILENCE_AFTER_TRAINING : Nat := 600

/-- The textual suffix `#define MICROSECONDS 3 / 4`: the C expression
`(e) * MICROSECONDS` expands to `(e) * 3 / 4`, evaluated left to right in
integer arithmetic. -/
def MICROSECONDS (e : Nat) : Nat := e * 3 / 4

abbrev CLOCK_FREQUENCY : Nat := 24000000

/-- Timer1 is clocked with Fosc/4 through a 1:8 prescaler (`T1CON = 0b10110001`). -/
abbrev TIMER1_PRESCALER : Nat := 8

abbrev TIMER1_RATE : Nat := CLOCK_FREQUENCY / 4 / TIMER1_PRESCALER

abbrev USAGE_KEYBOARD : Nat := 0x00
abbrev USAGE_SYSTEM_CONTROL : Nat := 0x10
abbrev USAGE_CONSUMER_DEVICE : Nat := 0x20
abbrev USAGE_LOCAL_IRK_FUNCTION : Nat := 0xF0

/-! ## Data model -/

/-- The `debug` record filled by `gotoResetState` in debug mode. -/
structure DebugRecord where
  nState : Nat
  nByte : Nat
  nBit : Nat
  nPulseWidthHi : Nat
  nPulseWidthLo : Nat
  nRiseOrFall : Nat
  nEdgeCount : Nat
deriving DecidableEq, Repr

/-- One timed piece of the transmitted infrared signal: the carrier is on
for `mark us` microseconds, off for `space us` microseconds; `pause ms` is
the `delay_ms` rest (carrier off) that separates two transmissions. -/
inductive Segment where
  | mark (us : Nat)
  | space (us : Nat)
  | pause (ms : Nat)
deriving DecidableEq, Repr

/-- Entries of the receive log: `reset` is written by `gotoResetState`,
`bit v` by the two bit branches of `processInfraredInterrupt`, and
`interpret f` on entry to `interpretInfraredCommand` with the scratch
buffer `f` it is handed. -/
inductive RxEvent where
  | reset
  | bit (v : Nat)
  | interpret (frame : List Nat)
deriving DecidableEq, Repr

/-- The report identifiers `REPORT_ID_KEYBOARD`, `REPORT_ID_SYSTEM_CONTROL`
and `REPORT_ID_CONSUMER_DEVICE` come from `IRK.h`, which is not among the
sources; the report log keeps them by name. -/
inductive ReportId where
  | REPORT_ID_KEYBOARD
  | REPORT_ID_SYSTEM_CONTROL
  | REPORT_ID_CONSUMER_DEVICE
deriving DecidableEq, Repr

/-- One call `HID_Write(&sUSBCommand, n)`: the report id in `sUSBCommand[0]`
and the `n - 1` bytes that follow it. -/
structure HidReport where
  id : ReportId
  payload : List Nat
deriving DecidableEq, Repr

/-- Front-panel switch outputs pulsed by the local functions. -/
inductive SwitchPulse where
  | POWER_SWITCH
  | RESET_SWITCH
deriving DecidableEq, Repr

/-- The three switch outputs of `src/smt/IRK.c`. -/
inductive SwitchPin where
  | POWER_SWITCH
  | RESET_SWITCH
  | AUX_SWITCH
deriving DecidableEq, Repr

/-- One assignment of `src/smt/IRK.c` to a switch output: the pin and the
level written, `ON` (true) or `OFF` (false). -/
structure SwitchWrite where
  pin : SwitchPin
  level : Bool
deriving DecidableEq, Repr

/-- The globals of `src/IRK.c` that the infrared codec and the dispatcher
read or write, the capture hardware registers, and the output logs; the
receive machine of `src/smt/IRK.c` runs on the same globals and one more. -/
structure State where
  /-- Receive state machine. -/
  nState : Nat
  nByte : Nat
  nBit : Nat
  cByte : Nat
  /-- The union `irCommand`, as its six bytes `b[0..5]`. -/
  irCommand : List Nat
  /-- The union `usbCommand`, as its 16-bit member `uxyy`. -/
  usbCommand : Nat
  nConfigDeviceAddress : Nat
  nConfigBacklightDelay : Nat
  /-- Event mailbox written by `interrupt()`. -/
  nPulseWidth : Nat
  nRiseOrFall : Nat
  bInfraredInterruptPending : Bool
  /-- Flags of `cFlags` and `cDebugFlags`. -/
  bDebugMode : Bool
  bDebugStatusPending : Bool
  bSettingUsage : Bool
  bSettingDeviceAddress : Bool
  bSettingBacklightDelay : Bool
  bUSBReady : Bool
  /-- Diagnostics. -/
  debug : DebugRecord
  nEdgeCount : Nat
  /-- The union `resetCount` of `src/smt/IRK.c`, as its 16-bit member `n`;
  `src/IRK.c` has no such global and never touches the field. -/
  resetCount : Nat
  ACTIVITY_LED : Bool
  nActivityLEDDelay : Nat
  /-- Capture/compare module 2, Timer1 and the PWM carrier. -/
  CCP2IE : Bool
  CCP2IF : Bool
  CCP2CON : Nat
  CCPR2 : Nat
  TMR1 : Nat
  pwmOn : Bool
  /-- Logs. -/
  irOut : List Segment
  /-- For each entry of `irOut`, the capture interrupt enable bit
  `PIE2.CCP2IE` at the time the entry was emitted. -/
  irOutCapture : List Bool
  rxLog : List RxEvent
  dispatched : List Nat
  hidWrites : List HidReport
  switchLog : List SwitchPulse
  /-- The assignments of `src/smt/IRK.c` to its switch outputs, in program
  order; `src/IRK.c` never touches the field. -/
  switchWrites : List SwitchWrite
deriving DecidableEq, Repr

/-- The globals as the C start-up code leaves them (all zero), with the
device address that `Prolog` reads from EEPROM. -/
def powerOnState (addr : Nat) : State :=
  { nState := 0, nByte := 0, nBit := 0, cByte := 0,
    irCommand := List.replicate 6 0, usbCommand := 0,
    nConfigDeviceAddress := addr % 256, nConfigBacklightDelay := 0,
    nPulseWidth := 0, nRiseOrFall := 0, bInfraredInterruptPending := false,
    bDebugMode := false, bDebugStatusPending := false, bSettingUsage := false,
    bSettingDeviceAddress := false, bSettingBacklightDelay := false,
    bUSBReady := false,
    debug := { nState := 0, nByte := 0, nBit := 0, nPulseWidthHi := 0,
               nPulseWidthLo := 0, nRiseOrFall := 0, nEdgeCount := 0 },
    nEdgeCount := 0, resetCount := 0, ACTIVITY_LED := false, nActivityLEDDelay := 0,
    CCP2IE := false, CCP2IF := false, CCP2CON := 0, CCPR2 := 0, TMR1 := 0,
    pwmOn := false,
    irOut := [], irOutCapture := [], rxLog := [], dispatched := [], hidWrites := [],
    switchLog := [], switchWrites := [] }

/-! ### Members of the unions -/

/-- The member `usbCommand.s.yy` (low byte of `uxyy`). -/
def yy (s : State) : Nat := s.usbCommand % 256

/-- The member `usbCommand.s.ux.byte` (high byte of `uxyy`). -/
def ux (s : State) : Nat := s.usbCommand / 256 % 256

def nAddress (s : State) : Nat := s.irCommand.getD 0 0
def nAddressInverted (s : State) : Nat := s.irCommand.getD 1 0
def nModifiers (s : State) : Nat := s.irCommand.getD 2 0
def nModifiersInverted (s : State) : Nat := s.irCommand.getD 3 0
def nCommand (s : State) : Nat := s.irCommand.getD 4 0
def nCommandInverted (s : State) : Nat := s.irCommand.getD 5 0

/-- The macro `bRisingEdge`, bit 0 of `nRiseOrFall`. -/
def bRisingEdge (s : State) : Bool := s.nRiseOrFall % 2 == 1

/-- The macro `bFallingEdge`, `!bRisingEdge`. -/
def bFallingEdge (s : State) : Bool := !bRisingEdge s

/-- The operator `~` applied to a byte and stored into a byte. -/
def complementByte (x : Nat) : Nat := 255 - x % 256

/-! ## Dispatcher -/

/-- One successful `HID_Write`. -/
def HID_Write (r : HidReport) (s : State) : State :=
  { s with hidWrites := s.hidWrites ++ [r] }

/-- The routine `updateLCD`, of which only the clearing of
`bDebugStatusPending` is state of the model. -/
def updateLCD (s : State) : State :=
  if s.bSettingUsage then s
  else if s.bSettingDeviceAddress then s
  else if s.bSettingBacklightDelay then s
  else if s.bDebugMode && s.bDebugStatusPending then
    { s with bDebugStatusPending := false }
  else s

def disableUSB (s : State) : State :=
  { s with bUSBReady := false }

/-- The routine `enableUSB` for a host that answers the first `HID_Write`. -/
def enableUSB (s : State) : State :=
  let s1 := { s with bUSBReady := false }
  let s2 := { s1 with ACTIVITY_LED := false }
  let s3 := HID_Write ⟨ReportId.REPORT_ID_KEYBOARD, [0, 0, 0]⟩ s2
  { s3 with bUSBReady := true }

def sendUSBKeystroke (s : State) : State :=
  if s.bUSBReady then
    let s1 := HID_Write ⟨ReportId.REPORT_ID_KEYBOARD, [ux s, 0, yy s]⟩ s
    HID_Write ⟨ReportId.REPORT_ID_KEYBOARD, [0, 0, 0]⟩ s1
  else s

def sendUSBSystemControlCommand (s : State) : State :=
  if s.bUSBReady then
    let s1 := HID_Write ⟨ReportId.REPORT_ID_SYSTEM_CONTROL, [yy s]⟩ s
    HID_Write ⟨ReportId.REPORT_ID_SYSTEM_CONTROL, [0]⟩ s1
  else s

/-- The routine spelled `SendUSBConsumerDeviceCommand` where it is defined and
`sendUSBConsumerDeviceCommand` where it is called (the compiler ignores case). -/
def sendUSBConsumerDeviceCommand (s : State) : State :=
  if s.bUSBReady then
    let s1 := HID_Write ⟨ReportId.REPORT_ID_CONSUMER_DEVICE, [yy s, ux s &&& 0x0F]⟩ s
    HID_Write ⟨ReportId.REPORT_ID_CONSUMER_DEVICE, [0, 0]⟩ s1
  else s

def performLocalIRKFunction (s : State) : State :=
  if yy s = CMD_PRESS_POWER_SWITCH then
    { s with switchLog := s.switchLog ++ [SwitchPulse.POWER_SWITCH] }
  else if yy s = CMD_PRESS_RESET_SWITCH then
    { s with switchLog := s.switchLog ++ [SwitchPulse.RESET_SWITCH] }
  else if yy s = CMD_INIT_USB then
    enableUSB (disableUSB s)
  else if yy s = CMD_SET_BACKLIGHT_OFF then
    { s with nConfigBacklightDelay := 0x00 }
  else if yy s = CMD_SET_BACKLIGHT_ON then
    { s with nConfigBacklightDelay := 0xFF }
  else if yy s = CMD_SET_DEBUG_OFF then
    { s with bDebugMode := false }
  else if yy s = CMD_SET_DEBUG_ON then
    { s with bDebugMode := true }
  else s

/-- The routine `sendUSBCommand`; its entry is recorded in `dispatched`
with the command `usbCommand.uxyy` it is about to send. -/
def sendUSBCommand (s : State) : State :=
  let s0 := { s with dispatched := s.dispatched ++ [s.usbCommand] }
  let s1 := { s0 with nActivityLEDDelay := 10000, ACTIVITY_LED := true }
  if ux s1 &&& 0xF0 = USAGE_KEYBOARD then sendUSBKeystroke s1
  else if ux s1 &&& 0xF0 = USAGE_SYSTEM_CONTROL then sendUSBSystemControlCommand s1
  else if ux s1 &&& 0xF0 = USAGE_CONSUMER_DEVICE then sendUSBConsumerDeviceCommand s1
  else if ux s1 &&& 0xF0 = USAGE_LOCAL_IRK_FUNCTION then performLocalIRKFunction s1
  else s1

/-! ## Receive state machine -/

def gotoResetState (s : State) : State :=
  let s1 :=
    if s.bDebugMode then
      let s2 :=
        if !s.bDebugStatusPending then
          { s with
            debug := { nState := s.nState, nByte := s.nByte, nBit := s.nBit,
                       nPulseWidthHi := s.nPulseWidth / 256 % 256,
                       nPulseWidthLo := s.nPulseWidth % 256,
                       nRiseOrFall := s.nRiseOrFall,
                       nEdgeCount := s.nEdgeCount },
            bDebugStatusPending := true }
        else s
      { s2 with nEdgeCount := 0 }
    else s
  { s1 with
    irCommand := List.replicate 6 0,
    nState := STATE_IR_RESET,
    nByte := 0,
    nBit := 0,
    rxLog := s1.rxLog ++ [RxEvent.reset] }

def disableInfraredCapture (s : State) : State :=
  { s with CCP2IE := false }

def enableInfraredCapture (s : State) : State :=
  let s1 := { s with CCP2IE := false, CCP2IF := false, CCP2CON := 0b00000100, TMR1 := 0 }
  let s2 := gotoResetState s1
  { s2 with CCP2IE := true }

def interpretInfraredCommand (s : State) : State :=
  let s := { s with rxLog := s.rxLog ++ [RxEvent.interpret s.irCommand] }
  if nAddress s ≠ s.nConfigDeviceAddress ∧ nAddress s ≠ BROADCAST_ADDRESS then s
  else if nAddress s ^^^ nAddressInverted s = 0 then s
  else if nModifiers s ^^^ nModifiersInverted s = 0 then s
  else if nCommand s ^^^ nCommandInverted s = 0 then s
  else
    let s1 := { s with usbCommand := (nModifiers s <<< 8 ||| nCommand s) % 65536 }
    sendUSBCommand (updateLCD s1)

def appendBit (s : State) : State :=
  let s1 := { s with nBit := (s.nBit + 1) % 256 }
  if s1.nBit > 7 then
    let s2 := { s1 with nBit := 0, irCommand := s1.irCommand.set s1.nByte s1.cByte }
    let s3 := { s2 with nByte := (s2.nByte + 1) % 256 }
    if s3.nByte ≥ 6 then { s3 with nState := STATE_IR_COMMAND_RECEIVED } else s3
  else s1

/-- The macro `IS_PULSE_WIDTH_NEAR(x)`; it is only instantiated with the
`WIDTH_` constants, all at least `WIDTH_ERROR_MARGIN`. -/
def IS_PULSE_WIDTH_NEAR (x : Nat) (s : State) : Bool :=
  decide (s.nPulseWidth > MICROSECONDS (x - WIDTH_ERROR_MARGIN))
    && decide (s.nPulseWidth < MICROSECONDS (x + WIDTH_ERROR_MARGIN))

def processInfraredInterrupt (s : State) : State :=
  if s.nState = STATE_IR_RESET then
    if bRisingEdge s && IS_PULSE_WIDTH_NEAR WIDTH_TRAINING_PULSE s then
      { s with nState := STATE_IR_TRAINING_RECEIVED }
    else gotoResetState s
  else if s.nState = STATE_IR_TRAINING_RECEIVED then
    if bFallingEdge s && IS_PULSE_WIDTH_NEAR WIDTH_SILENCE_AFTER_TRAINING s then
      { s with nState := STATE_IR_RECEIVING_BITS }
    else gotoResetState s
  else if s.nState = STATE_IR_RECEIVING_BITS then
    if bRisingEdge s then
      if s.nPulseWidth > MICROSECONDS (WIDTH_SHORT + WIDTH_ERROR_MARGIN) then
        gotoResetState s
      else s
    else
      if s.nPulseWidth > MICROSECONDS (WIDTH_LONG + WIDTH_ERROR_MARGIN) then
        gotoResetState s
      else if s.nPulseWidth > MICROSECONDS (WIDTH_LONG - WIDTH_ERROR_MARGIN) then
        appendBit { s with cByte := (s.cByte <<< 1) % 256 ||| 1,
                           rxLog := s.rxLog ++ [RxEvent.bit 1] }
      else if s.nPulseWidth > MICROSECONDS (WIDTH_SHORT - WIDTH_ERROR_MARGIN) then
        appendBit { s with cByte := (s.cByte <<< 1) % 256,
                           rxLog := s.rxLog ++ [RxEvent.bit 0] }
      else gotoResetState s
  else if s.nState = STATE_IR_COMMAND_RECEIVED then
    enableInfraredCapture (interpretInfraredCommand (disableInfraredCapture s))
  else s

/-! ## Transmit encoder -/

def PWM1_Start (s : State) : State := { s with pwmOn := true }

def PWM1_Stop (s : State) : State := { s with pwmOn := false }

/-- The busy wait `delay_us(us)`: the infrared output carries a mark of
that length when the carrier runs and a space otherwise. -/
def delay_us (us : Nat) (s : State) : State :=
  { s with
    irOut := s.irOut ++ [if s.pwmOn then Segment.mark us else Segment.space us],
    irOutCapture := s.irOutCapture ++ [s.CCP2IE] }

def transmitInfraredShortMark (s : State) : State :=
  PWM1_Stop (delay_us WIDTH_SHORT (PWM1_Start s))

/-- The loop `for (i = 8; i > 0; i--)` of `transmitInfraredByte`, entered
with counter `i` and the remaining bits in `b`. -/
def transmitInfraredByteLoop : Nat → Nat → State → State
  | 0, _, s => s
  | i + 1, b, s =>
    let s1 := transmitInfraredShortMark s
    let s2 := if b &&& 0b10000000 ≠ 0 then delay_us WIDTH_LONG s1 else delay_us WIDTH_SHORT s1
    transmitInfraredByteLoop i ((b <<< 1) % 256) s2

def transmitInfraredByte (b : Nat) (s : State) : State :=
  transmitInfraredByteLoop 8 b s

/-- The six assignments to `irCommand.s` at the head of
`transmitInfraredCommand`. -/
def buildInfraredFrame (s : State) : List Nat :=
  [ s.nConfigDeviceAddress % 256, complementByte s.nConfigDeviceAddress,
    ux s, complementByte (ux s),
    yy s, complementByte (yy s) ]

def transmitInfraredCommand (s : State) : State :=
  let s1 := { s with ACTIVITY_LED := true }
  let s2 := disableInfraredCapture s1
  let s3 := { s2 with irCommand := buildInfraredFrame s2 }
  let s4 := PWM1_Stop (delay_us WIDTH_TRAINING_PULSE (PWM1_Start s3))
  let s5 := delay_us WIDTH_SILENCE_AFTER_TRAINING s4
  let s6 := (List.range 6).foldl (fun t i => transmitInfraredByte (t.irCommand.getD i 0) t) s5
  let s7 := transmitInfraredShortMark s6
  let s8 := { s7 with
    irOut := s7.irOut ++ [Segment.pause 100],
    irOutCapture := s7.irOutCapture ++ [s7.CCP2IE] }
  let s9 := enableInfraredCapture s8
  { s9 with ACTIVITY_LED := false }

/-! ## Events -/

/-- A captured edge: its direction and the Timer1 count since the previous edge. -/
structure PulseEvent where
  rising : Bool
  elapsed : Nat
deriving DecidableEq, Repr

/-- The conversion of a nominal duration in microseconds into Timer1 ticks. -/
def toTicks (us : Nat) : Nat := us * TIMER1_RATE / 1000000

/-- The mailbox as `interrupt()` fills it for an edge: the 16-bit capture
value and the `CCP2CON` mode at the time of capture (`0b101` rising,
`0b100` falling). -/
def deliver (e : PulseEvent) (s : State) : State :=
  { s with nPulseWidth := e.elapsed % 65536,
           nRiseOrFall := if e.rising then 0b00000101 else 0b00000100 }

/-- One event handed to the state machine. -/
def feed (s : State) (e : PulseEvent) : State :=
  processInfraredInterrupt (deliver e s)

def feedAll (s : State) (es : List PulseEvent) : State :=
  es.foldl feed s

/-- The edge that ends a segment, as the receiver module presents it (its
output is low during a mark): the end of a mark is a rising edge, the end
of a space a falling edge, each with the nominal duration in ticks; no
edge ends the rest after a transmission. -/
def edgeOf : Segment → List PulseEvent
  | Segment.mark us => [⟨true, toTicks us⟩]
  | Segment.space us => [⟨false, toTicks us⟩]
  | Segment.pause _ => []

def edgesOf (train : List Segment) : List PulseEvent :=
  train.flatMap edgeOf

/-! ## The wire format in the words of the specification -/

/-- Bit `i` of byte `b`, counted from the most significant bit. -/
def bitMsbFirst (b i : Nat) : Nat := b / 2 ^ (7 - i) % 2

/-- The 48 bits of a frame: byte by byte in frame order, most significant
bit first within each byte. -/
def frameBits (frame : List Nat) : List Nat :=
  frame.flatMap (fun b => (List.range 8).map (bitMsbFirst b))

/-- The two segments of one bit: a short mark, then a long space for bit 1
and a short space for bit 0. -/
def bitSegments (v : Nat) : List Segment :=
  [Segment.mark WIDTH_SHORT, Segment.space (if v = 1 then WIDTH_LONG else WIDTH_SHORT)]

/-- The pulse train of a frame: training burst, silence, the 48 bits, and
the terminating mark. -/
def pulseTrain (frame : List Nat) : List Segment :=
  [Segment.mark WIDTH_TRAINING_PULSE, Segment.space WIDTH_SILENCE_AFTER_TRAINING]
    ++ (frameBits frame).flatMap bitSegments ++ [Segment.mark WIDTH_SHORT]

/-- The validity invariant of a frame: six bytes, each consecutive pair
bitwise complements, and the address byte equal to the configured device
address or to the broadcast value. -/
def FrameValid (configured : Nat) (frame : List Nat) : Prop :=
  frame.length = 6 ∧
  frame.getD 0 0 ^^^ frame.getD 1 0 = 0xFF ∧
  frame.getD 2 0 ^^^ frame.getD 3 0 = 0xFF ∧
  frame.getD 4 0 ^^^ frame.getD 5 0 = 0xFF ∧
  (frame.getD 0 0 = configured ∨ frame.getD 0 0 = BROADCAST_ADDRESS)

instance (configured : Nat) (frame : List Nat) : Decidable (FrameValid configured frame) :=
  inferInstanceAs (Decidable
    (frame.length = 6 ∧
      frame.getD 0 0 ^^^ frame.getD 1 0 = 0xFF ∧
      frame.getD 2 0 ^^^ frame.getD 3 0 = 0xFF ∧
      frame.getD 4 0 ^^^ frame.getD 5 0 = 0xFF ∧
      (frame.getD 0 0 = configured ∨ frame.getD 0 0 = BROADCAST_ADDRESS)))

/-- The segments that one call of `transmitInfraredCommand` adds to the
infrared output. -/
def emitted (t : State) : List Segment :=
  (transmitInfraredCommand t).irOut.drop t.irOut.length

/-! ## Proof vocabulary -/

/-- The output of the loop of `transmitInfraredByte` entered with counter
`i` and remaining bits `b`. -/
def byteSegments : Nat → Nat → List Segment
  | 0, _ => []
  | i + 1, b =>
    [Segment.mark WIDTH_SHORT,
     Segment.space (if b &&& 0b10000000 ≠ 0 then WIDTH_LONG else WIDTH_SHORT)]
      ++ byteSegments i ((b <<< 1) % 256)

/-- A routine of the encoder leaves everything but the infrared output and
the carrier as it is. -/
def KeepsTx (f : State → State) : Prop :=
  ∀ s, (f s).nState = s.nState ∧ (f s).nByte = s.nByte ∧
    (f s).nBit = s.nBit ∧ (f s).cByte = s.cByte ∧
    (f s).irCommand = s.irCommand ∧ (f s).usbCommand = s.usbCommand ∧
    (f s).nConfigDeviceAddress = s.nConfigDeviceAddress ∧
    (f s).rxLog = s.rxLog ∧ (f s).dispatched = s.dispatched ∧
    (f s).nPulseWidth = s.nPulseWidth ∧
    (f s).nRiseOrFall = s.nRiseOrFall ∧ (f s).CCP2IE = s.CCP2IE


/-- A routine keeps the receive machine, the command, the configured
address, the mailbox and the logs of the codec as they are. -/
def Keeps (f : State → State) : Prop :=
  ∀ s, (f s).nState = s.nState ∧ (f s).nByte = s.nByte ∧
    (f s).nBit = s.nBit ∧ (f s).cByte = s.cByte ∧
    (f s).irCommand = s.irCommand ∧ (f s).usbCommand = s.usbCommand ∧
    (f s).nConfigDeviceAddress = s.nConfigDeviceAddress ∧
    (f s).rxLog = s.rxLog ∧ (f s).dispatched = s.dispatched ∧
    (f s).irOut = s.irOut ∧ (f s).nPulseWidth = s.nPulseWidth ∧
    (f s).nRiseOrFall = s.nRiseOrFall

/-- The machine rests in `STATE_IR_RESET` as the C start-up code and
`gotoResetState` leave it: both counters are zero (and the scratch buffer
has its six bytes). -/
def InReset (s : State) : Prop :=
  s.nState = STATE_IR_RESET ∧ s.nByte = 0 ∧ s.nBit = 0 ∧ s.irCommand.length = 6

instance (s : State) : Decidable (InReset s) :=
  inferInstanceAs (Decidable
    (s.nState = STATE_IR_RESET ∧ s.nByte = 0 ∧ s.nBit = 0 ∧ s.irCommand.length = 6))

/-- The value of `cByte` after one of the two bit branches of
`processInfraredInterrupt` has shifted bit `v` into `c`. -/
def shiftIn (c v : Nat) : Nat :=
  if v = 1 then (c <<< 1) % 256 ||| 1 else (c <<< 1) % 256

/-- The scratch buffer after the bytes `bs` have been stored from index `j` on. -/
def storeBytes : List Nat → Nat → List Nat → List Nat
  | l, _, [] => l
  | l, j, b :: bs => storeBytes (l.set j b) (j + 1) bs

/-- The reception of bits leaves the command, the configured address, the
dispatch log and the infrared output as they are. -/
def SameSide (s t : State) : Prop :=
  t.usbCommand = s.usbCommand ∧ t.nConfigDeviceAddress = s.nConfigDeviceAddress ∧
  t.dispatched = s.dispatched ∧ t.irOut = s.irOut

/-- The elapsed tick count `t` lies in none of the tolerance windows
`[toTicks(x - margin), toTicks(x + margin)]` of the duration classes. -/
def InNoWindow (t : Nat) : Prop :=
  ∀ x ∈ [WIDTH_TRAINING_PULSE, WIDTH_SILENCE_AFTER_TRAINING, WIDTH_SHORT, WIDTH_LONG],
    ¬ (toTicks (x - WIDTH_ERROR_MARGIN) ≤ t ∧ t ≤ toTicks (x + WIDTH_ERROR_MARGIN))

instance (t : Nat) : Decidable (InNoWindow t) :=
  inferInstanceAs (Decidable
    (∀ x ∈ [WIDTH_TRAINING_PULSE, WIDTH_SILENCE_AFTER_TRAINING, WIDTH_SHORT, WIDTH_LONG],
      ¬ (toTicks (x - WIDTH_ERROR_MARGIN) ≤ t ∧ t ≤ toTicks (x + WIDTH_ERROR_MARGIN))))

/-- The value of a list of bits, most significant bit first. -/
def byteOfBits (l : List Nat) : Nat := l.foldl (fun acc v => 2 * acc + v) 0

/-- Every hand-over to `interpretInfraredCommand` that the receive log
records after its first `L0.length` entries comes right after a reset
followed by exactly the 48 bits of the frame handed over (six bytes, most
significant bit first), and is itself followed at once by a reset. -/
def Framed (L0 log : List RxEvent) : Prop :=
  ∀ pre f post, log = L0 ++ pre ++ RxEvent.interpret f :: post →
    ∃ pre' post', pre = pre' ++ RxEvent.reset :: (frameBits f).map RxEvent.bit ∧
      f.length = 6 ∧ (∀ b ∈ f, b < 256) ∧ post = RxEvent.reset :: post'

/-- The invariant of the receive machine that links its counters and
buffers to the receive log. -/
def RxInv (L0 : List RxEvent) (s : State) : Prop :=
  s.irCommand.length = 6 ∧ Framed L0 s.rxLog ∧
  (((s.nState = STATE_IR_RESET ∨ s.nState = STATE_IR_TRAINING_RECEIVED) ∧
      s.nByte = 0 ∧ s.nBit = 0 ∧
      ∃ pre, s.rxLog = L0 ++ pre ++ [RxEvent.reset]) ∨
   (s.nState = STATE_IR_RECEIVING_BITS ∧ s.nByte ≤ 5 ∧ s.nBit ≤ 7 ∧
      (∀ b ∈ s.irCommand.take s.nByte, b < 256) ∧
      ∃ pre cur, s.rxLog = L0 ++ pre ++ RxEvent.reset ::
          (frameBits (s.irCommand.take s.nByte) ++ cur).map RxEvent.bit ∧
        cur.length = s.nBit ∧ (∀ v ∈ cur, v ≤ 1) ∧
        s.cByte % 2 ^ s.nBit = byteOfBits cur) ∨
   (s.nState = STATE_IR_COMMAND_RECEIVED ∧ (∀ b ∈ s.irCommand, b < 256) ∧
      ∃ pre, s.rxLog = L0 ++ pre ++ RxEvent.reset ::
          (frameBits s.irCommand).map RxEvent.bit))

/-! ## Capture interrupt and foreground loop -/

/-- The capture branch of `interrupt()`, taken when `PIR2.CCP2IF` is set.
`USB_Interrupt_Proc` and the Timer3 and Timer0 branches of the handler touch
nothing of the model. -/
def interrupt (s : State) : State :=
  if s.CCP2IF then
    { s with
      nPulseWidth := s.CCPR2 % 65536,
      nRiseOrFall := s.CCP2CON,
      CCP2CON := s.CCP2CON ^^^ 0b00000001,
      TMR1 := 0,
      nEdgeCount := (s.nEdgeCount + 1) % 256,
      CCP2IF := false,
      bInfraredInterruptPending := true }
  else s

/-- The first statement of the loop of `main()`:
`if (bInfraredInterruptPending) { processInfraredInterrupt(); bInfraredInterruptPending = 0; }`
run without an interrupt in between. -/
def pollInfrared (s : State) : State :=
  if s.bInfraredInterruptPending then
    { processInfraredInterrupt s with bInfraredInterruptPending := false }
  else s

/-- An edge of the selected polarity at the capture pin (the edge-capture
facility of the chip): Timer1 is copied into `CCPR2`, `PIR2.CCP2IF` is raised,
and the handler runs if the capture interrupt is enabled. -/
def captureEdge (ticks : Nat) (s : State) : State :=
  let s1 := { s with CCPR2 := ticks % 65536, CCP2IF := true }
  if s1.CCP2IE then interrupt s1 else s1

/-- The same statement of `main()` with one edge captured after
`processInfraredInterrupt()` has returned and before the assignment
`bInfraredInterruptPending = 0`. -/
def pollInfraredPreempted (ticks : Nat) (s : State) : State :=
  if s.bInfraredInterruptPending then
    { captureEdge ticks (processInfraredInterrupt s) with
      bInfraredInterruptPending := false }
  else s

/-! ## Front panel: usage selection and descriptions -/

/-- The routine `adjustUsage(nDelta)`; the sum is formed in 16-bit
arithmetic before it is masked. -/
def adjustUsage (nDelta : Int) (s : State) : State :=
  let nUsage := ((((ux s >>> 4 : Nat) : Int) + nDelta) % 65536).toNat &&& 0x0F
  let newUx := ((ux s &&& 0x0F) ||| (nUsage <<< 4)) % 256
  { s with usbCommand := newUx * 256 + yy s }

/-- The routine `getDesc`. The two key-name tables `getKeyWithNoShift` and
`getKeyWithShift` (switches on `usbCommand.s.yy`) are parameters. -/
def getDesc (getKeyWithNoShift getKeyWithShift : Nat → String) (s : State) : String :=
  let nFunction := s.usbCommand % 65536
  if ux s &&& 0xF0 = USAGE_KEYBOARD then
    let pUnshiftedKey := getKeyWithNoShift (yy s)
    if ux s &&& 0b00000010 ≠ 0 then
      let pShiftedKey := getKeyWithShift (yy s)
      if pShiftedKey ≠ "" then pShiftedKey else pUnshiftedKey
    else pUnshiftedKey
  else if ux s &&& 0xF0 = USAGE_SYSTEM_CONTROL then
    if nFunction = 0x1081 then "Power off"
    else if nFunction = 0x1082 then "Sleep"
    else if nFunction = 0x1083 then "Wake"
    else ""
  else if ux s &&& 0xF0 = USAGE_CONSUMER_DEVICE then
    if nFunction = 0x20B5 then ">>|"
    else if nFunction = 0x20B6 then "|<<"
    else if nFunction = 0x20B7 then "Stop"
    else if nFunction = 0x20CD then ">/||"
    else if nFunction = 0x20E2 then "Mute"
    else if nFunction = 0x20E9 then "Vol+"
    else if nFunction = 0x20EA then "Vol-"
    else if nFunction = 0x2183 then "Media Player"
    else if nFunction = 0x218A then "Email"
    else if nFunction = 0x2192 then "Calculator"
    else if nFunction = 0x2221 then "Search"
    else if nFunction = 0x2223 then "Home"
    else if nFunction = 0x2224 then "Prev"
    else if nFunction = 0x2225 then "Next"
    else if nFunction = 0x2226 then "Stop"
    else if nFunction = 0x2227 then "Refresh"
    else ""
  else if ux s &&& 0xF0 = USAGE_LOCAL_IRK_FUNCTION then
    if yy s = CMD_SET_DEVICE_ADDRESS then "Set Address"
    else if yy s = CMD_PRESS_POWER_SWITCH then "Power Switch"
    else if yy s = CMD_PRESS_RESET_SWITCH then "Reset Switch"
    else if yy s = CMD_INIT_USB then "Init USB"
    else if yy s = CMD_SET_BACKLIGHT_OFF then "Light Off"
    else if yy s = CMD_SET_BACKLIGHT_ON then "Light On"
    else if yy s = CMD_SET_BACKLIGHT_DELAY then "Light Delay"
    else if yy s = CMD_SET_DEBUG_OFF then "Debug Off"
    else if yy s = CMD_SET_DEBUG_ON then "Debug On"
    else ""
  else ""

/-! ## Proof vocabulary: validator, diagnostics and usage selection -/

/-- The frame in the scratch buffer passes the tests of
`interpretInfraredCommand` for the configured address `addr`. -/
def Accepted (addr : Nat) (ir : List Nat) : Prop :=
  (ir.getD 0 0 = addr ∨ ir.getD 0 0 = BROADCAST_ADDRESS) ∧
  ir.getD 0 0 ^^^ ir.getD 1 0 ≠ 0 ∧
  ir.getD 2 0 ^^^ ir.getD 3 0 ≠ 0 ∧
  ir.getD 4 0 ^^^ ir.getD 5 0 ≠ 0

instance (addr : Nat) (ir : List Nat) : Decidable (Accepted addr ir) :=
  inferInstanceAs (Decidable
    ((ir.getD 0 0 = addr ∨ ir.getD 0 0 = BROADCAST_ADDRESS) ∧
      ir.getD 0 0 ^^^ ir.getD 1 0 ≠ 0 ∧
      ir.getD 2 0 ^^^ ir.getD 3 0 ≠ 0 ∧
      ir.getD 4 0 ^^^ ir.getD 5 0 ≠ 0))

/-- Two states agree on what `processInfraredInterrupt` decides upon, the
event apart: the receive machine, the scratch buffer and the configured
address. -/
def SameCore (s t : State) : Prop :=
  s.nState = t.nState ∧ s.nByte = t.nByte ∧ s.nBit = t.nBit ∧ s.cByte = t.cByte ∧
  s.irCommand = t.irCommand ∧ s.nConfigDeviceAddress = t.nConfigDeviceAddress

/-- The byte that `adjustUsage(nDelta)` stores in `usbCommand.s.ux.byte`
when that byte holds `a`. -/
def adjustedUx (nDelta : Int) (a : Nat) : Nat :=
  ((a &&& 0x0F) ||| (((((a >>> 4 : Nat) : Int) + nDelta) % 65536).toNat &&& 0x0F) <<< 4) % 256

/-- The nominal duration of a segment in microseconds. -/
def Segment.duration : Segment → Nat
  | Segment.mark us => us
  | Segment.space us => us
  | Segment.pause ms => ms * 1000

/-- The states that the firmware reaches from the state after
`enableInfraredCapture` by writes of the capture interrupt to the mailbox
(`deliver`, `captureEdge`) and by `processInfraredInterrupt`,
`gotoResetState` and `transmitInfraredCommand` steps. -/
inductive Reachable : State → Prop
  | start (s : State) : Reachable (enableInfraredCapture s)
  | deliver (e : PulseEvent) (s : State) : Reachable s → Reachable (deliver e s)
  | capture (ticks : Nat) (s : State) : Reachable s → Reachable (captureEdge ticks s)
  | process (s : State) : Reachable s → Reachable (processInfraredInterrupt s)
  | reset (s : State) : Reachable s → Reachable (gotoResetState s)
  | transmit (s : State) : Reachable s → Reachable (transmitInfraredCommand s)

/-- The counters of the receive machine in each of its four states. -/
def IndexInv (s : State) : Prop :=
  s.irCommand.length = 6 ∧
  (((s.nState = STATE_IR_RESET ∨ s.nState = STATE_IR_TRAINING_RECEIVED) ∧
      s.nByte = 0 ∧ s.nBit = 0) ∨
   (s.nState = STATE_IR_RECEIVING_BITS ∧ s.nByte ≤ 5 ∧ s.nBit ≤ 7) ∨
   (s.nState = STATE_IR_COMMAND_RECEIVED ∧ s.nByte = 6 ∧ s.nBit = 0))

/-! ## The receive machine of `src/smt/IRK.c`

The second firmware variant has the widths `WIDTH_SHORT`, `WIDTH_LONG`,
`WIDTH_TRAINING_PULSE` and `WIDTH_SILENCE_AFTER_TRAINING`, the four states,
`appendBit`, `disableInfraredCapture` and the mailbox with the same text as
`src/IRK.c`; what differs is embedded here. The compiler constant `__FOSC__`
(the oscillator frequency in kHz) is the parameter `fosc`, and the constant
expressions of the thresholds are taken at their mathematical value. -/

abbrev Smt.WIDTH_ERROR_MARGIN : Nat := 300

def Smt.CLOCK_FREQUENCY (fosc : Nat) : Nat := fosc * 1000

def Smt.TIMER1_RATE (fosc : Nat) : Nat := Smt.CLOCK_FREQUENCY fosc / 4 / TIMER1_PRESCALER

/-- The macro `MICROSECONDS(x)` of `src/smt/IRK.c`. -/
def Smt.MICROSECONDS (fosc x : Nat) : Nat := x * Smt.TIMER1_RATE fosc / 1000000

def Smt.SMALLEST (fosc x : Nat) : Nat := Smt.MICROSECONDS fosc (x - Smt.WIDTH_ERROR_MARGIN)

def Smt.LARGEST (fosc x : Nat) : Nat := Smt.MICROSECONDS fosc (x + Smt.WIDTH_ERROR_MARGIN)

def Smt.IS_PULSE_WIDTH_NEAR (fosc x : Nat) (s : State) : Bool :=
  decide (s.nPulseWidth > Smt.SMALLEST fosc x) && decide (s.nPulseWidth < Smt.LARGEST fosc x)

/-- The routine `gotoResetState` of `src/smt/IRK.c`: it counts the reset and
does not touch the scratch buffer. -/
def Smt.gotoResetState (s : State) : State :=
  { s with
    nState := STATE_IR_RESET,
    nByte := 0,
    nBit := 0,
    resetCount := (s.resetCount + 1) % 65536,
    rxLog := s.rxLog ++ [RxEvent.reset] }

def Smt.enableInfraredCapture (s : State) : State :=
  let s1 := { s with CCP2IE := false, CCP2IF := false, CCP2CON := 0b00000100, TMR1 := 0 }
  let s2 := Smt.gotoResetState s1
  { s2 with CCP2IE := true }

/-- The routine `processInfraredInterrupt` of `src/smt/IRK.c`. The validator
and dispatcher that it calls in `STATE_IR_COMMAND_RECEIVED` is the parameter
`interpretInfraredCommand`: what is proved holds for every such routine, and
`Smt.interpretInfraredCommand` below is the one of the source. -/
def Smt.processInfraredInterrupt (fosc : Nat) (interpretInfraredCommand : State → State)
    (s : State) : State :=
  if s.nState = STATE_IR_RESET then
    if bRisingEdge s && Smt.IS_PULSE_WIDTH_NEAR fosc WIDTH_TRAINING_PULSE s then
      { s with nState := STATE_IR_TRAINING_RECEIVED }
    else Smt.gotoResetState s
  else if s.nState = STATE_IR_TRAINING_RECEIVED then
    if bFallingEdge s && Smt.IS_PULSE_WIDTH_NEAR fosc WIDTH_SILENCE_AFTER_TRAINING s then
      { s with nState := STATE_IR_RECEIVING_BITS }
    else Smt.gotoResetState s
  else if s.nState = STATE_IR_RECEIVING_BITS then
    if bRisingEdge s then
      if s.nPulseWidth > Smt.LARGEST fosc WIDTH_SHORT then
        Smt.gotoResetState s
      else s
    else
      if s.nPulseWidth > Smt.LARGEST fosc WIDTH_LONG then
        Smt.gotoResetState s
      else if s.nPulseWidth > Smt.SMALLEST fosc WIDTH_LONG then
        appendBit { s with cByte := (s.cByte <<< 1) % 256 ||| 1,
                           rxLog := s.rxLog ++ [RxEvent.bit 1] }
      else if s.nPulseWidth > Smt.SMALLEST fosc WIDTH_SHORT then
        appendBit { s with cByte := (s.cByte <<< 1) % 256,
                           rxLog := s.rxLog ++ [RxEvent.bit 0] }
      else Smt.gotoResetState s
  else if s.nState = STATE_IR_COMMAND_RECEIVED then
    Smt.enableInfraredCapture (interpretInfraredCommand (disableInfraredCapture s))
  else s

/-- One event handed to the state machine of `src/smt/IRK.c`. -/
def Smt.feed (fosc : Nat) (interpretInfraredCommand : State → State) (s : State)
    (e : PulseEvent) : State :=
  Smt.processInfraredInterrupt fosc interpretInfraredCommand (deliver e s)

/-! ## Proof vocabulary: bit assembly and jitter -/

/-- The bit that a falling edge is decoded as when the lower bound of the
long space is `longLo` ticks. -/
def bitValue (longLo : Nat) (e : PulseEvent) : Nat :=
  if longLo < e.elapsed then 1 else 0

/-- The values of the falling edges of a list of events, in order. -/
def bitsOf (longLo : Nat) (es : List PulseEvent) : List Nat :=
  (es.filter (fun e => !e.rising)).map (bitValue longLo)

/-- A rising edge that the receiver lets pass while it receives bits. -/
def IsMarkEvent (shortHi : Nat) (e : PulseEvent) : Prop :=
  e.rising = true ∧ e.elapsed ≤ shortHi

/-- A falling edge that the receiver accepts as a bit. -/
def IsBitEvent (shortLo longHi : Nat) (e : PulseEvent) : Prop :=
  e.rising = false ∧ shortLo < e.elapsed ∧ e.elapsed ≤ longHi

/-- Byte `j` of a bit string, most significant bit first:
the sum of `v(8j+i) * 2^(7-i)` over `i` in `0..7`. -/
def byteAt (vs : List Nat) (j : Nat) : Nat :=
  Finset.sum (Finset.range 8) (fun i => vs.getD (8 * j + i) 0 * 2 ^ (7 - i))

/-- The receive machine after the bits `vs` have been shifted in, starting
from `nByte = nBit = 0` in state `s0`: the counters, the stored bytes, the
bits of the byte in progress, and what has not moved. -/
def Assembled (s0 : State) (vs : List Nat) (s : State) : Prop :=
  s.irCommand.length = 6 ∧ vs.length ≤ 48 ∧
  s.nState = (if vs.length = 48 then STATE_IR_COMMAND_RECEIVED
    else STATE_IR_RECEIVING_BITS) ∧
  s.nByte = vs.length / 8 ∧ s.nBit = vs.length % 8 ∧
  s.irCommand.take (vs.length / 8)
    = (List.range (vs.length / 8)).map (fun j => byteOfBits ((vs.drop (8 * j)).take 8)) ∧
  s.cByte % 2 ^ (vs.length % 8) = byteOfBits (vs.drop (8 * (vs.length / 8))) ∧
  SameSide s0 s ∧ s.rxLog = s0.rxLog ++ vs.map RxEvent.bit

/-- What a receive machine with step function `step` does with marks and
spaces in `STATE_IR_RECEIVING_BITS`, its four thresholds given. -/
def DecodesBits (shortLo shortHi longLo longHi : Nat)
    (step : State → PulseEvent → State) : Prop :=
  (∀ s e, s.nState = STATE_IR_RECEIVING_BITS → IsMarkEvent shortHi e →
    step s e = deliver e s) ∧
  (∀ s e, s.nState = STATE_IR_RECEIVING_BITS → IsBitEvent shortLo longHi e →
    step s e = appendBit { deliver e s with
      cByte := shiftIn s.cByte (bitValue longLo e),
      rxLog := s.rxLog ++ [RxEvent.bit (bitValue longLo e)] })

/-- What a receive machine with step function `step` does with the training
burst and the silence after it. -/
def DecodesPreamble (trainingLo trainingHi silenceLo silenceHi : Nat)
    (step : State → PulseEvent → State) : Prop :=
  (∀ s e, s.nState = STATE_IR_RESET → e.rising = true →
    trainingLo < e.elapsed → e.elapsed < trainingHi →
    step s e = { deliver e s with nState := STATE_IR_TRAINING_RECEIVED }) ∧
  (∀ s e, s.nState = STATE_IR_TRAINING_RECEIVED → e.rising = false →
    silenceLo < e.elapsed → e.elapsed < silenceHi →
    step s e = { deliver e s with nState := STATE_IR_RECEIVING_BITS })

/-- Event `e` is the edge that ends segment `seg`, with an elapsed tick count
strictly between `lo x` and `hi x` for the nominal duration `x` of the segment. -/
def InWindow (lo hi : Nat → Nat) (seg : Segment) (e : PulseEvent) : Prop :=
  match seg with
  | Segment.mark us => e.rising = true ∧ lo us < e.elapsed ∧ e.elapsed < hi us
  | Segment.space us => e.rising = false ∧ lo us < e.elapsed ∧ e.elapsed < hi us
  | Segment.pause _ => False

/-- The events `es` are the edges of the pulse train `train`, one per
segment, each inside the window of its own nominal class. -/
def Jittered (lo hi : Nat → Nat) (train : List Segment) (es : List PulseEvent) : Prop :=
  List.Forall₂ (InWindow lo hi) train es

/-- The edges that end the segments of a pulse train when a segment of
`us` microseconds lasts `ticks us` timer ticks (`edgesOf` for any tick rate). -/
def edgesAt (ticks : Nat → Nat) (train : List Segment) : List PulseEvent :=
  train.flatMap (fun seg =>
    match seg with
    | Segment.mark us => [⟨true, ticks us⟩]
    | Segment.space us => [⟨false, ticks us⟩]
    | Segment.pause _ => [])

/-! ## The threshold constants of `src/smt/IRK.c` in machine arithmetic -/

/-- The macro `MICROSECONDS(x)` with its product `x * TIMER1_RATE` formed in
unsigned arithmetic of `w` bits. -/
def Smt.MICROSECONDS_unsigned (w fosc x : Nat) : Nat :=
  (x * Smt.TIMER1_RATE fosc) % 2 ^ w / 1000000

/-- The macro `MICROSECONDS(x)` with its product `x * TIMER1_RATE` formed in
signed two's complement arithmetic of `w` bits; the division truncates
towards zero as in C. -/
def Smt.MICROSECONDS_signed (w fosc x : Nat) : Int :=
  let p := (x * Smt.TIMER1_RATE fosc) % 2 ^ w
  Int.tdiv (if p < 2 ^ (w - 1) then (p : Int) else (p : Int) - 2 ^ w) 1000000

/-! ## The validator and dispatcher of `src/smt/IRK.c`

`enableUSB`, `disableUSB` and the three `sendUSB...` routines are those of
`src/IRK.c` (the two files differ there in the display texts and in the
spelling of `Delay_ms` and of the routine names only) and are shared;
`showDebugInfo` and `updateLCD` write the display, of which nothing is state
of the model. -/

abbrev Smt.CMD_PRESS_AUX_SWITCH : Nat := 0x0A
abbrev Smt.CMD_POWER_SWITCH_ON : Nat := 0x11
abbrev Smt.CMD_RESET_SWITCH_ON : Nat := 0x12
abbrev Smt.CMD_AUX_SWITCH_ON : Nat := 0x1A
abbrev Smt.CMD_POWER_SWITCH_OFF : Nat := 0x21
abbrev Smt.CMD_RESET_SWITCH_OFF : Nat := 0x22
abbrev Smt.CMD_AUX_SWITCH_OFF : Nat := 0x2A

/-- The routine `showDebugInfo` of `src/smt/IRK.c`: it shows the buffer, the
reset count and the last event on the display and zeroes `resetCount`. -/
def Smt.showDebugInfo (s : State) : State :=
  { s with resetCount := 0 }

/-- The routine `updateLCD` of `src/smt/IRK.c`, which only writes the display. -/
def Smt.updateLCD (s : State) : State := s

/-- The routine `performLocalIRKFunction` of `src/smt/IRK.c`; a `PRESS` case
falls through into the `OFF` case of its switch, so it writes `ON`, waits
250 ms and writes `OFF`. After setting `nConfigBacklightDelay` the backlight
cases call `actionBacklightDelay`, which drives the backlight pin and its
timer only; `CMD_SET_DEVICE_ADDRESS` and every other code do nothing. -/
def Smt.performLocalIRKFunction (s : State) : State :=
  if yy s = CMD_PRESS_POWER_SWITCH then
    { s with switchWrites := s.switchWrites ++
        [⟨SwitchPin.POWER_SWITCH, true⟩, ⟨SwitchPin.POWER_SWITCH, false⟩] }
  else if yy s = Smt.CMD_POWER_SWITCH_OFF then
    { s with switchWrites := s.switchWrites ++ [⟨SwitchPin.POWER_SWITCH, false⟩] }
  else if yy s = CMD_PRESS_RESET_SWITCH then
    { s with switchWrites := s.switchWrites ++
        [⟨SwitchPin.RESET_SWITCH, true⟩, ⟨SwitchPin.RESET_SWITCH, false⟩] }
  else if yy s = Smt.CMD_RESET_SWITCH_OFF then
    { s with switchWrites := s.switchWrites ++ [⟨SwitchPin.RESET_SWITCH, false⟩] }
  else if yy s = Smt.CMD_PRESS_AUX_SWITCH then
    { s with switchWrites := s.switchWrites ++
        [⟨SwitchPin.AUX_SWITCH, true⟩, ⟨SwitchPin.AUX_SWITCH, false⟩] }
  else if yy s = Smt.CMD_AUX_SWITCH_OFF then
    { s with switchWrites := s.switchWrites ++ [⟨SwitchPin.AUX_SWITCH, false⟩] }
  else if yy s = Smt.CMD_POWER_SWITCH_ON then
    { s with switchWrites := s.switchWrites ++ [⟨SwitchPin.POWER_SWITCH, true⟩] }
  else if yy s = Smt.CMD_RESET_SWITCH_ON then
    { s with switchWrites := s.switchWrites ++ [⟨SwitchPin.RESET_SWITCH, true⟩] }
  else if yy s = Smt.CMD_AUX_SWITCH_ON then
    { s with switchWrites := s.switchWrites ++ [⟨SwitchPin.AUX_SWITCH, true⟩] }
  else if yy s = CMD_INIT_USB then
    enableUSB (disableUSB s)
  else if yy s = CMD_SET_BACKLIGHT_OFF then
    { s with nConfigBacklightDelay := 0x00 }
  else if yy s = CMD_SET_BACKLIGHT_ON then
    { s with nConfigBacklightDelay := 0xFF }
  else if yy s = CMD_SET_DEBUG_OFF then
    Smt.updateLCD { s with bDebugMode := false }
  else if yy s = CMD_SET_DEBUG_ON then
    { s with bDebugMode := true }
  else s

/-- The routine `executeCommand` of `src/smt/IRK.c`; its entry is recorded
in `dispatched` with the command `usbCommand.uxyy` it is about to execute. -/
def Smt.executeCommand (s : State) : State :=
  let s0 := { s with dispatched := s.dispatched ++ [s.usbCommand] }
  let s1 := { s0 with nActivityLEDDelay := 10000, ACTIVITY_LED := true }
  if ux s1 &&& 0xF0 = USAGE_KEYBOARD then sendUSBKeystroke s1
  else if ux s1 &&& 0xF0 = USAGE_SYSTEM_CONTROL then sendUSBSystemControlCommand s1
  else if ux s1 &&& 0xF0 = USAGE_CONSUMER_DEVICE then sendUSBConsumerDeviceCommand s1
  else if ux s1 &&& 0xF0 = USAGE_LOCAL_IRK_FUNCTION then Smt.performLocalIRKFunction s1
  else s1

/-- The routine `interpretInfraredCommand` of `src/smt/IRK.c`. -/
def Smt.interpretInfraredCommand (s : State) : State :=
  let s := { s with rxLog := s.rxLog ++ [RxEvent.interpret s.irCommand] }
  if nAddress s ≠ s.nConfigDeviceAddress ∧ nAddress s ≠ BROADCAST_ADDRESS then s
  else if nAddress s ^^^ nAddressInverted s = 0 then s
  else if nModifiers s ^^^ nModifiersInverted s = 0 then s
  else if nCommand s ^^^ nCommandInverted s = 0 then s
  else
    let s1 := { s with usbCommand := (nModifiers s <<< 8 ||| nCommand s) % 65536 }
    let s2 := if s1.bDebugMode then Smt.showDebugInfo s1 else Smt.updateLCD s1
    Smt.executeCommand s2

/-! ## Theorems -/

/-! ### Byte arithmetic -/

theorem shl8_or (m c : Nat) (hc : c < 256) : m <<< 8 ||| c = m * 256 + c := by
  have h := @Nat.mul_add_lt_is_or 8 c (by simpa using hc) m
  rw [Nat.shiftLeft_eq, Nat.mul_comm m, ← h]

set_option maxRecDepth 100000 in
theorem xor_complement : ∀ a < 256, a ^^^ (255 - a) = 255 := by decide

set_option maxRecDepth 100000 in
theorem or_one_even : ∀ y < 128, (2 * y) ||| 1 = 2 * y + 1 := by decide

theorem MICROSECONDS_eq_toTicks (us : Nat) : MICROSECONDS us = toTicks us := by
  unfold MICROSECONDS toTicks
  have h : us * TIMER1_RATE = us * 3 * 250000 := by
    simp only [TIMER1_RATE, CLOCK_FREQUENCY, TIMER1_PRESCALER]; omega
  rw [h]
  omega

/-! ### Dispatcher: what it leaves alone -/

theorem updateLCD_keeps : Keeps updateLCD := by
  intro s
  unfold updateLCD
  split_ifs <;> simp

theorem HID_Write_keeps (r : HidReport) : Keeps (HID_Write r) := by
  intro s; simp [HID_Write]

theorem sendUSBKeystroke_keeps : Keeps sendUSBKeystroke := by
  intro s
  unfold sendUSBKeystroke
  split_ifs <;> simp [HID_Write]

theorem sendUSBSystemControlCommand_keeps : Keeps sendUSBSystemControlCommand := by
  intro s
  unfold sendUSBSystemControlCommand
  split_ifs <;> simp [HID_Write]

theorem sendUSBConsumerDeviceCommand_keeps : Keeps sendUSBConsumerDeviceCommand := by
  intro s
  unfold sendUSBConsumerDeviceCommand
  split_ifs <;> simp [HID_Write]

theorem performLocalIRKFunction_keeps : Keeps performLocalIRKFunction := by
  intro s
  unfold performLocalIRKFunction
  split_ifs <;> simp [HID_Write, enableUSB, disableUSB]

theorem sendUSBCommand_fields (s : State) :
    (sendUSBCommand s).nState = s.nState ∧ (sendUSBCommand s).nByte = s.nByte ∧
    (sendUSBCommand s).nBit = s.nBit ∧ (sendUSBCommand s).cByte = s.cByte ∧
    (sendUSBCommand s).irCommand = s.irCommand ∧
    (sendUSBCommand s).usbCommand = s.usbCommand ∧
    (sendUSBCommand s).nConfigDeviceAddress = s.nConfigDeviceAddress ∧
    (sendUSBCommand s).rxLog = s.rxLog ∧
    (sendUSBCommand s).dispatched = s.dispatched ++ [s.usbCommand] ∧
    (sendUSBCommand s).irOut = s.irOut ∧
    (sendUSBCommand s).nPulseWidth = s.nPulseWidth ∧
    (sendUSBCommand s).nRiseOrFall = s.nRiseOrFall := by
  unfold sendUSBCommand
  simp only []
  split_ifs <;>
    simp [sendUSBKeystroke_keeps _, sendUSBSystemControlCommand_keeps _,
      sendUSBConsumerDeviceCommand_keeps _, performLocalIRKFunction_keeps _]

/-! ### Receive machine: the reset routine -/

theorem gotoResetState_fields (s : State) :
    (gotoResetState s).nState = STATE_IR_RESET ∧ (gotoResetState s).nByte = 0 ∧
    (gotoResetState s).nBit = 0 ∧ (gotoResetState s).cByte = s.cByte ∧
    (gotoResetState s).irCommand = List.replicate 6 0 ∧
    (gotoResetState s).usbCommand = s.usbCommand ∧
    (gotoResetState s).nConfigDeviceAddress = s.nConfigDeviceAddress ∧
    (gotoResetState s).rxLog = s.rxLog ++ [RxEvent.reset] ∧
    (gotoResetState s).dispatched = s.dispatched ∧
    (gotoResetState s).irOut = s.irOut ∧
    (gotoResetState s).nPulseWidth = s.nPulseWidth ∧
    (gotoResetState s).nRiseOrFall = s.nRiseOrFall := by
  unfold gotoResetState
  simp only []
  split_ifs <;> simp

theorem enableInfraredCapture_fields (s : State) :
    (enableInfraredCapture s).nState = STATE_IR_RESET ∧
    (enableInfraredCapture s).nByte = 0 ∧
    (enableInfraredCapture s).nBit = 0 ∧ (enableInfraredCapture s).cByte = s.cByte ∧
    (enableInfraredCapture s).irCommand = List.replicate 6 0 ∧
    (enableInfraredCapture s).usbCommand = s.usbCommand ∧
    (enableInfraredCapture s).nConfigDeviceAddress = s.nConfigDeviceAddress ∧
    (enableInfraredCapture s).rxLog = s.rxLog ++ [RxEvent.reset] ∧
    (enableInfraredCapture s).dispatched = s.dispatched ∧
    (enableInfraredCapture s).irOut = s.irOut ∧
    (enableInfraredCapture s).nPulseWidth = s.nPulseWidth ∧
    (enableInfraredCapture s).nRiseOrFall = s.nRiseOrFall := by
  unfold enableInfraredCapture
  simp [gotoResetState_fields _]

/-! ### Frame validator -/

theorem interpretInfraredCommand_rejects_address (s : State)
    (h1 : nAddress s ≠ s.nConfigDeviceAddress) (h2 : nAddress s ≠ BROADCAST_ADDRESS) :
    interpretInfraredCommand s
      = { s with rxLog := s.rxLog ++ [RxEvent.interpret s.irCommand] } := by
  unfold interpretInfraredCommand
  simp only [nAddress] at h1 h2 ⊢
  rw [if_pos ⟨h1, h2⟩]

theorem interpretInfraredCommand_accepts (s : State)
    (ha : nAddress s = s.nConfigDeviceAddress ∨ nAddress s = BROADCAST_ADDRESS)
    (h01 : nAddress s ^^^ nAddressInverted s ≠ 0)
    (h23 : nModifiers s ^^^ nModifiersInverted s ≠ 0)
    (h45 : nCommand s ^^^ nCommandInverted s ≠ 0) :
    interpretInfraredCommand s
      = sendUSBCommand (updateLCD
          { s with rxLog := s.rxLog ++ [RxEvent.interpret s.irCommand],
                   usbCommand := (nModifiers s <<< 8 ||| nCommand s) % 65536 }) := by
  unfold interpretInfraredCommand
  simp only [nAddress, nAddressInverted, nModifiers, nModifiersInverted, nCommand,
    nCommandInverted] at ha h01 h23 h45 ⊢
  have hn : ¬ (s.irCommand.getD 0 0 ≠ s.nConfigDeviceAddress
      ∧ s.irCommand.getD 0 0 ≠ BROADCAST_ADDRESS) := by
    rintro ⟨h1, h2⟩
    rcases ha with h | h
    · exact h1 h
    · exact h2 h
  rw [if_neg hn, if_neg h01, if_neg h23, if_neg h45]

/-! ### Transmit encoder: what it emits -/

theorem PWM1_Start_keeps : KeepsTx PWM1_Start := by intro s; simp [PWM1_Start]

theorem PWM1_Stop_keeps : KeepsTx PWM1_Stop := by intro s; simp [PWM1_Stop]

theorem delay_us_keeps (us : Nat) : KeepsTx (delay_us us) := by intro s; simp [delay_us]

theorem transmitInfraredShortMark_keeps : KeepsTx transmitInfraredShortMark := by
  intro s
  simp [transmitInfraredShortMark, PWM1_Start_keeps _, PWM1_Stop_keeps _, delay_us_keeps _ _]

theorem transmitInfraredShortMark_out (s : State) :
    (transmitInfraredShortMark s).irOut = s.irOut ++ [Segment.mark WIDTH_SHORT] ∧
    (transmitInfraredShortMark s).pwmOn = false := by
  simp [transmitInfraredShortMark, PWM1_Stop, PWM1_Start, delay_us]

theorem delay_us_out (us : Nat) (s : State) :
    (delay_us us s).irOut
      = s.irOut ++ [if s.pwmOn then Segment.mark us else Segment.space us] ∧
    (delay_us us s).pwmOn = s.pwmOn := by
  simp [delay_us]

theorem transmitInfraredByteLoop_keeps (i b : Nat) :
    KeepsTx (transmitInfraredByteLoop i b) := by
  induction i generalizing b with
  | zero => intro s; simp [transmitInfraredByteLoop]
  | succ i ih =>
    intro s
    simp only [transmitInfraredByteLoop]
    split_ifs <;>
      simp [ih _ _, delay_us_keeps _ _, transmitInfraredShortMark_keeps _]

theorem transmitInfraredByteLoop_out (i : Nat) :
    ∀ (b : Nat) (s : State), s.pwmOn = false →
      (transmitInfraredByteLoop i b s).irOut = s.irOut ++ byteSegments i b ∧
      (transmitInfraredByteLoop i b s).pwmOn = false := by
  induction i with
  | zero => intro b s hp; simp [transmitInfraredByteLoop, byteSegments, hp]
  | succ i ih =>
    intro b s hp
    simp only [transmitInfraredByteLoop, byteSegments]
    split_ifs with h
    · obtain ⟨h1, h2⟩ := ih ((b <<< 1) % 256)
        (delay_us WIDTH_LONG (transmitInfraredShortMark s))
        (by simp [delay_us_out, transmitInfraredShortMark_out])
      simp [h1, h2, delay_us_out, transmitInfraredShortMark_out]
    · obtain ⟨h1, h2⟩ := ih ((b <<< 1) % 256)
        (delay_us WIDTH_SHORT (transmitInfraredShortMark s))
        (by simp [delay_us_out, transmitInfraredShortMark_out])
      simp [h1, h2, delay_us_out, transmitInfraredShortMark_out]

set_option maxRecDepth 1000000 in
theorem byteSegments_eq : ∀ b < 256,
    byteSegments 8 b = ((List.range 8).map (bitMsbFirst b)).flatMap bitSegments := by
  decide

theorem transmitInfraredByte_keeps (b : Nat) : KeepsTx (transmitInfraredByte b) :=
  transmitInfraredByteLoop_keeps 8 b

theorem frameBits_cons (b : Nat) (bs : List Nat) :
    frameBits (b :: bs) = (List.range 8).map (bitMsbFirst b) ++ frameBits bs := by
  simp [frameBits]

theorem transmit_bytes_out (is : List Nat) :
    ∀ s : State, s.pwmOn = false → (∀ i ∈ is, s.irCommand.getD i 0 < 256) →
      (is.foldl (fun t i => transmitInfraredByte (t.irCommand.getD i 0) t) s).irOut
        = s.irOut
          ++ (frameBits (is.map (fun i => s.irCommand.getD i 0))).flatMap bitSegments ∧
      (is.foldl (fun t i => transmitInfraredByte (t.irCommand.getD i 0) t) s).pwmOn
        = false := by
  induction is with
  | nil => intro s hp _; simp [frameBits, hp]
  | cons i is ih =>
    intro s hp hb
    have hi : s.irCommand.getD i 0 < 256 := hb i (by simp)
    obtain ⟨ho, hq⟩ := transmitInfraredByteLoop_out 8 (s.irCommand.getD i 0) s hp
    have hk := transmitInfraredByte_keeps (s.irCommand.getD i 0) s
    have hir : (transmitInfraredByte (s.irCommand.getD i 0) s).irCommand = s.irCommand :=
      hk.2.2.2.2.1
    obtain ⟨h1, h2⟩ := ih (transmitInfraredByte (s.irCommand.getD i 0) s) hq
      (by intro j hj; rw [hir]; exact hb j (by simp [hj]))
    rw [List.foldl_cons, h1, h2, hir]
    refine ⟨?_, rfl⟩
    rw [List.map_cons, frameBits_cons, List.flatMap_append,
      ← byteSegments_eq _ hi]
    unfold transmitInfraredByte
    rw [ho, List.append_assoc]

theorem transmit_bytes_keeps (is : List Nat) :
    KeepsTx (fun s => is.foldl (fun t i => transmitInfraredByte (t.irCommand.getD i 0) t) s) := by
  induction is with
  | nil => intro s; simp
  | cons i is ih =>
    intro s
    have h := ih (transmitInfraredByte (s.irCommand.getD i 0) s)
    simp only [List.foldl_cons] at h ⊢
    simp [-List.getD_eq_getElem?_getD, h, transmitInfraredByte_keeps _ _]

theorem buildInfraredFrame_bytes (s : State) : ∀ b ∈ buildInfraredFrame s, b < 256 := by
  intro b hb
  simp only [buildInfraredFrame, complementByte, ux, yy, List.mem_cons, List.mem_singleton,
    List.mem_nil_iff, or_false] at hb
  omega

theorem signal_out (t : State) (hb : ∀ b ∈ t.irCommand, b < 256)
    (hlen : t.irCommand.length = 6) :
    (transmitInfraredShortMark
      ((List.range 6).foldl (fun t i => transmitInfraredByte (t.irCommand.getD i 0) t)
        (delay_us WIDTH_SILENCE_AFTER_TRAINING
          (PWM1_Stop (delay_us WIDTH_TRAINING_PULSE (PWM1_Start t)))))).irOut
      = t.irOut ++ pulseTrain t.irCommand := by
  have hir : (delay_us WIDTH_SILENCE_AFTER_TRAINING
      (PWM1_Stop (delay_us WIDTH_TRAINING_PULSE (PWM1_Start t)))).irCommand = t.irCommand := rfl
  have hp : (delay_us WIDTH_SILENCE_AFTER_TRAINING
      (PWM1_Stop (delay_us WIDTH_TRAINING_PULSE (PWM1_Start t)))).pwmOn = false := rfl
  have ho : (delay_us WIDTH_SILENCE_AFTER_TRAINING
      (PWM1_Stop (delay_us WIDTH_TRAINING_PULSE (PWM1_Start t)))).irOut
      = t.irOut ++ [Segment.mark WIDTH_TRAINING_PULSE,
          Segment.space WIDTH_SILENCE_AFTER_TRAINING] := by
    simp [delay_us, PWM1_Stop, PWM1_Start]
  have h6 : ∀ i ∈ List.range 6, (delay_us WIDTH_SILENCE_AFTER_TRAINING
      (PWM1_Stop (delay_us WIDTH_TRAINING_PULSE (PWM1_Start t)))).irCommand.getD i 0
        < 256 := by
    intro i hi
    rw [hir]
    have hi6 : i < t.irCommand.length := by
      rw [hlen]; exact List.mem_range.mp hi
    rw [List.getD_eq_getElem _ _ hi6]
    exact hb _ (List.getElem_mem _)
  have hmap : (List.range 6).map (fun i => t.irCommand.getD i 0) = t.irCommand := by
    match h : t.irCommand, hlen with
    | [b0, b1, b2, b3, b4, b5], _ => rfl
  rw [(transmitInfraredShortMark_out _).1, (transmit_bytes_out (List.range 6) _ hp h6).1,
    ho, hir, hmap]
  simp [pulseTrain]

theorem transmitInfraredCommand_out (s : State) :
    (transmitInfraredCommand s).irOut
      = s.irOut ++ pulseTrain (buildInfraredFrame s) ++ [Segment.pause 100] := by
  have h := signal_out
    { disableInfraredCapture { s with ACTIVITY_LED := true } with
      irCommand := buildInfraredFrame (disableInfraredCapture { s with ACTIVITY_LED := true }) }
    (buildInfraredFrame_bytes s) rfl
  unfold transmitInfraredCommand
  simp only []
  rw [(enableInfraredCapture_fields _).2.2.2.2.2.2.2.2.2.1]
  show (transmitInfraredShortMark _).irOut ++ [Segment.pause 100] = _
  rw [h]
  rfl

/-! ### Frame validator: accepted frames -/

theorem interpretInfraredCommand_complement_frame (s : State) (b0 b1 b2 b3 b4 b5 : Nat)
    (hframe : s.irCommand = [b0, b1, b2, b3, b4, b5])
    (hb2 : b2 < 256) (hb4 : b4 < 256)
    (h01 : b0 ^^^ b1 = 0xFF) (h23 : b2 ^^^ b3 = 0xFF) (h45 : b4 ^^^ b5 = 0xFF)
    (haddr : b0 = s.nConfigDeviceAddress ∨ b0 = BROADCAST_ADDRESS) :
    (interpretInfraredCommand s).usbCommand = (b2 <<< 8 ||| b4) ∧
    (interpretInfraredCommand s).dispatched = s.dispatched ++ [b2 <<< 8 ||| b4] ∧
    (interpretInfraredCommand s).nConfigDeviceAddress = s.nConfigDeviceAddress ∧
    (interpretInfraredCommand s).rxLog = s.rxLog ++ [RxEvent.interpret s.irCommand] := by
  have hlt : (b2 <<< 8 ||| b4) % 65536 = b2 <<< 8 ||| b4 := by
    rw [shl8_or b2 b4 hb4]; omega
  rw [interpretInfraredCommand_accepts s
    (by simpa [nAddress, hframe] using haddr)
    (by simp [nAddress, nAddressInverted, hframe, h01])
    (by simp [nModifiers, nModifiersInverted, hframe, h23])
    (by simp [nCommand, nCommandInverted, hframe, h45])]
  simp [sendUSBCommand_fields _, updateLCD_keeps _, nModifiers, nCommand, hframe, hlt]

/-- C2: a six-byte frame whose three pairs XOR to 0xFF and whose address byte
is the configured device address or the broadcast address 0xFF is accepted by
`interpretInfraredCommand`: `usbCommand.uxyy` becomes `(b[2] << 8) | b[4]` and
this command is dispatched exactly once. -/
theorem interpretInfraredCommand_accepts_valid_frame (s : State)
    (b0 b1 b2 b3 b4 b5 : Nat)
    (hframe : s.irCommand = [b0, b1, b2, b3, b4, b5])
    (hb2 : b2 < 256) (hb4 : b4 < 256)
    (h01 : b0 ^^^ b1 = 0xFF) (h23 : b2 ^^^ b3 = 0xFF) (h45 : b4 ^^^ b5 = 0xFF)
    (haddr : b0 = s.nConfigDeviceAddress ∨ b0 = BROADCAST_ADDRESS) :
    (interpretInfraredCommand s).usbCommand = (b2 <<< 8 ||| b4) ∧
    (interpretInfraredCommand s).dispatched = s.dispatched ++ [b2 <<< 8 ||| b4] := by
  have h := interpretInfraredCommand_complement_frame s b0 b1 b2 b3 b4 b5 hframe hb2 hb4
    h01 h23 h45 haddr
  exact ⟨h.1, h.2.1⟩

theorem interpretInfraredCommand_accepts_valid_frame_witness :
    (interpretInfraredCommand
        { powerOnState 0xAA with irCommand := [0xAA, 0x55, 0x00, 0xFF, 0x28, 0xD7] }).usbCommand
      = 0x0028 ∧
    (interpretInfraredCommand
        { powerOnState 0xAA with irCommand := [0xAA, 0x55, 0x00, 0xFF, 0x28, 0xD7] }).dispatched
      = [0x0028] :=
  interpretInfraredCommand_accepts_valid_frame
    { powerOnState 0xAA with irCommand := [0xAA, 0x55, 0x00, 0xFF, 0x28, 0xD7] }
    0xAA 0x55 0x00 0xFF 0x28 0xD7 rfl (by decide) (by decide) (by decide) (by decide)
    (by decide) (Or.inl (by decide))

/-- C3: evaluation of `interpretInfraredCommand` at a frame whose address pair
AA 54 is not a complement pair: configured address 0xAA, frame
AA 54 00 FF 28 D7. The frame is not rejected: command 0x0028 is dispatched and
written to `usbCommand`; the same happens when the frame arrives as a nominal
pulse train at a machine resting in `STATE_IR_RESET`. -/
theorem interpretInfraredCommand_dispatches_broken_pair :
    (0xAA ^^^ 0x54 ≠ 0xFF) ∧
    (interpretInfraredCommand
        { powerOnState 0xAA with irCommand := [0xAA, 0x54, 0x00, 0xFF, 0x28, 0xD7] }).dispatched
      = [0x0028] ∧
    (interpretInfraredCommand
        { powerOnState 0xAA with irCommand := [0xAA, 0x54, 0x00, 0xFF, 0x28, 0xD7],
                                 usbCommand := 0x1234 }).usbCommand
      = 0x0028 ∧
    (feedAll (powerOnState 0xAA)
        (edgesOf (pulseTrain [0xAA, 0x54, 0x00, 0xFF, 0x28, 0xD7]))).dispatched
      = [0x0028] := by
  set_option maxRecDepth 1000000 in decide

/-- C4: a frame whose address byte is neither the configured device address
nor the broadcast value 0xFF dispatches nothing and leaves `usbCommand`
unchanged, whatever its other five bytes are (also when all three pairs are
complements); no report is sent and no switch is pulsed. -/
theorem interpretInfraredCommand_rejects_foreign_address (s : State)
    (h1 : nAddress s ≠ s.nConfigDeviceAddress) (h2 : nAddress s ≠ BROADCAST_ADDRESS) :
    (interpretInfraredCommand s).dispatched = s.dispatched ∧
    (interpretInfraredCommand s).usbCommand = s.usbCommand ∧
    (interpretInfraredCommand s).hidWrites = s.hidWrites ∧
    (interpretInfraredCommand s).switchLog = s.switchLog := by
  rw [interpretInfraredCommand_rejects_address s h1 h2]
  simp

theorem interpretInfraredCommand_rejects_foreign_address_witness :
    (interpretInfraredCommand
        { powerOnState 0xAA with irCommand := [0x01, 0xFE, 0x00, 0xFF, 0x28, 0xD7] }).dispatched
      = [] ∧
    (interpretInfraredCommand
        { powerOnState 0xAA with irCommand := [0x01, 0xFE, 0x00, 0xFF, 0x28, 0xD7] }).usbCommand
      = 0 :=
  let h := interpretInfraredCommand_rejects_foreign_address
    { powerOnState 0xAA with irCommand := [0x01, 0xFE, 0x00, 0xFF, 0x28, 0xD7] }
    (by decide) (by decide)
  ⟨h.1, h.2.1⟩

/-! ### Pulse width classifier -/

/-- C7, as stated, fails at both bounds of the training pulse window: with
675 = toTicks(1000 - 100) and 825 = toTicks(1000 + 100) captured ticks the
test `IS_PULSE_WIDTH_NEAR(WIDTH_TRAINING_PULSE)` is false although the value
lies in the closed interval of the claim. -/
theorem IS_PULSE_WIDTH_NEAR_rejects_bounds :
    toTicks (WIDTH_TRAINING_PULSE - WIDTH_ERROR_MARGIN) = 675 ∧
    toTicks (WIDTH_TRAINING_PULSE + WIDTH_ERROR_MARGIN) = 825 ∧
    ¬ (IS_PULSE_WIDTH_NEAR WIDTH_TRAINING_PULSE { powerOnState 0xAA with nPulseWidth := 675 }
          = true ↔
        toTicks (WIDTH_TRAINING_PULSE - WIDTH_ERROR_MARGIN) ≤ 675 ∧
          675 ≤ toTicks (WIDTH_TRAINING_PULSE + WIDTH_ERROR_MARGIN)) ∧
    ¬ (IS_PULSE_WIDTH_NEAR WIDTH_TRAINING_PULSE { powerOnState 0xAA with nPulseWidth := 825 }
          = true ↔
        toTicks (WIDTH_TRAINING_PULSE - WIDTH_ERROR_MARGIN) ≤ 825 ∧
          825 ≤ toTicks (WIDTH_TRAINING_PULSE + WIDTH_ERROR_MARGIN)) := by
  decide

/-- C7 (amended): for every duration class with nominal value `x`
(training pulse, silence after training, short mark or space, long space)
`IS_PULSE_WIDTH_NEAR(x)` accepts the captured tick count `t` exactly when
`toTicks(x - margin) < t < toTicks(x + margin)`, with
`toTicks(u) = floor(u * tickRate / 1000000)`: a count equal to either bound
is rejected, a count one tick inside either bound is accepted. -/
theorem IS_PULSE_WIDTH_NEAR_iff (x : Nat) (s : State)
    (hx : x = WIDTH_TRAINING_PULSE ∨ x = WIDTH_SILENCE_AFTER_TRAINING ∨
          x = WIDTH_SHORT ∨ x = WIDTH_LONG) :
    (IS_PULSE_WIDTH_NEAR x s = true ↔
      toTicks (x - WIDTH_ERROR_MARGIN) < s.nPulseWidth ∧
        s.nPulseWidth < toTicks (x + WIDTH_ERROR_MARGIN)) ∧
    (s.nPulseWidth = toTicks (x - WIDTH_ERROR_MARGIN) → IS_PULSE_WIDTH_NEAR x s = false) ∧
    (s.nPulseWidth = toTicks (x + WIDTH_ERROR_MARGIN) → IS_PULSE_WIDTH_NEAR x s = false) ∧
    (s.nPulseWidth = toTicks (x - WIDTH_ERROR_MARGIN) + 1 → IS_PULSE_WIDTH_NEAR x s = true) ∧
    (s.nPulseWidth + 1 = toTicks (x + WIDTH_ERROR_MARGIN) → IS_PULSE_WIDTH_NEAR x s = true) := by
  have hiff : IS_PULSE_WIDTH_NEAR x s = true ↔
      toTicks (x - WIDTH_ERROR_MARGIN) < s.nPulseWidth ∧
        s.nPulseWidth < toTicks (x + WIDTH_ERROR_MARGIN) := by
    unfold IS_PULSE_WIDTH_NEAR
    rw [MICROSECONDS_eq_toTicks, MICROSECONDS_eq_toTicks]
    simp
  have hgap : toTicks (x - WIDTH_ERROR_MARGIN) + 1 < toTicks (x + WIDTH_ERROR_MARGIN) := by
    rw [← MICROSECONDS_eq_toTicks, ← MICROSECONDS_eq_toTicks]
    unfold MICROSECONDS
    rcases hx with h | h | h | h <;> subst h <;> decide
  refine ⟨hiff, ?_, ?_, ?_, ?_⟩
  · intro h
    rw [Bool.eq_false_iff]
    intro hp
    have := hiff.mp hp
    omega
  · intro h
    rw [Bool.eq_false_iff]
    intro hp
    have := hiff.mp hp
    omega
  · intro h
    exact hiff.mpr ⟨by omega, by omega⟩
  · intro h
    exact hiff.mpr ⟨by omega, by omega⟩

theorem IS_PULSE_WIDTH_NEAR_iff_witness :
    (IS_PULSE_WIDTH_NEAR WIDTH_LONG { powerOnState 0xAA with nPulseWidth := 1237 } = true ↔
      toTicks (WIDTH_LONG - WIDTH_ERROR_MARGIN) < 1237 ∧
        1237 < toTicks (WIDTH_LONG + WIDTH_ERROR_MARGIN)) :=
  (IS_PULSE_WIDTH_NEAR_iff WIDTH_LONG { powerOnState 0xAA with nPulseWidth := 1237 }
    (Or.inr (Or.inr (Or.inr rfl)))).1

/-! ### Transmit encoder: claims -/

/-- C9: for every address and command `transmitInfraredCommand` adds to the
infrared output exactly the 99 timed segments of the frame it builds, in this
order: a mark of 1000 us, a space of 600 us, then for each of the 48 frame
bits (byte by byte in frame order, most significant bit first) a mark of
600 us followed by a space of 1650 us for bit 1 or 600 us for bit 0, and one
terminating mark of 600 us; the only thing logged after them is the 100 ms
rest between transmissions. -/
theorem transmitInfraredCommand_pulse_train (s : State) :
    (transmitInfraredCommand s).irOut
      = s.irOut
        ++ ([Segment.mark 1000, Segment.space 600]
          ++ (frameBits (buildInfraredFrame s)).flatMap
              (fun v => [Segment.mark 600, Segment.space (if v = 1 then 1650 else 600)])
          ++ [Segment.mark 600])
        ++ [Segment.pause 100] ∧
    (frameBits (buildInfraredFrame s)).length = 48 ∧
    (∀ v ∈ frameBits (buildInfraredFrame s), v = 0 ∨ v = 1) ∧
    ([Segment.mark 1000, Segment.space 600]
          ++ (frameBits (buildInfraredFrame s)).flatMap
              (fun v => [Segment.mark 600, Segment.space (if v = 1 then 1650 else 600)])
          ++ [Segment.mark 600]).length = 99 := by
  have hlen : (frameBits (buildInfraredFrame s)).length = 48 := by
    simp [frameBits, buildInfraredFrame]
  refine ⟨?_, hlen, ?_, ?_⟩
  · rw [transmitInfraredCommand_out]
    rfl
  · intro v hv
    simp only [frameBits, List.mem_flatMap, List.mem_map] at hv
    obtain ⟨b, _, i, _, rfl⟩ := hv
    unfold bitMsbFirst
    omega
  · have h2 : ∀ l : List Nat, (l.flatMap
        (fun v => [Segment.mark 600, Segment.space (if v = 1 then 1650 else 600)])).length
        = 2 * l.length := by
      intro l
      induction l with
      | nil => rfl
      | cons a l ih => simp only [List.flatMap_cons, List.length_append, ih]; simp; omega
    simp only [List.length_append, h2, hlen]
    rfl

theorem buildInfraredFrame_eq (s : State)
    (ha : s.nConfigDeviceAddress < 256) (hc : s.usbCommand < 65536) :
    buildInfraredFrame s
      = [s.nConfigDeviceAddress, 255 - s.nConfigDeviceAddress,
         s.usbCommand / 256, 255 - s.usbCommand / 256,
         s.usbCommand % 256, 255 - s.usbCommand % 256] := by
  have h1 : s.nConfigDeviceAddress % 256 = s.nConfigDeviceAddress := Nat.mod_eq_of_lt ha
  have h2 : s.usbCommand / 256 % 256 = s.usbCommand / 256 := by omega
  simp only [buildInfraredFrame, complementByte, ux, yy, h1, h2, Nat.mod_mod]

theorem emitted_eq (s : State) :
    emitted s = pulseTrain (buildInfraredFrame s) ++ [Segment.pause 100] := by
  unfold emitted
  rw [transmitInfraredCommand_out, List.append_assoc, List.drop_left]

/-- C10: for every configured address `a` and command `uxyy`, the frame that
`transmitInfraredCommand` builds and sends is the six bytes
`a, ~a, ux, ~ux, yy, ~yy` (each complement being `255 - b`, the 8-bit
truncation of `~b`); every adjacent pair XORs to 0xFF, the frame satisfies the
validity invariant for configured address `a`, and a receiver configured with
`a` that is handed this frame dispatches exactly `uxyy`. -/
theorem transmitInfraredCommand_frame_layout (s r : State)
    (ha : s.nConfigDeviceAddress < 256) (hc : s.usbCommand < 65536)
    (hr : r.irCommand = buildInfraredFrame s)
    (hra : r.nConfigDeviceAddress = s.nConfigDeviceAddress) :
    buildInfraredFrame s
      = [s.nConfigDeviceAddress, 255 - s.nConfigDeviceAddress,
         s.usbCommand / 256, 255 - s.usbCommand / 256,
         s.usbCommand % 256, 255 - s.usbCommand % 256] ∧
    emitted s = pulseTrain (buildInfraredFrame s) ++ [Segment.pause 100] ∧
    s.nConfigDeviceAddress ^^^ (255 - s.nConfigDeviceAddress) = 0xFF ∧
    s.usbCommand / 256 ^^^ (255 - s.usbCommand / 256) = 0xFF ∧
    s.usbCommand % 256 ^^^ (255 - s.usbCommand % 256) = 0xFF ∧
    FrameValid s.nConfigDeviceAddress (buildInfraredFrame s) ∧
    (interpretInfraredCommand r).dispatched = r.dispatched ++ [s.usbCommand] := by
  have hf := buildInfraredFrame_eq s ha hc
  have hu : s.usbCommand / 256 < 256 := by omega
  have hy : s.usbCommand % 256 < 256 := by omega
  have x1 := xor_complement _ ha
  have x2 := xor_complement _ hu
  have x3 := xor_complement _ hy
  refine ⟨hf, emitted_eq s, x1, x2, x3, ?_, ?_⟩
  · rw [hf]
    exact ⟨rfl, x1, x2, x3, Or.inl rfl⟩
  · have h := interpretInfraredCommand_complement_frame r _ _ _ _ _ _ (hr.trans hf) hu hy
      x1 x2 x3 (Or.inl hra.symm)
    rw [h.2.1, shl8_or _ _ hy]
    congr 2
    omega

theorem transmitInfraredCommand_frame_layout_witness :
    buildInfraredFrame { powerOnState 0xAA with usbCommand := 0x0028 }
      = [0xAA, 0x55, 0x00, 0xFF, 0x28, 0xD7] ∧
    FrameValid 0xAA [0xAA, 0x55, 0x00, 0xFF, 0x28, 0xD7] ∧
    (interpretInfraredCommand
      { powerOnState 0xAA with irCommand := [0xAA, 0x55, 0x00, 0xFF, 0x28, 0xD7] }).dispatched
      = [0x0028] :=
  let h := transmitInfraredCommand_frame_layout
    { powerOnState 0xAA with usbCommand := 0x0028 }
    { powerOnState 0xAA with irCommand := [0xAA, 0x55, 0x00, 0xFF, 0x28, 0xD7] }
    (by decide) (by decide) (by decide) (by decide)
  ⟨h.1, h.2.2.2.2.2.1, h.2.2.2.2.2.2⟩

/-! ### Receive machine: single steps -/

theorem threshold_values :
    MICROSECONDS (WIDTH_TRAINING_PULSE - WIDTH_ERROR_MARGIN) = 675 ∧
    MICROSECONDS (WIDTH_TRAINING_PULSE + WIDTH_ERROR_MARGIN) = 825 ∧
    MICROSECONDS (WIDTH_SILENCE_AFTER_TRAINING - WIDTH_ERROR_MARGIN) = 375 ∧
    MICROSECONDS (WIDTH_SILENCE_AFTER_TRAINING + WIDTH_ERROR_MARGIN) = 525 ∧
    MICROSECONDS (WIDTH_SHORT - WIDTH_ERROR_MARGIN) = 375 ∧
    MICROSECONDS (WIDTH_SHORT + WIDTH_ERROR_MARGIN) = 525 ∧
    MICROSECONDS (WIDTH_LONG - WIDTH_ERROR_MARGIN) = 1162 ∧
    MICROSECONDS (WIDTH_LONG + WIDTH_ERROR_MARGIN) = 1312 := by decide

theorem tick_values :
    toTicks WIDTH_TRAINING_PULSE = 750 ∧ toTicks WIDTH_SILENCE_AFTER_TRAINING = 450 ∧
    toTicks WIDTH_SHORT = 450 ∧ toTicks WIDTH_LONG = 1237 := by decide

theorem deliver_fields (e : PulseEvent) (s : State) :
    (deliver e s).nState = s.nState ∧ (deliver e s).nByte = s.nByte ∧
    (deliver e s).nBit = s.nBit ∧ (deliver e s).cByte = s.cByte ∧
    (deliver e s).irCommand = s.irCommand ∧ (deliver e s).usbCommand = s.usbCommand ∧
    (deliver e s).nConfigDeviceAddress = s.nConfigDeviceAddress ∧
    (deliver e s).rxLog = s.rxLog ∧ (deliver e s).dispatched = s.dispatched ∧
    (deliver e s).irOut = s.irOut ∧ (deliver e s).nPulseWidth = e.elapsed % 65536 ∧
    bRisingEdge (deliver e s) = e.rising ∧ bFallingEdge (deliver e s) = !e.rising := by
  cases e with
  | mk r t => cases r <;> simp [deliver, bRisingEdge, bFallingEdge]

theorem processInfraredInterrupt_reset (s : State) (h0 : s.nState = STATE_IR_RESET) :
    processInfraredInterrupt s
      = if bRisingEdge s && IS_PULSE_WIDTH_NEAR WIDTH_TRAINING_PULSE s then
          { s with nState := STATE_IR_TRAINING_RECEIVED }
        else gotoResetState s := by
  rw [processInfraredInterrupt, if_pos h0]

theorem processInfraredInterrupt_training (s : State)
    (h0 : s.nState = STATE_IR_TRAINING_RECEIVED) :
    processInfraredInterrupt s
      = if bFallingEdge s && IS_PULSE_WIDTH_NEAR WIDTH_SILENCE_AFTER_TRAINING s then
          { s with nState := STATE_IR_RECEIVING_BITS }
        else gotoResetState s := by
  rw [processInfraredInterrupt, if_neg (by rw [h0]; decide), if_pos h0]

theorem processInfraredInterrupt_bits (s : State)
    (h0 : s.nState = STATE_IR_RECEIVING_BITS) :
    processInfraredInterrupt s
      = if bRisingEdge s then
          if s.nPulseWidth > MICROSECONDS (WIDTH_SHORT + WIDTH_ERROR_MARGIN) then
            gotoResetState s
          else s
        else
          if s.nPulseWidth > MICROSECONDS (WIDTH_LONG + WIDTH_ERROR_MARGIN) then
            gotoResetState s
          else if s.nPulseWidth > MICROSECONDS (WIDTH_LONG - WIDTH_ERROR_MARGIN) then
            appendBit { s with
              cByte := (s.cByte <<< 1) % 256 ||| 1,
              rxLog := s.rxLog ++ [RxEvent.bit 1] }
          else if s.nPulseWidth > MICROSECONDS (WIDTH_SHORT - WIDTH_ERROR_MARGIN) then
            appendBit { s with
              cByte := (s.cByte <<< 1) % 256,
              rxLog := s.rxLog ++ [RxEvent.bit 0] }
          else gotoResetState s := by
  rw [processInfraredInterrupt, if_neg (by rw [h0]; decide), if_neg (by rw [h0]; decide),
    if_pos h0]

theorem processInfraredInterrupt_command (s : State)
    (h0 : s.nState = STATE_IR_COMMAND_RECEIVED) :
    processInfraredInterrupt s
      = enableInfraredCapture (interpretInfraredCommand (disableInfraredCapture s)) := by
  rw [processInfraredInterrupt, if_neg (by rw [h0]; decide), if_neg (by rw [h0]; decide),
    if_neg (by rw [h0]; decide), if_pos h0]

theorem feed_training (s : State) (e : PulseEvent) (h0 : s.nState = STATE_IR_RESET)
    (hr : e.rising = true) (h1 : 675 < e.elapsed) (h2 : e.elapsed < 825) :
    feed s e = { deliver e s with nState := STATE_IR_TRAINING_RECEIVED } := by
  have hm : e.elapsed % 65536 = e.elapsed := by omega
  unfold feed
  rw [processInfraredInterrupt_reset _ (by rw [(deliver_fields e s).1]; exact h0)]
  simp [deliver_fields, IS_PULSE_WIDTH_NEAR, threshold_values, hr, hm, h1, h2]

theorem feed_silence (s : State) (e : PulseEvent)
    (h0 : s.nState = STATE_IR_TRAINING_RECEIVED)
    (hr : e.rising = false) (h1 : 375 < e.elapsed) (h2 : e.elapsed < 525) :
    feed s e = { deliver e s with nState := STATE_IR_RECEIVING_BITS } := by
  have hm : e.elapsed % 65536 = e.elapsed := by omega
  unfold feed
  rw [processInfraredInterrupt_training _ (by rw [(deliver_fields e s).1]; exact h0)]
  simp [deliver_fields, IS_PULSE_WIDTH_NEAR, threshold_values, hr, hm, h1, h2]

theorem feed_mark (s : State) (e : PulseEvent) (h0 : s.nState = STATE_IR_RECEIVING_BITS)
    (hr : e.rising = true) (h1 : e.elapsed ≤ 525) :
    feed s e = deliver e s := by
  have hm : e.elapsed % 65536 = e.elapsed := by omega
  have h3 : ¬ (525 < e.elapsed) := by omega
  unfold feed
  rw [processInfraredInterrupt_bits _ (by rw [(deliver_fields e s).1]; exact h0)]
  simp [deliver_fields, threshold_values, hr, hm, h3]

theorem feed_bit (s : State) (v : Nat) (hv : v ≤ 1)
    (h0 : s.nState = STATE_IR_RECEIVING_BITS) :
    feed s ⟨false, toTicks (if v = 1 then WIDTH_LONG else WIDTH_SHORT)⟩
      = appendBit { deliver ⟨false, toTicks (if v = 1 then WIDTH_LONG else WIDTH_SHORT)⟩ s with
          cByte := shiftIn s.cByte v,
          rxLog := s.rxLog ++ [RxEvent.bit v] } := by
  unfold feed
  rw [processInfraredInterrupt_bits _ (by rw [(deliver_fields _ s).1]; exact h0)]
  have hv2 : v = 0 ∨ v = 1 := by omega
  rcases hv2 with h | h <;> subst h <;>
    simp [deliver_fields, threshold_values, tick_values, shiftIn]

theorem feed_command (s : State) (e : PulseEvent)
    (h0 : s.nState = STATE_IR_COMMAND_RECEIVED) :
    feed s e = enableInfraredCapture (interpretInfraredCommand
      (disableInfraredCapture (deliver e s))) := by
  unfold feed
  rw [processInfraredInterrupt_command _ (by rw [(deliver_fields e s).1]; exact h0)]

theorem feed_reset_stays (s : State) (e : PulseEvent) (h0 : s.nState = STATE_IR_RESET)
    (h : e.rising = false ∨ e.elapsed % 65536 ≤ 675 ∨ 825 ≤ e.elapsed % 65536) :
    feed s e = gotoResetState (deliver e s) := by
  unfold feed
  rw [processInfraredInterrupt_reset _ (by rw [(deliver_fields e s).1]; exact h0), if_neg]
  simp only [deliver_fields, IS_PULSE_WIDTH_NEAR, threshold_values]
  simp
  intro hr h1
  rcases h with h | h | h
  · rw [hr] at h; cases h
  · omega
  · omega

theorem feedAll_append (s : State) (xs ys : List PulseEvent) :
    feedAll s (xs ++ ys) = feedAll (feedAll s xs) ys := by
  simp [feedAll, List.foldl_append]

theorem edgesOf_append (xs ys : List Segment) :
    edgesOf (xs ++ ys) = edgesOf xs ++ edgesOf ys := by
  simp [edgesOf, List.flatMap_append]

/-! ### Receive machine: the bit counter -/

theorem appendBit_side (s : State) :
    (appendBit s).cByte = s.cByte ∧ (appendBit s).usbCommand = s.usbCommand ∧
    (appendBit s).nConfigDeviceAddress = s.nConfigDeviceAddress ∧
    (appendBit s).rxLog = s.rxLog ∧ (appendBit s).dispatched = s.dispatched ∧
    (appendBit s).irOut = s.irOut ∧ (appendBit s).nPulseWidth = s.nPulseWidth ∧
    (appendBit s).nRiseOrFall = s.nRiseOrFall := by
  unfold appendBit
  simp only []
  split_ifs <;> simp

theorem appendBit_step (s : State) (h : s.nBit < 7) :
    (appendBit s).nState = s.nState ∧ (appendBit s).nByte = s.nByte ∧
    (appendBit s).nBit = s.nBit + 1 ∧ (appendBit s).irCommand = s.irCommand := by
  have h1 : (s.nBit + 1) % 256 = s.nBit + 1 := by omega
  have h2 : ¬ (s.nBit + 1 > 7) := by omega
  unfold appendBit
  simp only [h1]
  rw [if_neg h2]
  simp

theorem appendBit_wrap (s : State) (h : s.nBit = 7) (hb : s.nByte ≤ 5) :
    (appendBit s).nState = (if s.nByte = 5 then STATE_IR_COMMAND_RECEIVED else s.nState) ∧
    (appendBit s).nByte = s.nByte + 1 ∧
    (appendBit s).nBit = 0 ∧ (appendBit s).irCommand = s.irCommand.set s.nByte s.cByte := by
  have h1 : (s.nBit + 1) % 256 = 8 := by omega
  have h3 : (s.nByte + 1) % 256 = s.nByte + 1 := by omega
  unfold appendBit
  simp only [h1, h3]
  rw [if_pos (by decide)]
  by_cases h5 : s.nByte = 5
  · rw [if_pos (by omega), if_pos h5]
    simp
  · rw [if_neg (by omega), if_neg h5]
    simp

/-! ### Receive machine: bits, bytes and frames -/

theorem SameSide.refl (s : State) : SameSide s s := ⟨rfl, rfl, rfl, rfl⟩

theorem SameSide.trans {s t u : State} (h1 : SameSide s t) (h2 : SameSide t u) :
    SameSide s u :=
  ⟨h2.1.trans h1.1, h2.2.1.trans h1.2.1, h2.2.2.1.trans h1.2.2.1, h2.2.2.2.trans h1.2.2.2⟩

theorem edgesOf_bitSegments (v : Nat) :
    edgesOf (bitSegments v)
      = [⟨true, toTicks WIDTH_SHORT⟩,
         ⟨false, toTicks (if v = 1 then WIDTH_LONG else WIDTH_SHORT)⟩] := by
  by_cases h : v = 1 <;> simp [edgesOf, bitSegments, edgeOf, h]

theorem edgesOf_flatMap_cons (v : Nat) (bits : List Nat) :
    edgesOf ((v :: bits).flatMap bitSegments)
      = edgesOf (bitSegments v) ++ edgesOf (bits.flatMap bitSegments) := by
  rw [List.flatMap_cons, edgesOf_append]

/-- One bit of a frame (its mark, then its space) received in
`STATE_IR_RECEIVING_BITS`. -/
theorem feed_bit_pair (s : State) (v : Nat) (hv : v ≤ 1)
    (h0 : s.nState = STATE_IR_RECEIVING_BITS) :
    feedAll s (edgesOf (bitSegments v))
      = appendBit
          { deliver ⟨false, toTicks (if v = 1 then WIDTH_LONG else WIDTH_SHORT)⟩
              (deliver ⟨true, toTicks WIDTH_SHORT⟩ s) with
            cByte := shiftIn s.cByte v,
            rxLog := s.rxLog ++ [RxEvent.bit v] } := by
  rw [edgesOf_bitSegments]
  simp only [feedAll, List.foldl_cons, List.foldl_nil]
  rw [feed_mark s _ h0 rfl (by rw [tick_values.2.2.1]; decide)]
  rw [feed_bit _ v hv (by rw [(deliver_fields _ s).1]; exact h0)]
  rfl

theorem feed_bit_pair_step (s : State) (v : Nat) (hv : v ≤ 1)
    (h0 : s.nState = STATE_IR_RECEIVING_BITS) (hn : s.nBit < 7) :
    (feedAll s (edgesOf (bitSegments v))).nState = STATE_IR_RECEIVING_BITS ∧
    (feedAll s (edgesOf (bitSegments v))).nByte = s.nByte ∧
    (feedAll s (edgesOf (bitSegments v))).nBit = s.nBit + 1 ∧
    (feedAll s (edgesOf (bitSegments v))).cByte = shiftIn s.cByte v ∧
    (feedAll s (edgesOf (bitSegments v))).irCommand = s.irCommand ∧
    SameSide s (feedAll s (edgesOf (bitSegments v))) ∧
    (feedAll s (edgesOf (bitSegments v))).rxLog = s.rxLog ++ [RxEvent.bit v] := by
  rw [feed_bit_pair s v hv h0]
  obtain ⟨a1, a2, a3, a4⟩ := appendBit_step
    { deliver ⟨false, toTicks (if v = 1 then WIDTH_LONG else WIDTH_SHORT)⟩
        (deliver ⟨true, toTicks WIDTH_SHORT⟩ s) with
      cByte := shiftIn s.cByte v,
      rxLog := s.rxLog ++ [RxEvent.bit v] } hn
  obtain ⟨b1, b2, b3, b4, b5, b6, _, _⟩ := appendBit_side
    { deliver ⟨false, toTicks (if v = 1 then WIDTH_LONG else WIDTH_SHORT)⟩
        (deliver ⟨true, toTicks WIDTH_SHORT⟩ s) with
      cByte := shiftIn s.cByte v,
      rxLog := s.rxLog ++ [RxEvent.bit v] }
  exact ⟨a1.trans h0, a2, a3, b1, a4, ⟨b2, b3, b5, b6⟩, b4⟩

theorem feed_bit_pair_wrap (s : State) (v : Nat) (hv : v ≤ 1)
    (h0 : s.nState = STATE_IR_RECEIVING_BITS) (hn : s.nBit = 7) (hb : s.nByte ≤ 5) :
    (feedAll s (edgesOf (bitSegments v))).nState
      = (if s.nByte = 5 then STATE_IR_COMMAND_RECEIVED else STATE_IR_RECEIVING_BITS) ∧
    (feedAll s (edgesOf (bitSegments v))).nByte = s.nByte + 1 ∧
    (feedAll s (edgesOf (bitSegments v))).nBit = 0 ∧
    (feedAll s (edgesOf (bitSegments v))).cByte = shiftIn s.cByte v ∧
    (feedAll s (edgesOf (bitSegments v))).irCommand
      = s.irCommand.set s.nByte (shiftIn s.cByte v) ∧
    SameSide s (feedAll s (edgesOf (bitSegments v))) ∧
    (feedAll s (edgesOf (bitSegments v))).rxLog = s.rxLog ++ [RxEvent.bit v] := by
  rw [feed_bit_pair s v hv h0]
  obtain ⟨a1, a2, a3, a4⟩ := appendBit_wrap
    { deliver ⟨false, toTicks (if v = 1 then WIDTH_LONG else WIDTH_SHORT)⟩
        (deliver ⟨true, toTicks WIDTH_SHORT⟩ s) with
      cByte := shiftIn s.cByte v,
      rxLog := s.rxLog ++ [RxEvent.bit v] } hn hb
  obtain ⟨b1, b2, b3, b4, b5, b6, _, _⟩ := appendBit_side
    { deliver ⟨false, toTicks (if v = 1 then WIDTH_LONG else WIDTH_SHORT)⟩
        (deliver ⟨true, toTicks WIDTH_SHORT⟩ s) with
      cByte := shiftIn s.cByte v,
      rxLog := s.rxLog ++ [RxEvent.bit v] }
  refine ⟨?_, a2, a3, b1, a4, ⟨b2, b3, b5, b6⟩, b4⟩
  rw [a1]
  show (if s.nByte = 5 then STATE_IR_COMMAND_RECEIVED else s.nState) = _
  rw [h0]

/-- Up to seven bits received without completing a byte. -/
theorem feed_bits (bits : List Nat) :
    ∀ s : State, s.nState = STATE_IR_RECEIVING_BITS → s.nBit + bits.length ≤ 7 →
      (∀ v ∈ bits, v ≤ 1) →
      (feedAll s (edgesOf (bits.flatMap bitSegments))).nState = STATE_IR_RECEIVING_BITS ∧
      (feedAll s (edgesOf (bits.flatMap bitSegments))).nByte = s.nByte ∧
      (feedAll s (edgesOf (bits.flatMap bitSegments))).nBit = s.nBit + bits.length ∧
      (feedAll s (edgesOf (bits.flatMap bitSegments))).cByte = bits.foldl shiftIn s.cByte ∧
      (feedAll s (edgesOf (bits.flatMap bitSegments))).irCommand = s.irCommand ∧
      SameSide s (feedAll s (edgesOf (bits.flatMap bitSegments))) ∧
      (feedAll s (edgesOf (bits.flatMap bitSegments))).rxLog
        = s.rxLog ++ bits.map RxEvent.bit := by
  induction bits with
  | nil =>
    intro s h0 _ _
    exact ⟨h0, rfl, rfl, rfl, rfl, SameSide.refl s, by simp [feedAll, edgesOf]⟩
  | cons v bits ih =>
    intro s h0 hn hv
    have hlen : (v :: bits).length = bits.length + 1 := rfl
    obtain ⟨a1, a2, a3, a4, a5, a6, a7⟩ :=
      feed_bit_pair_step s v (hv v (by simp)) h0 (by omega)
    obtain ⟨c1, c2, c3, c4, c5, c6, c7⟩ :=
      ih (feedAll s (edgesOf (bitSegments v))) a1 (by omega)
        (fun w hw => hv w (by simp [hw]))
    rw [edgesOf_flatMap_cons, feedAll_append]
    refine ⟨c1, c2.trans a2, ?_, ?_, c5.trans a5, a6.trans c6, ?_⟩
    · rw [c3, a3, hlen]; omega
    · rw [c4, a4, List.foldl_cons]
    · rw [c7, a7, List.map_cons, List.append_assoc]; rfl

theorem shiftIn_eq (c v : Nat) (hv : v ≤ 1) : shiftIn c v = (2 * c + v) % 256 := by
  unfold shiftIn
  have h1 : c <<< 1 = 2 * c := by rw [Nat.shiftLeft_eq]; omega
  have h2 : 2 * c % 256 = 2 * (c % 128) := by omega
  rw [h1]
  by_cases h : v = 1
  · rw [if_pos h, h2, or_one_even _ (Nat.mod_lt _ (by decide))]
    omega
  · rw [if_neg h]
    have : v = 0 := by omega
    rw [this, Nat.add_zero]

theorem bits_of_byte (b : Nat) :
    (List.range 8).map (bitMsbFirst b)
      = [b / 128 % 2, b / 64 % 2, b / 32 % 2, b / 16 % 2,
         b / 8 % 2, b / 4 % 2, b / 2 % 2, b % 2] := by
  have h : List.range 8 = [0, 1, 2, 3, 4, 5, 6, 7] := by decide
  rw [h]
  simp [bitMsbFirst]

/-- Eight shifts rebuild the byte, whatever `cByte` held before. -/
theorem foldl_shiftIn_byte (b c : Nat) (hb : b < 256) :
    ((List.range 8).map (bitMsbFirst b)).foldl shiftIn c = b := by
  rw [bits_of_byte]
  simp only [List.foldl_cons, List.foldl_nil]
  have e1 : (2 * c + b / 128 % 2) % 256 = (c * 2 + b / 128) % 256 := by omega
  have e2 : (2 * ((c * 2 + b / 128) % 256) + b / 64 % 2) % 256
      = (c * 4 + b / 64) % 256 := by omega
  have e3 : (2 * ((c * 4 + b / 64) % 256) + b / 32 % 2) % 256
      = (c * 8 + b / 32) % 256 := by omega
  have e4 : (2 * ((c * 8 + b / 32) % 256) + b / 16 % 2) % 256
      = (c * 16 + b / 16) % 256 := by omega
  have e5 : (2 * ((c * 16 + b / 16) % 256) + b / 8 % 2) % 256
      = (c * 32 + b / 8) % 256 := by omega
  have e6 : (2 * ((c * 32 + b / 8) % 256) + b / 4 % 2) % 256
      = (c * 64 + b / 4) % 256 := by omega
  have e7 : (2 * ((c * 64 + b / 4) % 256) + b / 2 % 2) % 256
      = (c * 128 + b / 2) % 256 := by omega
  have e8 : (2 * ((c * 128 + b / 2) % 256) + b % 2) % 256 = b := by omega
  rw [shiftIn_eq _ _ (by omega), shiftIn_eq _ _ (by omega), shiftIn_eq _ _ (by omega),
    shiftIn_eq _ _ (by omega), shiftIn_eq _ _ (by omega), shiftIn_eq _ _ (by omega),
    shiftIn_eq _ _ (by omega), shiftIn_eq _ _ (by omega), e1, e2, e3, e4, e5, e6, e7, e8]

/-- A whole byte received from a byte boundary. -/
theorem feed_byte (s : State) (b : Nat) (hb : b < 256)
    (h0 : s.nState = STATE_IR_RECEIVING_BITS) (hn : s.nBit = 0) (hj : s.nByte ≤ 5) :
    (feedAll s (edgesOf ((frameBits [b]).flatMap bitSegments))).nState
      = (if s.nByte = 5 then STATE_IR_COMMAND_RECEIVED else STATE_IR_RECEIVING_BITS) ∧
    (feedAll s (edgesOf ((frameBits [b]).flatMap bitSegments))).nByte = s.nByte + 1 ∧
    (feedAll s (edgesOf ((frameBits [b]).flatMap bitSegments))).nBit = 0 ∧
    (feedAll s (edgesOf ((frameBits [b]).flatMap bitSegments))).irCommand
      = s.irCommand.set s.nByte b ∧
    SameSide s (feedAll s (edgesOf ((frameBits [b]).flatMap bitSegments))) ∧
    (feedAll s (edgesOf ((frameBits [b]).flatMap bitSegments))).rxLog
      = s.rxLog ++ (frameBits [b]).map RxEvent.bit := by
  have hfb : frameBits [b]
      = [b / 128 % 2, b / 64 % 2, b / 32 % 2, b / 16 % 2, b / 8 % 2, b / 4 % 2, b / 2 % 2]
        ++ [b % 2] := by
    rw [frameBits_cons]
    simp only [frameBits, List.flatMap_nil, List.append_nil]
    rw [bits_of_byte]
    rfl
  have hval := foldl_shiftIn_byte b s.cByte hb
  rw [bits_of_byte] at hval
  rw [hfb, List.flatMap_append, edgesOf_append, feedAll_append]
  obtain ⟨a1, a2, a3, a4, a5, a6, a7⟩ := feed_bits
    [b / 128 % 2, b / 64 % 2, b / 32 % 2, b / 16 % 2, b / 8 % 2, b / 4 % 2, b / 2 % 2]
    s h0 (by rw [hn]; simp)
    (by
      intro v hv
      simp only [List.mem_cons, List.mem_singleton, List.mem_nil_iff, or_false] at hv
      omega)
  have hflat : [b % 2].flatMap bitSegments = bitSegments (b % 2) := by
    simp [List.flatMap_cons]
  rw [hflat]
  obtain ⟨c1, c2, c3, c4, c5, c6, c7⟩ := feed_bit_pair_wrap
    (feedAll s (edgesOf
      ([b / 128 % 2, b / 64 % 2, b / 32 % 2, b / 16 % 2, b / 8 % 2, b / 4 % 2,
        b / 2 % 2].flatMap bitSegments)))
    (b % 2) (by omega) a1 (by rw [a3, hn]; rfl) (by rw [a2]; exact hj)
  have hc : shiftIn (feedAll s (edgesOf
      ([b / 128 % 2, b / 64 % 2, b / 32 % 2, b / 16 % 2, b / 8 % 2, b / 4 % 2,
        b / 2 % 2].flatMap bitSegments))).cByte (b % 2) = b := by
    rw [a4]
    exact hval
  refine ⟨?_, ?_, c3, ?_, a6.trans c6, ?_⟩
  · rw [c1, a2]
  · rw [c2, a2]
  · rw [c5, hc, a5, a2]
  · rw [c7, a7, List.map_append, List.append_assoc]
    rfl

/-- The bytes `bs` of a frame received from a byte boundary. -/
theorem feed_bytes (bs : List Nat) :
    ∀ s : State, s.nState = STATE_IR_RECEIVING_BITS → s.nBit = 0 → s.nByte ≤ 5 →
      s.nByte + bs.length ≤ 6 → (∀ b ∈ bs, b < 256) →
      (feedAll s (edgesOf ((frameBits bs).flatMap bitSegments))).nState
        = (if s.nByte + bs.length = 6 then STATE_IR_COMMAND_RECEIVED
           else STATE_IR_RECEIVING_BITS) ∧
      (feedAll s (edgesOf ((frameBits bs).flatMap bitSegments))).nByte
        = s.nByte + bs.length ∧
      (feedAll s (edgesOf ((frameBits bs).flatMap bitSegments))).nBit = 0 ∧
      (feedAll s (edgesOf ((frameBits bs).flatMap bitSegments))).irCommand
        = storeBytes s.irCommand s.nByte bs ∧
      SameSide s (feedAll s (edgesOf ((frameBits bs).flatMap bitSegments))) ∧
      (feedAll s (edgesOf ((frameBits bs).flatMap bitSegments))).rxLog
        = s.rxLog ++ (frameBits bs).map RxEvent.bit := by
  induction bs with
  | nil =>
    intro s h0 hn hj _ _
    refine ⟨?_, rfl, hn, rfl, SameSide.refl s, by simp [frameBits, feedAll, edgesOf]⟩
    rw [if_neg (by simp; omega)]
    exact h0
  | cons b bs ih =>
    intro s h0 hn hj hlen hb
    have hl : (b :: bs).length = bs.length + 1 := rfl
    have hsplit : frameBits (b :: bs) = frameBits [b] ++ frameBits bs := by
      simp [frameBits]
    obtain ⟨a1, a2, a3, a4, a5, a6⟩ := feed_byte s b (hb b (by simp)) h0 hn hj
    rw [hsplit, List.flatMap_append, edgesOf_append, feedAll_append]
    by_cases h5 : s.nByte = 5
    · have hnil : bs = [] := by
        apply List.eq_nil_of_length_eq_zero
        omega
      subst hnil
      rw [if_pos h5] at a1
      refine ⟨?_, ?_, ?_, ?_, ?_, ?_⟩
      · simp only [frameBits, List.flatMap_nil, edgesOf, feedAll, List.foldl_nil] at a1 ⊢
        rw [a1, if_pos (by simp; omega)]
      · simpa [frameBits, edgesOf, feedAll] using a2
      · simpa [frameBits, edgesOf, feedAll] using a3
      · simpa [frameBits, edgesOf, feedAll, storeBytes] using a4
      · simpa [frameBits, edgesOf, feedAll] using a5
      · simpa [frameBits, edgesOf, feedAll] using a6
    · rw [if_neg h5] at a1
      obtain ⟨c1, c2, c3, c4, c5, c6⟩ := ih
        (feedAll s (edgesOf ((frameBits [b]).flatMap bitSegments))) a1 a3
        (by rw [a2]; omega) (by rw [a2]; omega) (fun x hx => hb x (by simp [hx]))
      refine ⟨?_, ?_, c3, ?_, a5.trans c5, ?_⟩
      · rw [c1, a2, hl]
        have : (s.nByte + 1 + bs.length = 6) ↔ (s.nByte + (bs.length + 1) = 6) := by omega
        simp only [this]
      · rw [c2, a2, hl]; omega
      · rw [c4, a4, a2]; rfl
      · rw [c6, a6, List.map_append, List.append_assoc]

theorem storeBytes_six (l : List Nat) (hl : l.length = 6) (b0 b1 b2 b3 b4 b5 : Nat) :
    storeBytes l 0 [b0, b1, b2, b3, b4, b5] = [b0, b1, b2, b3, b4, b5] := by
  match l, hl with
  | [x0, x1, x2, x3, x4, x5], _ => rfl

theorem edgesOf_pulseTrain (f : List Nat) :
    edgesOf (pulseTrain f)
      = [⟨true, toTicks WIDTH_TRAINING_PULSE⟩, ⟨false, toTicks WIDTH_SILENCE_AFTER_TRAINING⟩]
        ++ edgesOf ((frameBits f).flatMap bitSegments)
        ++ [⟨true, toTicks WIDTH_SHORT⟩] := by
  unfold pulseTrain
  rw [edgesOf_append, edgesOf_append]
  rfl

/-- The preamble (training burst and silence) takes a resting machine to
`STATE_IR_RECEIVING_BITS` at the first byte boundary. -/
theorem feed_preamble (s : State) (hs : InReset s) :
    (feedAll s [⟨true, toTicks WIDTH_TRAINING_PULSE⟩,
        ⟨false, toTicks WIDTH_SILENCE_AFTER_TRAINING⟩]).nState = STATE_IR_RECEIVING_BITS ∧
    (feedAll s [⟨true, toTicks WIDTH_TRAINING_PULSE⟩,
        ⟨false, toTicks WIDTH_SILENCE_AFTER_TRAINING⟩]).nByte = 0 ∧
    (feedAll s [⟨true, toTicks WIDTH_TRAINING_PULSE⟩,
        ⟨false, toTicks WIDTH_SILENCE_AFTER_TRAINING⟩]).nBit = 0 ∧
    (feedAll s [⟨true, toTicks WIDTH_TRAINING_PULSE⟩,
        ⟨false, toTicks WIDTH_SILENCE_AFTER_TRAINING⟩]).irCommand = s.irCommand ∧
    SameSide s (feedAll s [⟨true, toTicks WIDTH_TRAINING_PULSE⟩,
        ⟨false, toTicks WIDTH_SILENCE_AFTER_TRAINING⟩]) ∧
    (feedAll s [⟨true, toTicks WIDTH_TRAINING_PULSE⟩,
        ⟨false, toTicks WIDTH_SILENCE_AFTER_TRAINING⟩]).rxLog = s.rxLog := by
  obtain ⟨h0, h1, h2, _⟩ := hs
  simp only [feedAll, List.foldl_cons, List.foldl_nil]
  rw [feed_training s _ h0 rfl (by rw [tick_values.1]; decide)
    (by rw [tick_values.1]; decide)]
  rw [feed_silence _ _ rfl rfl (by rw [tick_values.2.1]; decide)
    (by rw [tick_values.2.1]; decide)]
  exact ⟨rfl, h1, h2, rfl, ⟨rfl, rfl, rfl, rfl⟩, rfl⟩

theorem inReset_gotoResetState (s : State) : InReset (gotoResetState s) := by
  obtain ⟨h1, h2, h3, _, h5, _⟩ := gotoResetState_fields s
  exact ⟨h1, h2, h3, by rw [h5]; rfl⟩

theorem inReset_enableInfraredCapture (s : State) : InReset (enableInfraredCapture s) := by
  obtain ⟨h1, h2, h3, _, h5, _⟩ := enableInfraredCapture_fields s
  exact ⟨h1, h2, h3, by rw [h5]; rfl⟩

theorem disableInfraredCapture_keeps : Keeps disableInfraredCapture := by
  intro s; simp [disableInfraredCapture]

/-- A complete nominal frame whose pairs are complements and whose
address is accepted, received by a resting machine: the command is
dispatched once and the machine rests again. -/
theorem feed_frame (s : State) (a a' u u' y y' : Nat) (hs : InReset s)
    (ha : a < 256) (ha' : a' < 256) (hu : u < 256) (hu' : u' < 256)
    (hy : y < 256) (hy' : y' < 256)
    (h01 : a ^^^ a' = 0xFF) (h23 : u ^^^ u' = 0xFF) (h45 : y ^^^ y' = 0xFF)
    (haddr : a = s.nConfigDeviceAddress ∨ a = BROADCAST_ADDRESS) :
    InReset (feedAll s (edgesOf (pulseTrain [a, a', u, u', y, y']))) ∧
    (feedAll s (edgesOf (pulseTrain [a, a', u, u', y, y']))).dispatched
      = s.dispatched ++ [u * 256 + y] ∧
    (feedAll s (edgesOf (pulseTrain [a, a', u, u', y, y']))).usbCommand = u * 256 + y ∧
    (feedAll s (edgesOf (pulseTrain [a, a', u, u', y, y']))).nConfigDeviceAddress
      = s.nConfigDeviceAddress ∧
    (feedAll s (edgesOf (pulseTrain [a, a', u, u', y, y']))).rxLog
      = s.rxLog ++ (frameBits [a, a', u, u', y, y']).map RxEvent.bit
        ++ [RxEvent.interpret [a, a', u, u', y, y'], RxEvent.reset] := by
  obtain ⟨p1, p2, p3, p4, p5, p6⟩ := feed_preamble s hs
  obtain ⟨b1, b2, b3, b4, b5, b6⟩ := feed_bytes [a, a', u, u', y, y']
    (feedAll s [⟨true, toTicks WIDTH_TRAINING_PULSE⟩,
        ⟨false, toTicks WIDTH_SILENCE_AFTER_TRAINING⟩])
    p1 p3 (by rw [p2]; decide) (by rw [p2]; simp)
    (by
      intro b hb
      simp only [List.mem_cons, List.mem_singleton, List.mem_nil_iff, or_false] at hb
      rcases hb with h | h | h | h | h | h <;> rw [h] <;> assumption)
  rw [p2] at b1 b4
  rw [if_pos (by simp)] at b1
  rw [p4, storeBytes_six _ hs.2.2.2] at b4
  rw [p6] at b6
  have hside := p5.trans b5
  rw [edgesOf_pulseTrain, feedAll_append, feedAll_append]
  generalize feedAll (feedAll s [⟨true, toTicks WIDTH_TRAINING_PULSE⟩,
        ⟨false, toTicks WIDTH_SILENCE_AFTER_TRAINING⟩])
      (edgesOf ((frameBits [a, a', u, u', y, y']).flatMap bitSegments)) = s3
    at b1 b2 b3 b4 b5 b6 hside ⊢
  simp only [feedAll, List.foldl_cons, List.foldl_nil]
  rw [feed_command s3 _ b1]
  have hd := deliver_fields ⟨true, toTicks WIDTH_SHORT⟩ s3
  have hk := disableInfraredCapture_keeps (deliver ⟨true, toTicks WIDTH_SHORT⟩ s3)
  obtain ⟨i1, i2, i3, i4⟩ := interpretInfraredCommand_complement_frame
    (disableInfraredCapture (deliver ⟨true, toTicks WIDTH_SHORT⟩ s3)) a a' u u' y y'
    (by rw [hk.2.2.2.2.1, hd.2.2.2.2.1, b4]) hu hy h01 h23 h45
    (by rw [hk.2.2.2.2.2.2.1, hd.2.2.2.2.2.2.1, hside.2.1]; exact haddr)
  obtain ⟨e1, e2, e3, e4, e5, e6, e7, e8, e9, _⟩ := enableInfraredCapture_fields
    (interpretInfraredCommand
      (disableInfraredCapture (deliver ⟨true, toTicks WIDTH_SHORT⟩ s3)))
  refine ⟨inReset_enableInfraredCapture _, ?_, ?_, ?_, ?_⟩
  · rw [e9, i2, hk.2.2.2.2.2.2.2.2.1, hd.2.2.2.2.2.2.2.2.1, hside.2.2.1, shl8_or _ _ hy]
  · rw [e6, i1, shl8_or _ _ hy]
  · rw [e7, i3, hk.2.2.2.2.2.2.1, hd.2.2.2.2.2.2.1, hside.2.1]
  · rw [e8, i4, hk.2.2.2.2.2.2.2.1, hd.2.2.2.2.2.2.2.1, b6, hk.2.2.2.2.1, hd.2.2.2.2.1, b4]
    simp

theorem edgesOf_emitted (t : State) :
    edgesOf (emitted t) = edgesOf (pulseTrain (buildInfraredFrame t)) := by
  rw [emitted_eq, edgesOf_append]
  simp [edgesOf, edgeOf]

/-- The frame sent by a transmitter with address `a`, received by a resting
machine configured with `a`. -/
theorem feed_emitted (t s : State)
    (ha : t.nConfigDeviceAddress < 256) (hc : t.usbCommand < 65536)
    (hsa : s.nConfigDeviceAddress = t.nConfigDeviceAddress) (hs : InReset s) :
    InReset (feedAll s (edgesOf (emitted t))) ∧
    (feedAll s (edgesOf (emitted t))).dispatched = s.dispatched ++ [t.usbCommand] ∧
    (feedAll s (edgesOf (emitted t))).usbCommand = t.usbCommand ∧
    (feedAll s (edgesOf (emitted t))).nConfigDeviceAddress = s.nConfigDeviceAddress := by
  have hu : t.usbCommand / 256 < 256 := by omega
  have hy : t.usbCommand % 256 < 256 := by omega
  have hval : t.usbCommand / 256 * 256 + t.usbCommand % 256 = t.usbCommand := by omega
  rw [edgesOf_emitted, buildInfraredFrame_eq t ha hc]
  obtain ⟨f1, f2, f3, f4, _⟩ := feed_frame s _ _ _ _ _ _ hs ha (by omega) hu (by omega) hy
    (by omega) (xor_complement _ ha) (xor_complement _ hu) (xor_complement _ hy)
    (Or.inl hsa.symm)
  rw [hval] at f2 f3
  exact ⟨f1, f2, f3, f4⟩

/-- C1: round trip. For every device address `a < 256` and 16-bit command
`c`, the pulse train that `transmitInfraredCommand` emits for `(a, c)`, turned
into edge events (rising edge at the end of each mark, falling edge at the end
of each space, elapsed time the nominal duration in Timer1 ticks) and fed one
by one to `processInfraredInterrupt` of a machine resting in `STATE_IR_RESET`
with configured address `a`, dispatches exactly one command, leaves
`usbCommand.uxyy = c`, and ends in `STATE_IR_RESET`. -/
theorem round_trip (t s : State) (a c : Nat) (ha : a < 256) (hc : c < 65536)
    (hta : t.nConfigDeviceAddress = a) (htc : t.usbCommand = c)
    (hsa : s.nConfigDeviceAddress = a) (hs : InReset s) :
    (feedAll s (edgesOf (emitted t))).dispatched = s.dispatched ++ [c] ∧
    (feedAll s (edgesOf (emitted t))).usbCommand = c ∧
    (feedAll s (edgesOf (emitted t))).nState = STATE_IR_RESET := by
  subst hta htc
  obtain ⟨f1, f2, f3, _⟩ := feed_emitted t s ha hc hsa hs
  exact ⟨f2, f3, f1.1⟩

set_option maxRecDepth 100000 in
theorem round_trip_witness :
    buildInfraredFrame { powerOnState 0xAA with usbCommand := 0x0028 }
      = [0xAA, 0x55, 0x00, 0xFF, 0x28, 0xD7] ∧
    (feedAll (powerOnState 0xAA)
      (edgesOf (emitted { powerOnState 0xAA with usbCommand := 0x0028 }))).dispatched
      = [0x0028] ∧
    (feedAll (powerOnState 0xAA)
      (edgesOf (emitted { powerOnState 0xAA with usbCommand := 0x0028 }))).usbCommand
      = 0x0028 ∧
    (feedAll (powerOnState 0xAA)
      (edgesOf (emitted { powerOnState 0xAA with usbCommand := 0x0028 }))).nState
      = STATE_IR_RESET :=
  ⟨by decide,
   round_trip { powerOnState 0xAA with usbCommand := 0x0028 } (powerOnState 0xAA)
    0xAA 0x0028 (by decide) (by decide) (by decide) (by decide) (by decide)
    (by decide)⟩

/-! ### Recovery -/

theorem feed_bits_too_long (s : State) (w : Nat)
    (h0 : s.nState = STATE_IR_RECEIVING_BITS)
    (hw : toTicks (WIDTH_LONG + WIDTH_ERROR_MARGIN) < w) (hw16 : w < 65536) :
    feed s ⟨false, w⟩ = gotoResetState (deliver ⟨false, w⟩ s) := by
  rw [← MICROSECONDS_eq_toTicks, threshold_values.2.2.2.2.2.2.2] at hw
  have hm : w % 65536 = w := Nat.mod_eq_of_lt hw16
  unfold feed
  rw [processInfraredInterrupt_bits _ (by rw [(deliver_fields _ s).1]; exact h0)]
  simp [deliver_fields, threshold_values, hm, hw]

/-- An event that is not a training pulse leaves a resting machine at rest
and dispatches nothing. -/
theorem feed_rest (s : State) (e : PulseEvent) (hs : InReset s)
    (h : e.rising = false ∨ e.elapsed % 65536 ≤ 675 ∨ 825 ≤ e.elapsed % 65536) :
    InReset (feed s e) ∧ SameSide s (feed s e) := by
  rw [feed_reset_stays s e hs.1 h]
  obtain ⟨_, _, _, _, _, g6, g7, _, g9, g10, _⟩ := gotoResetState_fields (deliver e s)
  obtain ⟨_, _, _, _, _, d6, d7, _, d9, d10, _⟩ := deliver_fields e s
  exact ⟨inReset_gotoResetState _, g6.trans d6, g7.trans d7, g9.trans d9, g10.trans d10⟩

theorem feedAll_rest (es : List PulseEvent) :
    ∀ s : State, InReset s →
      (∀ e ∈ es, e.rising = false ∨ e.elapsed % 65536 ≤ 675 ∨ 825 ≤ e.elapsed % 65536) →
      InReset (feedAll s es) ∧ SameSide s (feedAll s es) := by
  induction es with
  | nil => intro s hs _; exact ⟨hs, SameSide.refl s⟩
  | cons e es ih =>
    intro s hs h
    obtain ⟨a1, a2⟩ := feed_rest s e hs (h e (by simp))
    obtain ⟨b1, b2⟩ := ih (feed s e) a1 (fun x hx => h x (by simp [hx]))
    exact ⟨b1, a2.trans b2⟩

/-- C5: recovery. If in `STATE_IR_RECEIVING_BITS`, at any bit position and
with any bits already shifted into `cByte` and stored in `irCommand`, a
falling edge arrives whose elapsed time exceeds the LongSpace upper bound
(for example 1500 ticks, a 2000 us space), the machine goes to
`STATE_IR_RESET`; any further nominal bit pulses of the interrupted frame
(marks and short or long spaces) keep it there and dispatch nothing; and a
following complete nominal frame for the configured address is decoded to
exactly that frame's command. -/
theorem recovery_after_long_space (s t : State) (w : Nat) (rest : List PulseEvent)
    (h0 : s.nState = STATE_IR_RECEIVING_BITS)
    (hw : toTicks (WIDTH_LONG + WIDTH_ERROR_MARGIN) < w) (hw16 : w < 65536)
    (hrest : ∀ e ∈ rest, e = ⟨true, toTicks WIDTH_SHORT⟩ ∨
      e = ⟨false, toTicks WIDTH_SHORT⟩ ∨ e = ⟨false, toTicks WIDTH_LONG⟩)
    (ha : t.nConfigDeviceAddress < 256) (hc : t.usbCommand < 65536)
    (hsa : s.nConfigDeviceAddress = t.nConfigDeviceAddress) :
    (feed s ⟨false, w⟩).nState = STATE_IR_RESET ∧
    (feed s ⟨false, w⟩).dispatched = s.dispatched ∧
    (feedAll (feed s ⟨false, w⟩) rest).nState = STATE_IR_RESET ∧
    (feedAll (feed s ⟨false, w⟩) rest).dispatched = s.dispatched ∧
    (feedAll (feedAll (feed s ⟨false, w⟩) rest) (edgesOf (emitted t))).dispatched
      = s.dispatched ++ [t.usbCommand] ∧
    (feedAll (feedAll (feed s ⟨false, w⟩) rest) (edgesOf (emitted t))).usbCommand
      = t.usbCommand ∧
    (feedAll (feedAll (feed s ⟨false, w⟩) rest) (edgesOf (emitted t))).nState
      = STATE_IR_RESET := by
  have h1 : InReset (feed s ⟨false, w⟩) := by
    rw [feed_bits_too_long s w h0 hw hw16]
    exact inReset_gotoResetState _
  have h1s : SameSide s (feed s ⟨false, w⟩) := by
    rw [feed_bits_too_long s w h0 hw hw16]
    obtain ⟨_, _, _, _, _, g6, g7, _, g9, g10, _⟩ :=
      gotoResetState_fields (deliver ⟨false, w⟩ s)
    exact ⟨g6, g7, g9, g10⟩
  obtain ⟨h2, h2s⟩ := feedAll_rest rest (feed s ⟨false, w⟩) h1 (by
    intro e he
    rcases hrest e he with h | h | h <;> subst h
    · right; left; rw [tick_values.2.2.1]; decide
    · left; rfl
    · left; rfl)
  have hside := h1s.trans h2s
  obtain ⟨f1, f2, f3, _⟩ := feed_emitted t (feedAll (feed s ⟨false, w⟩) rest) ha hc
    (hside.2.1.trans hsa) h2
  exact ⟨h1.1, h1s.2.2.1, h2.1, hside.2.2.1, by rw [f2, hside.2.2.1], f3, f1.1⟩

set_option maxRecDepth 100000 in
theorem recovery_after_long_space_witness :
    (feed { powerOnState 0xAA with
            nState := STATE_IR_RECEIVING_BITS, nByte := 2, nBit := 3, cByte := 5,
            irCommand := [0xAA, 0x55, 0, 0, 0, 0] } ⟨false, 1500⟩).nState
      = STATE_IR_RESET ∧
    (feedAll (feedAll (feed { powerOnState 0xAA with
            nState := STATE_IR_RECEIVING_BITS, nByte := 2, nBit := 3, cByte := 5,
            irCommand := [0xAA, 0x55, 0, 0, 0, 0] } ⟨false, 1500⟩)
          [⟨true, 450⟩, ⟨false, 1237⟩, ⟨true, 450⟩, ⟨false, 450⟩, ⟨true, 450⟩])
        (edgesOf (emitted { powerOnState 0xAA with usbCommand := 0x0028 }))).dispatched
      = [0x0028] :=
  let h := recovery_after_long_space
    { powerOnState 0xAA with
      nState := STATE_IR_RECEIVING_BITS, nByte := 2, nBit := 3, cByte := 5,
      irCommand := [0xAA, 0x55, 0, 0, 0, 0] }
    { powerOnState 0xAA with usbCommand := 0x0028 } 1500
    [⟨true, 450⟩, ⟨false, 1237⟩, ⟨true, 450⟩, ⟨false, 450⟩, ⟨true, 450⟩]
    rfl (by decide) (by decide) (by decide) (by decide) (by decide) (by decide)
  ⟨h.1, h.2.2.2.2.1⟩

/-! ### Edge-case policy -/

theorem inNoWindow_iff (t : Nat) :
    InNoWindow t ↔ t < 375 ∨ (525 < t ∧ t < 675) ∨ (825 < t ∧ t < 1162) ∨ 1312 < t := by
  unfold InNoWindow
  simp only [List.mem_cons, List.mem_singleton, List.mem_nil_iff, or_false, forall_eq_or_imp,
    forall_eq, ← MICROSECONDS_eq_toTicks, threshold_values]
  omega

theorem not_command_dispatched (s : State) (h : s.nState ≠ STATE_IR_COMMAND_RECEIVED) :
    (processInfraredInterrupt s).dispatched = s.dispatched := by
  unfold processInfraredInterrupt
  split_ifs <;>
    first
    | rfl
    | exact (gotoResetState_fields _).2.2.2.2.2.2.2.2.1
    | exact (appendBit_side _).2.2.2.2.1

/-- C6, as stated, fails in `STATE_IR_RECEIVING_BITS` and in
`STATE_IR_COMMAND_RECEIVED`. (1) 1000 ticks lie in no tolerance window, yet a
falling edge of that width in `STATE_IR_RECEIVING_BITS` appends bit 0 and the
machine stays in `STATE_IR_RECEIVING_BITS`. (2) 100 ticks lie in no window, yet
a rising edge of that width leaves the machine in `STATE_IR_RECEIVING_BITS`.
(3) In `STATE_IR_COMMAND_RECEIVED` an event of 100 ticks dispatches the
assembled command. -/
theorem unclassifiable_width_not_reset :
    (InNoWindow 1000 ∧
      (feed { powerOnState 0xAA with nState := STATE_IR_RECEIVING_BITS }
          ⟨false, 1000⟩).nState = STATE_IR_RECEIVING_BITS ∧
      (feed { powerOnState 0xAA with nState := STATE_IR_RECEIVING_BITS }
          ⟨false, 1000⟩).nBit = 1 ∧
      (feed { powerOnState 0xAA with nState := STATE_IR_RECEIVING_BITS }
          ⟨false, 1000⟩).rxLog = [RxEvent.bit 0]) ∧
    (InNoWindow 100 ∧
      (feed { powerOnState 0xAA with nState := STATE_IR_RECEIVING_BITS }
          ⟨true, 100⟩).nState = STATE_IR_RECEIVING_BITS) ∧
    (feed { powerOnState 0xAA with
              nState := STATE_IR_COMMAND_RECEIVED,
              irCommand := [0xAA, 0x55, 0x00, 0xFF, 0x28, 0xD7] }
          ⟨true, 100⟩).dispatched = [0x0028] := by
  refine ⟨⟨?_, ?_, ?_, ?_⟩, ⟨?_, ?_⟩, ?_⟩ <;> decide

/-- C6 (amended): in `STATE_IR_RESET` and `STATE_IR_TRAINING_RECEIVED` an event
whose elapsed time lies in none of the tolerance windows moves the machine to
`STATE_IR_RESET` in that same step, without appending a bit and without
dispatching. In `STATE_IR_RECEIVING_BITS` a falling edge of `t` ticks appends
bit 1 when `lo(LONG) < t <= hi(LONG)`, appends bit 0 when
`lo(SHORT) < t <= lo(LONG)`, and resets otherwise; a rising edge resets when
`t > hi(SHORT)` and is ignored otherwise; none of these steps dispatches a
command. Only a step taken in `STATE_IR_COMMAND_RECEIVED` can dispatch: it
hands the assembled frame to `interpretInfraredCommand` without a test of the
elapsed time. Here `lo(x) = toTicks(x - margin)` and
`hi(x) = toTicks(x + margin)`. -/
theorem edge_case_policy (s : State) :
    ((s.nState = STATE_IR_RESET ∨ s.nState = STATE_IR_TRAINING_RECEIVED) →
      InNoWindow s.nPulseWidth →
        processInfraredInterrupt s = gotoResetState s ∧
        (processInfraredInterrupt s).nState = STATE_IR_RESET ∧
        (processInfraredInterrupt s).cByte = s.cByte ∧
        (processInfraredInterrupt s).rxLog = s.rxLog ++ [RxEvent.reset]) ∧
    (s.nState = STATE_IR_RECEIVING_BITS → bRisingEdge s = false →
      (toTicks (WIDTH_LONG - WIDTH_ERROR_MARGIN) < s.nPulseWidth ∧
          s.nPulseWidth ≤ toTicks (WIDTH_LONG + WIDTH_ERROR_MARGIN) →
        processInfraredInterrupt s
          = appendBit { s with
              cByte := (s.cByte <<< 1) % 256 ||| 1,
              rxLog := s.rxLog ++ [RxEvent.bit 1] }) ∧
      (toTicks (WIDTH_SHORT - WIDTH_ERROR_MARGIN) < s.nPulseWidth ∧
          s.nPulseWidth ≤ toTicks (WIDTH_LONG - WIDTH_ERROR_MARGIN) →
        processInfraredInterrupt s
          = appendBit { s with
              cByte := (s.cByte <<< 1) % 256,
              rxLog := s.rxLog ++ [RxEvent.bit 0] }) ∧
      (s.nPulseWidth ≤ toTicks (WIDTH_SHORT - WIDTH_ERROR_MARGIN) ∨
          toTicks (WIDTH_LONG + WIDTH_ERROR_MARGIN) < s.nPulseWidth →
        processInfraredInterrupt s = gotoResetState s)) ∧
    (s.nState = STATE_IR_RECEIVING_BITS → bRisingEdge s = true →
      (toTicks (WIDTH_SHORT + WIDTH_ERROR_MARGIN) < s.nPulseWidth →
        processInfraredInterrupt s = gotoResetState s) ∧
      (s.nPulseWidth ≤ toTicks (WIDTH_SHORT + WIDTH_ERROR_MARGIN) →
        processInfraredInterrupt s = s)) ∧
    (s.nState ≠ STATE_IR_COMMAND_RECEIVED →
      (processInfraredInterrupt s).dispatched = s.dispatched) ∧
    (s.nState = STATE_IR_COMMAND_RECEIVED →
      processInfraredInterrupt s
        = enableInfraredCapture (interpretInfraredCommand (disableInfraredCapture s))) := by
  simp only [← MICROSECONDS_eq_toTicks, threshold_values]
  refine ⟨?_, ?_, ?_, not_command_dispatched s, processInfraredInterrupt_command s⟩
  · intro h0 hw
    rw [inNoWindow_iff] at hw
    have heq : processInfraredInterrupt s = gotoResetState s := by
      rcases h0 with h0 | h0
      · rw [processInfraredInterrupt_reset s h0, if_neg]
        simp only [IS_PULSE_WIDTH_NEAR, threshold_values]
        simp
        intro _ _
        omega
      · rw [processInfraredInterrupt_training s h0, if_neg]
        simp only [IS_PULSE_WIDTH_NEAR, threshold_values]
        simp
        intro _ _
        omega
    rw [heq]
    obtain ⟨g1, _, _, g4, _, _, _, g8, _⟩ := gotoResetState_fields s
    exact ⟨rfl, g1, g4, g8⟩
  · intro h0 hr
    rw [processInfraredInterrupt_bits s h0]
    simp only [hr, threshold_values]
    refine ⟨?_, ?_, ?_⟩
    · rintro ⟨h1, h2⟩
      simp [h1, Nat.not_lt.mpr h2]
    · rintro ⟨h1, h2⟩
      have h3 : ¬ (1312 < s.nPulseWidth) := by omega
      simp [h1, Nat.not_lt.mpr h2, h3]
    · intro h
      rcases h with h | h
      · have h3 : ¬ (1312 < s.nPulseWidth) := by omega
        have h4 : ¬ (1162 < s.nPulseWidth) := by omega
        simp [h3, h4, Nat.not_lt.mpr h]
      · simp [h]
  · intro h0 hr
    rw [processInfraredInterrupt_bits s h0]
    simp only [hr, threshold_values]
    refine ⟨?_, ?_⟩
    · intro h
      simp [h]
    · intro h
      simp [Nat.not_lt.mpr h]

theorem edge_case_policy_witness :
    processInfraredInterrupt
        { powerOnState 0xAA with nState := STATE_IR_TRAINING_RECEIVED, nPulseWidth := 600 }
      = gotoResetState
        { powerOnState 0xAA with nState := STATE_IR_TRAINING_RECEIVED, nPulseWidth := 600 } :=
  ((edge_case_policy
      { powerOnState 0xAA with nState := STATE_IR_TRAINING_RECEIVED, nPulseWidth := 600 }).1
    (Or.inr rfl) (by decide)).1

/-! ### No partial frame: the receive log -/

theorem take_succ_set (l : List Nat) (n a : Nat) (h : n < l.length) :
    (l.set n a).take (n + 1) = l.take n ++ [a] := by
  rw [List.take_succ, List.getElem?_set_self h, List.set_take,
    List.set_eq_of_length_le (by rw [List.length_take]; omega)]
  rfl

theorem byteOfBits_concat (l : List Nat) (v : Nat) :
    byteOfBits (l ++ [v]) = 2 * byteOfBits l + v := by
  simp [byteOfBits, List.foldl_append]

theorem bits_of_byteOfBits (l : List Nat) (hlen : l.length = 8) (h01 : ∀ v ∈ l, v ≤ 1) :
    byteOfBits l < 256 ∧ (List.range 8).map (bitMsbFirst (byteOfBits l)) = l := by
  match l, hlen with
  | [v0, v1, v2, v3, v4, v5, v6, v7], _ =>
    have h0 := h01 v0 (by simp)
    have h1 := h01 v1 (by simp)
    have h2 := h01 v2 (by simp)
    have h3 := h01 v3 (by simp)
    have h4 := h01 v4 (by simp)
    have h5 := h01 v5 (by simp)
    have h6 := h01 v6 (by simp)
    have h7 := h01 v7 (by simp)
    rw [bits_of_byte]
    simp only [byteOfBits, List.foldl_cons, List.foldl_nil]
    refine ⟨by omega, ?_⟩
    have e0 : (2 * (2 * (2 * (2 * (2 * (2 * (2 * (2 * 0 + v0) + v1) + v2) + v3) + v4) + v5)
        + v6) + v7) / 128 % 2 = v0 := by omega
    have e1 : (2 * (2 * (2 * (2 * (2 * (2 * (2 * (2 * 0 + v0) + v1) + v2) + v3) + v4) + v5)
        + v6) + v7) / 64 % 2 = v1 := by omega
    have e2 : (2 * (2 * (2 * (2 * (2 * (2 * (2 * (2 * 0 + v0) + v1) + v2) + v3) + v4) + v5)
        + v6) + v7) / 32 % 2 = v2 := by omega
    have e3 : (2 * (2 * (2 * (2 * (2 * (2 * (2 * (2 * 0 + v0) + v1) + v2) + v3) + v4) + v5)
        + v6) + v7) / 16 % 2 = v3 := by omega
    have e4 : (2 * (2 * (2 * (2 * (2 * (2 * (2 * (2 * 0 + v0) + v1) + v2) + v3) + v4) + v5)
        + v6) + v7) / 8 % 2 = v4 := by omega
    have e5 : (2 * (2 * (2 * (2 * (2 * (2 * (2 * (2 * 0 + v0) + v1) + v2) + v3) + v4) + v5)
        + v6) + v7) / 4 % 2 = v5 := by omega
    have e6 : (2 * (2 * (2 * (2 * (2 * (2 * (2 * (2 * 0 + v0) + v1) + v2) + v3) + v4) + v5)
        + v6) + v7) / 2 % 2 = v6 := by omega
    have e7 : (2 * (2 * (2 * (2 * (2 * (2 * (2 * (2 * 0 + v0) + v1) + v2) + v3) + v4) + v5)
        + v6) + v7) % 2 = v7 := by omega
    rw [e0, e1, e2, e3, e4, e5, e6, e7]

theorem shiftIn_mod (c v n : Nat) (hv : v ≤ 1) (hn : n ≤ 7) :
    shiftIn c v % 2 ^ (n + 1) = 2 * (c % 2 ^ n) + v := by
  rw [shiftIn_eq c v hv]
  have h : n = 0 ∨ n = 1 ∨ n = 2 ∨ n = 3 ∨ n = 4 ∨ n = 5 ∨ n = 6 ∨ n = 7 := by omega
  rcases h with h | h | h | h | h | h | h | h <;> subst h <;> norm_num <;> omega

theorem framed_snoc (L0 log : List RxEvent) (x : RxEvent)
    (hx : ∀ f, x ≠ RxEvent.interpret f) (h : Framed L0 log) :
    Framed L0 (log ++ [x]) := by
  intro pre f post heq
  rcases List.eq_nil_or_concat post with hp | ⟨post0, y, hp⟩
  · subst hp
    have h1 := List.append_inj_right' heq rfl
    simp only [List.cons.injEq, and_true] at h1
    exact absurd h1 (hx f)
  · subst hp
    rw [List.concat_eq_append, ← List.cons_append, ← List.append_assoc] at heq
    have h1 := List.append_inj_left' heq rfl
    obtain ⟨pre', post', e1, e2, e3, e4⟩ := h pre f post0 h1
    refine ⟨pre', post' ++ [y], e1, e2, e3, ?_⟩
    rw [List.concat_eq_append, e4]
    rfl

theorem framed_interpret (L0 log pre0 : List RxEvent) (f0 : List Nat)
    (h : Framed L0 log)
    (hlog : log = L0 ++ pre0 ++ RxEvent.reset :: (frameBits f0).map RxEvent.bit)
    (hlen : f0.length = 6) (hbytes : ∀ b ∈ f0, b < 256) :
    Framed L0 (log ++ [RxEvent.interpret f0, RxEvent.reset]) := by
  have hsplit : log ++ [RxEvent.interpret f0, RxEvent.reset]
      = (log ++ [RxEvent.interpret f0]) ++ [RxEvent.reset] := by simp
  intro pre f post heq
  rw [hsplit] at heq
  rcases List.eq_nil_or_concat post with hp | ⟨post0, y, hp⟩
  · subst hp
    have h1 := List.append_inj_right' heq rfl
    simp at h1
  · subst hp
    rw [List.concat_eq_append, ← List.cons_append, ← List.append_assoc] at heq
    have h1 := List.append_inj_left' heq rfl
    have h2 := List.append_inj_right' heq rfl
    simp only [List.cons.injEq, and_true] at h2
    subst h2
    rcases List.eq_nil_or_concat post0 with hq | ⟨post1, z, hq⟩
    · subst hq
      have h3 := List.append_inj_left' h1 rfl
      have h4 := List.append_inj_right' h1 rfl
      simp only [List.cons.injEq, RxEvent.interpret.injEq, and_true] at h4
      subst h4
      rw [hlog, List.append_assoc] at h3
      have h5 := List.append_cancel_left h3
      exact ⟨pre0, [], h5.symm, hlen, hbytes, rfl⟩
    · subst hq
      rw [List.concat_eq_append, ← List.cons_append, ← List.append_assoc] at h1
      have h3 := List.append_inj_left' h1 rfl
      obtain ⟨pre', post', e1, e2, e3, e4⟩ := h pre f post1 h3
      refine ⟨pre', post' ++ [z] ++ [RxEvent.reset], e1, e2, e3, ?_⟩
      rw [List.concat_eq_append, List.concat_eq_append, e4]
      simp

theorem rxInv_congr (L0 : List RxEvent) (s t : State)
    (h1 : t.nState = s.nState) (h2 : t.nByte = s.nByte) (h3 : t.nBit = s.nBit)
    (h4 : t.cByte = s.cByte) (h5 : t.irCommand = s.irCommand) (h6 : t.rxLog = s.rxLog)
    (h : RxInv L0 s) : RxInv L0 t := by
  unfold RxInv at h ⊢
  rw [h1, h2, h3, h4, h5, h6]
  exact h

theorem rxInv_log (L0 : List RxEvent) (s : State) (h : RxInv L0 s) :
    ∃ p, s.rxLog = L0 ++ p := by
  obtain ⟨_, _, h3⟩ := h
  rcases h3 with ⟨_, _, _, pre, hl⟩ | ⟨_, _, _, _, pre, cur, hl, _⟩ | ⟨_, _, pre, hl⟩
  · exact ⟨pre ++ [RxEvent.reset], by rw [hl, List.append_assoc]⟩
  · exact ⟨_, by rw [hl, List.append_assoc]⟩
  · exact ⟨_, by rw [hl, List.append_assoc]⟩

theorem rxInv_gotoResetState (L0 : List RxEvent) (s : State) (h : RxInv L0 s) :
    RxInv L0 (gotoResetState s) := by
  obtain ⟨p, hp⟩ := rxInv_log L0 s h
  obtain ⟨g1, g2, g3, _, g5, _, _, g8, _⟩ := gotoResetState_fields s
  refine ⟨by rw [g5]; rfl, ?_, Or.inl ⟨Or.inl g1, g2, g3, p, ?_⟩⟩
  · rw [g8]
    exact framed_snoc L0 _ _ (by intro f hf; cases hf) h.2.1
  · rw [g8, hp]

theorem interpretInfraredCommand_rxLog (s : State) :
    (interpretInfraredCommand s).rxLog = s.rxLog ++ [RxEvent.interpret s.irCommand] := by
  unfold interpretInfraredCommand
  simp only []
  split_ifs <;> simp [sendUSBCommand_fields _, updateLCD_keeps _]

theorem rxInv_appendBit (L0 : List RxEvent) (s : State) (v : Nat) (hv : v ≤ 1)
    (h : RxInv L0 s) (h0 : s.nState = STATE_IR_RECEIVING_BITS) :
    RxInv L0 (appendBit { s with
      cByte := shiftIn s.cByte v,
      rxLog := s.rxLog ++ [RxEvent.bit v] }) := by
  obtain ⟨hlen, hfr, h3⟩ := h
  rcases h3 with ⟨hA, _⟩ | ⟨_, hj, hn, hbytes, pre, cur, hlog, hcl, hc01, hcv⟩ | ⟨hC, _⟩
  · rcases hA with hA | hA <;> rw [h0] at hA <;> cases hA
  · obtain ⟨b1, _, _, b4, _⟩ := appendBit_side { s with
      cByte := shiftIn s.cByte v,
      rxLog := s.rxLog ++ [RxEvent.bit v] }
    have hfr' : Framed L0 (s.rxLog ++ [RxEvent.bit v]) :=
      framed_snoc L0 _ _ (by intro f hf; cases hf) hfr
    have hc01' : ∀ w ∈ cur ++ [v], w ≤ 1 := by
      intro w hw
      rcases List.mem_append.mp hw with hw | hw
      · exact hc01 w hw
      · rw [List.mem_singleton.mp hw]; exact hv
    by_cases h7 : s.nBit = 7
    · obtain ⟨a1, a2, a3, a4⟩ := appendBit_wrap { s with
        cByte := shiftIn s.cByte v,
        rxLog := s.rxLog ++ [RxEvent.bit v] } h7 hj
      have hB : shiftIn s.cByte v = byteOfBits (cur ++ [v]) := by
        have hm := shiftIn_mod s.cByte v s.nBit hv hn
        rw [hcv, h7] at hm
        have hlt : shiftIn s.cByte v < 256 := by
          rw [shiftIn_eq _ _ hv]; exact Nat.mod_lt _ (by decide)
        rw [byteOfBits_concat, ← hm]
        exact (Nat.mod_eq_of_lt hlt).symm
      obtain ⟨hB1, hB2⟩ := bits_of_byteOfBits (cur ++ [v])
        (by rw [List.length_append, hcl, h7]; rfl) hc01'
      have htake : (s.irCommand.set s.nByte (shiftIn s.cByte v)).take (s.nByte + 1)
          = s.irCommand.take s.nByte ++ [byteOfBits (cur ++ [v])] := by
        rw [take_succ_set _ _ _ (by omega), hB]
      have hfb : frameBits (s.irCommand.take s.nByte ++ [byteOfBits (cur ++ [v])])
          = frameBits (s.irCommand.take s.nByte) ++ (cur ++ [v]) := by
        simp only [frameBits, List.flatMap_append, List.flatMap_cons, List.flatMap_nil,
          List.append_nil]
        rw [hB2]
      have hbytes' : ∀ b ∈ s.irCommand.take s.nByte ++ [byteOfBits (cur ++ [v])],
          b < 256 := by
        intro b hb
        rcases List.mem_append.mp hb with hb | hb
        · exact hbytes b hb
        · rw [List.mem_singleton.mp hb]; exact hB1
      have hlog' : s.rxLog ++ [RxEvent.bit v]
          = L0 ++ pre ++ RxEvent.reset ::
            (frameBits (s.irCommand.take s.nByte ++ [byteOfBits (cur ++ [v])])).map
              RxEvent.bit := by
        rw [hfb, hlog]
        simp
      have hlen' : (s.irCommand.set s.nByte (shiftIn s.cByte v)).length = 6 := by
        rw [List.length_set]; exact hlen
      refine ⟨by rw [a4]; exact hlen', by rw [b4]; exact hfr', ?_⟩
      by_cases h5 : s.nByte = 5
      · right; right
        have hfull : (s.irCommand.set s.nByte (shiftIn s.cByte v)).take (s.nByte + 1)
            = s.irCommand.set s.nByte (shiftIn s.cByte v) := by
          apply List.take_of_length_le
          rw [hlen', h5]
        refine ⟨?_, ?_, pre, ?_⟩
        · rw [a1]; exact if_pos h5
        · rw [a4, ← hfull, htake]; exact hbytes'
        · rw [a4, b4, ← hfull, htake]; exact hlog'
      · right; left
        refine ⟨?_, ?_, ?_, ?_, pre, [], ?_, ?_, ?_, ?_⟩
        · rw [a1]; exact (if_neg h5).trans h0
        · rw [a2]; show s.nByte + 1 ≤ 5; omega
        · rw [a3]; exact Nat.zero_le _
        · rw [a4, a2]; show ∀ b ∈ (s.irCommand.set s.nByte _).take (s.nByte + 1), b < 256
          rw [htake]; exact hbytes'
        · rw [a4, a2, b4]
          show s.rxLog ++ [RxEvent.bit v] = L0 ++ pre ++ RxEvent.reset ::
            (frameBits ((s.irCommand.set s.nByte _).take (s.nByte + 1)) ++ []).map RxEvent.bit
          rw [htake, List.append_nil]; exact hlog'
        · rw [a3]; rfl
        · intro w hw; cases hw
        · rw [a3]; show _ % 1 = byteOfBits []; rw [Nat.mod_one]; rfl
    · obtain ⟨a1, a2, a3, a4⟩ := appendBit_step { s with
        cByte := shiftIn s.cByte v,
        rxLog := s.rxLog ++ [RxEvent.bit v] } (show s.nBit < 7 by omega)
      refine ⟨by rw [a4]; exact hlen, by rw [b4]; exact hfr', Or.inr (Or.inl
        ⟨a1.trans h0, by rw [a2]; exact hj, by rw [a3]; show s.nBit + 1 ≤ 7; omega,
          by rw [a4, a2]; exact hbytes, pre, cur ++ [v], ?_, ?_, hc01', ?_⟩)⟩
      · rw [a4, a2, b4]
        show s.rxLog ++ [RxEvent.bit v] = _
        rw [hlog]
        simp
      · rw [a3, List.length_append, hcl]; rfl
      · rw [a3, b1, byteOfBits_concat, ← hcv]
        exact shiftIn_mod s.cByte v s.nBit hv hn
  · rw [h0] at hC; cases hC

theorem rxInv_processInfraredInterrupt (L0 : List RxEvent) (s : State) (h : RxInv L0 s) :
    RxInv L0 (processInfraredInterrupt s) := by
  have hcopy := h
  obtain ⟨hlen, hfr, h3⟩ := h
  rcases h3 with ⟨hA, hb, hn, pre, hlog⟩ | ⟨h0, hj, hn, hbytes, pre, cur, hlog, hcl, hc01, hcv⟩
      | ⟨h0, hbytes, pre, hlog⟩
  · rcases hA with h0 | h0
    · rw [processInfraredInterrupt_reset s h0]
      split_ifs
      · exact ⟨hlen, hfr, Or.inl ⟨Or.inr rfl, hb, hn, pre, hlog⟩⟩
      · exact rxInv_gotoResetState L0 s hcopy
    · rw [processInfraredInterrupt_training s h0]
      split_ifs
      · refine ⟨hlen, hfr, Or.inr (Or.inl ⟨rfl, ?_, ?_, ?_, pre, [], ?_, ?_, ?_, ?_⟩)⟩
        · show s.nByte ≤ 5; omega
        · show s.nBit ≤ 7; omega
        · show ∀ b ∈ s.irCommand.take s.nByte, b < 256
          rw [hb]; intro b hb'; cases hb'
        · show s.rxLog = L0 ++ pre ++ RxEvent.reset ::
            (frameBits (s.irCommand.take s.nByte) ++ []).map RxEvent.bit
          rw [hb, hlog]; rfl
        · show ([] : List Nat).length = s.nBit
          rw [hn]; rfl
        · intro w hw; cases hw
        · show s.cByte % 2 ^ s.nBit = byteOfBits []
          rw [hn]; simp [byteOfBits, Nat.mod_one]
      · exact rxInv_gotoResetState L0 s hcopy
  · rw [processInfraredInterrupt_bits s h0]
    split_ifs
    · exact rxInv_gotoResetState L0 s hcopy
    · exact hcopy
    · exact rxInv_gotoResetState L0 s hcopy
    · have := rxInv_appendBit L0 s 1 (by decide) hcopy h0
      simpa [shiftIn] using this
    · have := rxInv_appendBit L0 s 0 (by decide) hcopy h0
      simpa [shiftIn] using this
    · exact rxInv_gotoResetState L0 s hcopy
  · rw [processInfraredInterrupt_command s h0]
    obtain ⟨e1, e2, e3, _, e5, _, _, e8, _⟩ := enableInfraredCapture_fields
      (interpretInfraredCommand (disableInfraredCapture s))
    have hl : (enableInfraredCapture
        (interpretInfraredCommand (disableInfraredCapture s))).rxLog
        = s.rxLog ++ [RxEvent.interpret s.irCommand, RxEvent.reset] := by
      rw [e8, interpretInfraredCommand_rxLog]
      show (s.rxLog ++ [RxEvent.interpret s.irCommand]) ++ [RxEvent.reset] = _
      simp
    refine ⟨by rw [e5]; rfl, ?_, Or.inl ⟨Or.inl e1, e2, e3,
      pre ++ RxEvent.reset :: (frameBits s.irCommand).map RxEvent.bit
        ++ [RxEvent.interpret s.irCommand], ?_⟩⟩
    · rw [hl]
      exact framed_interpret L0 s.rxLog pre s.irCommand hfr hlog hlen hbytes
    · rw [hl, hlog]
      simp

theorem rxInv_feed (L0 : List RxEvent) (s : State) (e : PulseEvent) (h : RxInv L0 s) :
    RxInv L0 (feed s e) := by
  unfold feed
  apply rxInv_processInfraredInterrupt
  obtain ⟨d1, d2, d3, d4, d5, _, _, d8, _⟩ := deliver_fields e s
  exact rxInv_congr L0 s _ d1 d2 d3 d4 d5 d8 h

theorem rxInv_feedAll (L0 : List RxEvent) (es : List PulseEvent) :
    ∀ s : State, RxInv L0 s → RxInv L0 (feedAll s es) := by
  induction es with
  | nil => intro s h; exact h
  | cons e es ih => intro s h; exact ih (feed s e) (rxInv_feed L0 s e h)

theorem rxInv_start (L0 : List RxEvent) (s : State) (h0 : InReset s)
    (hlog : s.rxLog = L0 ++ [RxEvent.reset]) : RxInv L0 s := by
  obtain ⟨h1, h2, h3, h4⟩ := h0
  refine ⟨h4, ?_, Or.inl ⟨Or.inl h1, h2, h3, [], by rw [hlog]; simp⟩⟩
  intro pre f post heq
  rw [hlog, List.append_assoc] at heq
  have h5 := List.append_cancel_left heq
  rcases List.eq_nil_or_concat post with hp | ⟨post0, y, hp⟩
  · subst hp
    have h5' : ([] : List RxEvent) ++ [RxEvent.reset] = pre ++ [RxEvent.interpret f] := h5
    have h6 := List.append_inj_right' h5' rfl
    simp at h6
  · subst hp
    rw [List.concat_eq_append, ← List.cons_append, ← List.append_assoc] at h5
    have h6 := congrArg List.length h5
    simp at h6
    omega

/-- C8: no partial frame is ever forwarded. Feed any sequence of events to a
machine that rests in `STATE_IR_RESET` (its receive log ending with that
reset). Then every hand-over `interpret f` to `interpretInfraredCommand` that
the log records comes directly after a reset followed by exactly 48 appended
bits and nothing else; the six bytes `f` of `irCommand` handed over are exactly
those 48 bits, byte by byte and most significant bit first; and the hand-over
is followed at once by a reset, so one run of 48 bits is handed over at most
once. -/
theorem no_partial_frame (s : State) (L0 : List RxEvent) (es : List PulseEvent)
    (pre post : List RxEvent) (f : List Nat)
    (h0 : InReset s) (hlog : s.rxLog = L0 ++ [RxEvent.reset])
    (h : (feedAll s es).rxLog = L0 ++ pre ++ RxEvent.interpret f :: post) :
    ∃ pre' bits post',
      pre = pre' ++ RxEvent.reset :: bits.map RxEvent.bit ∧
      bits.length = 48 ∧ (∀ v ∈ bits, v = 0 ∨ v = 1) ∧
      f.length = 6 ∧ (∀ b ∈ f, b < 256) ∧ frameBits f = bits ∧
      post = RxEvent.reset :: post' := by
  obtain ⟨_, hfr, _⟩ := rxInv_feedAll L0 es s (rxInv_start L0 s h0 hlog)
  obtain ⟨pre', post', e1, e2, e3, e4⟩ := hfr pre f post h
  refine ⟨pre', frameBits f, post', e1, ?_, ?_, e2, e3, rfl, e4⟩
  · match f, e2 with
    | [b0, b1, b2, b3, b4, b5], _ => simp [frameBits]
  · intro v hv
    simp only [frameBits, List.mem_flatMap, List.mem_map] at hv
    obtain ⟨b, _, i, _, rfl⟩ := hv
    unfold bitMsbFirst
    omega

set_option maxRecDepth 1000000 in
theorem no_partial_frame_witness :
    ∃ pre' bits post',
      RxEvent.reset :: (frameBits [0xAA, 0x55, 0x00, 0xFF, 0x28, 0xD7]).map RxEvent.bit
        = pre' ++ RxEvent.reset :: bits.map RxEvent.bit ∧
      bits.length = 48 ∧ (∀ v ∈ bits, v = 0 ∨ v = 1) ∧
      [0xAA, 0x55, 0x00, 0xFF, 0x28, 0xD7].length = 6 ∧
      (∀ b ∈ [0xAA, 0x55, 0x00, 0xFF, 0x28, 0xD7], b < 256) ∧
      frameBits [0xAA, 0x55, 0x00, 0xFF, 0x28, 0xD7] = bits ∧
      [RxEvent.reset] = RxEvent.reset :: post' :=
  no_partial_frame (enableInfraredCapture (powerOnState 0xAA)) []
    (edgesOf (emitted { powerOnState 0xAA with usbCommand := 0x0028 }))
    (RxEvent.reset :: (frameBits [0xAA, 0x55, 0x00, 0xFF, 0x28, 0xD7]).map RxEvent.bit)
    [RxEvent.reset] [0xAA, 0x55, 0x00, 0xFF, 0x28, 0xD7]
    (by decide) (by decide) (by decide)

/-! ### Transmit encoder: the capture interrupt while it emits -/

theorem delay_us_capture (us : Nat) (s : State) :
    (delay_us us s).irOutCapture = s.irOutCapture ++ [s.CCP2IE] := rfl

theorem transmitInfraredShortMark_capture (s : State) :
    (transmitInfraredShortMark s).irOutCapture = s.irOutCapture ++ [s.CCP2IE] := rfl

theorem transmitInfraredByteLoop_capture (i : Nat) : ∀ (b : Nat) (s : State),
    (transmitInfraredByteLoop i b s).irOutCapture
      = s.irOutCapture ++ List.replicate (2 * i) s.CCP2IE := by
  induction i with
  | zero => intro b s; simp [transmitInfraredByteLoop]
  | succ i ih =>
    intro b s
    have hr : List.replicate (2 * (i + 1)) s.CCP2IE
        = [s.CCP2IE, s.CCP2IE] ++ List.replicate (2 * i) s.CCP2IE := by
      rw [show 2 * (i + 1) = 2 * i + 1 + 1 by ring]
      rfl
    simp only [transmitInfraredByteLoop]
    split_ifs <;>
    · rw [ih, hr, delay_us_capture, transmitInfraredShortMark_capture,
        (delay_us_keeps _ _).2.2.2.2.2.2.2.2.2.2.2,
        (transmitInfraredShortMark_keeps _).2.2.2.2.2.2.2.2.2.2.2]
      simp

theorem transmit_bytes_capture (is : List Nat) : ∀ s : State,
    (is.foldl (fun t i => transmitInfraredByte (t.irCommand.getD i 0) t) s).irOutCapture
      = s.irOutCapture ++ List.replicate (16 * is.length) s.CCP2IE := by
  induction is with
  | nil => intro s; simp
  | cons i is ih =>
    intro s
    rw [List.foldl_cons, ih, (transmitInfraredByte_keeps _ _).2.2.2.2.2.2.2.2.2.2.2]
    unfold transmitInfraredByte
    rw [transmitInfraredByteLoop_capture, List.append_assoc, ← List.replicate_add]
    congr 2
    simp only [List.length_cons]
    ring

theorem signal_capture (t : State) :
    (transmitInfraredShortMark
      ((List.range 6).foldl (fun t i => transmitInfraredByte (t.irCommand.getD i 0) t)
        (delay_us WIDTH_SILENCE_AFTER_TRAINING
          (PWM1_Stop (delay_us WIDTH_TRAINING_PULSE (PWM1_Start t)))))).irOutCapture
      = t.irOutCapture ++ List.replicate 99 t.CCP2IE ∧
    (transmitInfraredShortMark
      ((List.range 6).foldl (fun t i => transmitInfraredByte (t.irCommand.getD i 0) t)
        (delay_us WIDTH_SILENCE_AFTER_TRAINING
          (PWM1_Stop (delay_us WIDTH_TRAINING_PULSE (PWM1_Start t)))))).CCP2IE
      = t.CCP2IE := by
  have hc : (delay_us WIDTH_SILENCE_AFTER_TRAINING
      (PWM1_Stop (delay_us WIDTH_TRAINING_PULSE (PWM1_Start t)))).CCP2IE = t.CCP2IE := rfl
  have ho : (delay_us WIDTH_SILENCE_AFTER_TRAINING
      (PWM1_Stop (delay_us WIDTH_TRAINING_PULSE (PWM1_Start t)))).irOutCapture
      = t.irOutCapture ++ [t.CCP2IE, t.CCP2IE] := by
    simp [delay_us, PWM1_Stop, PWM1_Start]
  have hk := transmit_bytes_keeps (List.range 6) (delay_us WIDTH_SILENCE_AFTER_TRAINING
      (PWM1_Stop (delay_us WIDTH_TRAINING_PULSE (PWM1_Start t))))
  have hk2 := hk.2.2.2.2.2.2.2.2.2.2.2
  simp only [] at hk2
  constructor
  · rw [transmitInfraredShortMark_capture, transmit_bytes_capture, hk2, ho, hc]
    simp only [List.length_range, List.append_assoc]
    congr 1
  · rw [(transmitInfraredShortMark_keeps _).2.2.2.2.2.2.2.2.2.2.2, hk2, hc]

theorem enableInfraredCapture_hardware (s : State) :
    (enableInfraredCapture s).CCP2IE = true ∧
    (enableInfraredCapture s).CCP2IF = false ∧
    (enableInfraredCapture s).CCP2CON = 0b00000100 ∧
    (enableInfraredCapture s).TMR1 = 0 ∧
    (enableInfraredCapture s).irOutCapture = s.irOutCapture ∧
    (enableInfraredCapture s).hidWrites = s.hidWrites ∧
    (enableInfraredCapture s).bInfraredInterruptPending = s.bInfraredInterruptPending := by
  unfold enableInfraredCapture gotoResetState
  simp only []
  split_ifs <;> simp

theorem pulseTrain_length (b0 b1 b2 b3 b4 b5 : Nat) :
    (pulseTrain [b0, b1, b2, b3, b4, b5]).length = 99 := by
  simp [pulseTrain, frameBits, bitSegments, List.range, List.range.loop]

/-- C11: `transmitInfraredCommand` emits its hundred segments (the pulse train
of 99 marks and spaces and the closing pause), each of them with the capture
interrupt disabled whatever its state was on entry, and leaves the capture
interrupt enabled, the capture armed for a falling edge, Timer1 zeroed and the
receive machine in `STATE_IR_RESET` with both counters zero. -/
theorem transmitInfraredCommand_capture (s : State) :
    (transmitInfraredCommand s).irOut.length = s.irOut.length + 100 ∧
    (transmitInfraredCommand s).irOutCapture
      = s.irOutCapture ++ List.replicate 100 false ∧
    (transmitInfraredCommand s).CCP2IE = true ∧
    (transmitInfraredCommand s).CCP2CON = 0b00000100 ∧
    (transmitInfraredCommand s).TMR1 = 0 ∧
    (transmitInfraredCommand s).nState = STATE_IR_RESET ∧
    (transmitInfraredCommand s).nByte = 0 ∧
    (transmitInfraredCommand s).nBit = 0 := by
  refine ⟨?_, ?_, ?_⟩
  · rw [transmitInfraredCommand_out]
    simp only [List.length_append, buildInfraredFrame, pulseTrain_length, List.length_singleton]
  · have h := signal_capture
      { disableInfraredCapture { s with ACTIVITY_LED := true } with
        irCommand := buildInfraredFrame (disableInfraredCapture { s with ACTIVITY_LED := true }) }
    unfold transmitInfraredCommand
    simp only []
    rw [(enableInfraredCapture_hardware _).2.2.2.2.1]
    show (transmitInfraredShortMark _).irOutCapture ++ [(transmitInfraredShortMark _).CCP2IE] = _
    rw [h.1, h.2]
    show s.irOutCapture ++ List.replicate 99 false ++ [false] = _
    rw [List.append_assoc]
    rfl
  · unfold transmitInfraredCommand
    simp only []
    simp [enableInfraredCapture_hardware _, enableInfraredCapture_fields _]

/-! ### Receive machine: a complete frame -/

theorem interpretInfraredCommand_accepted (s : State)
    (h : Accepted s.nConfigDeviceAddress s.irCommand) :
    interpretInfraredCommand s
      = sendUSBCommand (updateLCD
          { s with rxLog := s.rxLog ++ [RxEvent.interpret s.irCommand],
                   usbCommand := (nModifiers s <<< 8 ||| nCommand s) % 65536 }) :=
  interpretInfraredCommand_accepts s h.1 h.2.1 h.2.2.1 h.2.2.2

theorem interpretInfraredCommand_not_accepted (s : State)
    (h : ¬ Accepted s.nConfigDeviceAddress s.irCommand) :
    interpretInfraredCommand s
      = { s with rxLog := s.rxLog ++ [RxEvent.interpret s.irCommand] } := by
  unfold interpretInfraredCommand
  simp only [nAddress, nAddressInverted, nModifiers, nModifiersInverted, nCommand,
    nCommandInverted]
  unfold Accepted at h
  split_ifs with h1 h2 h3 h4
  · rfl
  · rfl
  · rfl
  · rfl
  · exfalso
    apply h
    refine ⟨?_, h2, h3, h4⟩
    by_contra hc
    push_neg at hc
    exact h1 hc

theorem interpretInfraredCommand_fields (s : State) :
    (interpretInfraredCommand s).nState = s.nState ∧
    (interpretInfraredCommand s).nByte = s.nByte ∧
    (interpretInfraredCommand s).nBit = s.nBit ∧
    (interpretInfraredCommand s).cByte = s.cByte ∧
    (interpretInfraredCommand s).irCommand = s.irCommand ∧
    (interpretInfraredCommand s).nConfigDeviceAddress = s.nConfigDeviceAddress ∧
    (interpretInfraredCommand s).rxLog = s.rxLog ++ [RxEvent.interpret s.irCommand] ∧
    (interpretInfraredCommand s).dispatched
      = s.dispatched ++
        (if Accepted s.nConfigDeviceAddress s.irCommand
          then [(nModifiers s <<< 8 ||| nCommand s) % 65536] else []) := by
  by_cases h : Accepted s.nConfigDeviceAddress s.irCommand
  · rw [interpretInfraredCommand_accepted s h, if_pos h]
    simp [sendUSBCommand_fields _, updateLCD_keeps _]
  · rw [interpretInfraredCommand_not_accepted s h, if_neg h]
    simp

/-- C12: entered with `nState = STATE_IR_COMMAND_RECEIVED`,
`processInfraredInterrupt` hands the frame to `interpretInfraredCommand`
exactly once (the receive log grows by that one hand-over and the reset that
follows it), re-arms the capture (interrupt enabled, flag cleared, falling
edge selected, Timer1 zeroed) and ends in `STATE_IR_RESET` with `nByte = 0`
and `nBit = 0`, whether or not the frame is accepted. -/
theorem processInfraredInterrupt_command_received (s : State)
    (h : s.nState = STATE_IR_COMMAND_RECEIVED) :
    (processInfraredInterrupt s).rxLog
      = s.rxLog ++ [RxEvent.interpret s.irCommand, RxEvent.reset] ∧
    (processInfraredInterrupt s).dispatched
      = s.dispatched ++
        (if Accepted s.nConfigDeviceAddress s.irCommand
          then [(nModifiers s <<< 8 ||| nCommand s) % 65536] else []) ∧
    (processInfraredInterrupt s).CCP2IE = true ∧
    (processInfraredInterrupt s).CCP2IF = false ∧
    (processInfraredInterrupt s).CCP2CON = 0b00000100 ∧
    (processInfraredInterrupt s).TMR1 = 0 ∧
    (processInfraredInterrupt s).nState = STATE_IR_RESET ∧
    (processInfraredInterrupt s).nByte = 0 ∧
    (processInfraredInterrupt s).nBit = 0 := by
  rw [processInfraredInterrupt_command s h]
  refine ⟨?_, ?_, (enableInfraredCapture_hardware _).1, (enableInfraredCapture_hardware _).2.1,
    (enableInfraredCapture_hardware _).2.2.1, (enableInfraredCapture_hardware _).2.2.2.1,
    (enableInfraredCapture_fields _).1, (enableInfraredCapture_fields _).2.1,
    (enableInfraredCapture_fields _).2.2.1⟩
  · rw [(enableInfraredCapture_fields _).2.2.2.2.2.2.2.1,
      (interpretInfraredCommand_fields _).2.2.2.2.2.2.1]
    simp [disableInfraredCapture]
  · rw [(enableInfraredCapture_fields _).2.2.2.2.2.2.2.2.1,
      (interpretInfraredCommand_fields _).2.2.2.2.2.2.2]
    rfl

theorem processInfraredInterrupt_command_received_witness :
    ({ powerOnState 0xAA with
        nState := STATE_IR_COMMAND_RECEIVED,
        irCommand := [0xAA, 0x55, 0x00, 0xFF, 0x28, 0xD7] }
      : State).nState = STATE_IR_COMMAND_RECEIVED ∧
    (processInfraredInterrupt
      { powerOnState 0xAA with
        nState := STATE_IR_COMMAND_RECEIVED,
        irCommand := [0xAA, 0x55, 0x00, 0xFF, 0x28, 0xD7] }).rxLog
      = [RxEvent.interpret [0xAA, 0x55, 0x00, 0xFF, 0x28, 0xD7], RxEvent.reset] :=
  ⟨rfl, (processInfraredInterrupt_command_received _ rfl).1⟩

/-! ### Capture interrupt -/

/-- C13, counterexample: the capture branch of `interrupt()` also changes the
edge counter `nEdgeCount`, which is none of the event fields, the Timer1
count, the polarity bit and the two flags. -/
theorem interrupt_changes_edge_count :
    (interrupt { powerOnState 0xAA with CCP2IF := true, CCPR2 := 750 }).nEdgeCount = 1 ∧
    ({ powerOnState 0xAA with CCP2IF := true, CCPR2 := 750 } : State).nEdgeCount = 0 := by
  decide

/-- C13, amended: with the capture flag raised, `interrupt()` records the
elapsed ticks and the edge direction, zeroes Timer1, toggles the polarity bit,
clears the capture flag, sets the pending flag and increments the edge counter
`nEdgeCount` modulo 256, and changes nothing else: in particular `nState`,
`nByte`, `nBit`, `cByte`, `irCommand`, `usbCommand` and the logs of the receive
machine and of the dispatcher stay as they are, so `processInfraredInterrupt`
and the dispatcher have not run. -/
theorem interrupt_capture_branch (s : State) (h : s.CCP2IF = true) :
    interrupt s
      = { s with
          nPulseWidth := s.CCPR2 % 65536,
          nRiseOrFall := s.CCP2CON,
          TMR1 := 0,
          CCP2CON := s.CCP2CON ^^^ 0b00000001,
          CCP2IF := false,
          bInfraredInterruptPending := true,
          nEdgeCount := (s.nEdgeCount + 1) % 256 } ∧
    (interrupt s).nState = s.nState ∧ (interrupt s).nByte = s.nByte ∧
    (interrupt s).nBit = s.nBit ∧ (interrupt s).cByte = s.cByte ∧
    (interrupt s).irCommand = s.irCommand ∧ (interrupt s).usbCommand = s.usbCommand ∧
    (interrupt s).rxLog = s.rxLog ∧ (interrupt s).dispatched = s.dispatched ∧
    (interrupt s).hidWrites = s.hidWrites := by
  unfold interrupt
  rw [if_pos h]
  exact ⟨rfl, rfl, rfl, rfl, rfl, rfl, rfl, rfl, rfl, rfl⟩

theorem interrupt_capture_branch_witness :
    ({ powerOnState 0xAA with CCP2IF := true, CCPR2 := 750 } : State).CCP2IF = true ∧
    (interrupt { powerOnState 0xAA with CCP2IF := true, CCPR2 := 750 }).nState
      = STATE_IR_RESET :=
  ⟨rfl, (interrupt_capture_branch _ rfl).2.1⟩

/-! ### Diagnostics do not steer the receive machine -/


theorem gotoResetState_sameCore (s t : State) (h : SameCore s t) :
    SameCore (gotoResetState s) (gotoResetState t) := by
  obtain ⟨h1, h2, h3, h4, h5, h6⟩ := h
  simp [SameCore, gotoResetState_fields _, h4, h6]

theorem appendBit_sameCore (s t : State) (h : SameCore s t) :
    SameCore (appendBit s) (appendBit t) := by
  obtain ⟨h1, h2, h3, h4, h5, h6⟩ := h
  unfold appendBit
  simp only [h2, h3, h4, h5]
  split_ifs <;> simp [SameCore, h1, h2, h3, h4, h5, h6]


theorem processInfraredInterrupt_sameCore (s t : State) (h : SameCore s t)
    (hw : s.nPulseWidth = t.nPulseWidth) (he : bRisingEdge s = bRisingEdge t) :
    SameCore (processInfraredInterrupt s) (processInfraredInterrupt t) ∧
    ∃ new, (processInfraredInterrupt s).dispatched = s.dispatched ++ new ∧
      (processInfraredInterrupt t).dispatched = t.dispatched ++ new := by
  have h' := h
  obtain ⟨h1, h2, h3, h4, h5, h6⟩ := h'
  have hf : bFallingEdge s = bFallingEdge t := by simp [bFallingEdge, he]
  have hn : ∀ x, IS_PULSE_WIDTH_NEAR x s = IS_PULSE_WIDTH_NEAR x t := by
    intro x; simp [IS_PULSE_WIDTH_NEAR, hw]
  have hg := gotoResetState_sameCore s t h
  have hgd : (gotoResetState s).dispatched = s.dispatched ++ [] ∧
      (gotoResetState t).dispatched = t.dispatched ++ [] := by
    simp [gotoResetState_fields _]
  by_cases c0 : s.nState = STATE_IR_RESET
  · rw [processInfraredInterrupt_reset s c0, processInfraredInterrupt_reset t (h1 ▸ c0),
      he, hn]
    split_ifs
    · exact ⟨⟨rfl, h2, h3, h4, h5, h6⟩, [], by simp, by simp⟩
    · exact ⟨hg, [], hgd⟩
  by_cases c1 : s.nState = STATE_IR_TRAINING_RECEIVED
  · rw [processInfraredInterrupt_training s c1,
      processInfraredInterrupt_training t (h1 ▸ c1), hf, hn]
    split_ifs
    · exact ⟨⟨rfl, h2, h3, h4, h5, h6⟩, [], by simp, by simp⟩
    · exact ⟨hg, [], hgd⟩
  by_cases c2 : s.nState = STATE_IR_RECEIVING_BITS
  · rw [processInfraredInterrupt_bits s c2, processInfraredInterrupt_bits t (h1 ▸ c2),
      he, hw]
    split_ifs
    · exact ⟨hg, [], hgd⟩
    · exact ⟨h, [], by simp, by simp⟩
    · exact ⟨hg, [], hgd⟩
    · refine ⟨appendBit_sameCore _ _ ⟨h1, h2, h3, ?_, h5, h6⟩, [], ?_, ?_⟩
      · simp [h4]
      · simp [appendBit_side _]
      · simp [appendBit_side _]
    · refine ⟨appendBit_sameCore _ _ ⟨h1, h2, h3, ?_, h5, h6⟩, [], ?_, ?_⟩
      · simp [h4]
      · simp [appendBit_side _]
      · simp [appendBit_side _]
    · exact ⟨hg, [], hgd⟩
  by_cases c3 : s.nState = STATE_IR_COMMAND_RECEIVED
  · rw [processInfraredInterrupt_command s c3, processInfraredInterrupt_command t (h1 ▸ c3)]
    refine ⟨?_, (if Accepted s.nConfigDeviceAddress s.irCommand
          then [(nModifiers s <<< 8 ||| nCommand s) % 65536] else []), ?_, ?_⟩
    · simp only [SameCore, enableInfraredCapture_fields _, interpretInfraredCommand_fields _,
        and_self, true_and]
      exact ⟨h4, h6⟩
    · rw [(enableInfraredCapture_fields _).2.2.2.2.2.2.2.2.1,
        (interpretInfraredCommand_fields _).2.2.2.2.2.2.2]
      rfl
    · rw [(enableInfraredCapture_fields _).2.2.2.2.2.2.2.2.1,
        (interpretInfraredCommand_fields _).2.2.2.2.2.2.2]
      show t.dispatched ++ (if Accepted t.nConfigDeviceAddress t.irCommand
          then [(nModifiers t <<< 8 ||| nCommand t) % 65536] else []) = _
      rw [← h5, ← h6]
      simp only [nModifiers, nCommand, h5]
  · have d0 : ¬ t.nState = STATE_IR_RESET := h1 ▸ c0
    have d1 : ¬ t.nState = STATE_IR_TRAINING_RECEIVED := h1 ▸ c1
    have d2 : ¬ t.nState = STATE_IR_RECEIVING_BITS := h1 ▸ c2
    have d3 : ¬ t.nState = STATE_IR_COMMAND_RECEIVED := h1 ▸ c3
    rw [processInfraredInterrupt, if_neg c0, if_neg c1, if_neg c2, if_neg c3,
      processInfraredInterrupt, if_neg d0, if_neg d1, if_neg d2, if_neg d3]
    exact ⟨h, [], by simp, by simp⟩


/-! ### Foreground loop -/

theorem gotoResetState_hardware (s : State) :
    (gotoResetState s).CCP2IE = s.CCP2IE ∧ (gotoResetState s).CCP2CON = s.CCP2CON ∧
    (gotoResetState s).hidWrites = s.hidWrites ∧
    (gotoResetState s).bInfraredInterruptPending = s.bInfraredInterruptPending := by
  unfold gotoResetState
  simp only []
  split_ifs <;> simp

theorem appendBit_hardware (s : State) :
    (appendBit s).CCP2IE = s.CCP2IE ∧ (appendBit s).CCP2CON = s.CCP2CON ∧
    (appendBit s).hidWrites = s.hidWrites ∧
    (appendBit s).bInfraredInterruptPending = s.bInfraredInterruptPending := by
  unfold appendBit
  simp only []
  split_ifs <;> simp

theorem processInfraredInterrupt_CCP2IE (s : State) (h : s.CCP2IE = true) :
    (processInfraredInterrupt s).CCP2IE = true := by
  by_cases c3 : s.nState = STATE_IR_COMMAND_RECEIVED
  · rw [processInfraredInterrupt_command s c3]
    exact (enableInfraredCapture_hardware _).1
  · unfold processInfraredInterrupt
    rw [if_neg c3]
    split_ifs <;> simp [gotoResetState_hardware _, appendBit_hardware _, h]

/-- C15, counterexample: the machine rests in `STATE_IR_RESET` with an event
pending that is no training burst; the rising edge that ends a training burst
of 750 ticks is captured after `processInfraredInterrupt()` has returned and
before the flag is cleared. The loop then leaves the pending flag cleared with
the new event in the event fields, and its next pass does not process it: the
machine stays in `STATE_IR_RESET`, where processing the event would have taken
it to `STATE_IR_TRAINING_RECEIVED`. -/
theorem pollInfrared_erases_captured_edge :
    (pollInfraredPreempted 750
      { powerOnState 0xAA with
        bInfraredInterruptPending := true,
        nPulseWidth := 300,
        CCP2IE := true,
        CCP2CON := 0b00000101 }).bInfraredInterruptPending = false ∧
    (pollInfraredPreempted 750
      { powerOnState 0xAA with
        bInfraredInterruptPending := true,
        nPulseWidth := 300,
        CCP2IE := true,
        CCP2CON := 0b00000101 }).nPulseWidth = 750 ∧
    (pollInfrared (pollInfraredPreempted 750
      { powerOnState 0xAA with
        bInfraredInterruptPending := true,
        nPulseWidth := 300,
        CCP2IE := true,
        CCP2CON := 0b00000101 })).nState = STATE_IR_RESET ∧
    (processInfraredInterrupt (pollInfraredPreempted 750
      { powerOnState 0xAA with
        bInfraredInterruptPending := true,
        nPulseWidth := 300,
        CCP2IE := true,
        CCP2CON := 0b00000101 })).nState = STATE_IR_TRAINING_RECEIVED := by
  decide

/-- C15, amended: on seeing the pending flag the foreground loop drives
exactly one transition of the receive machine from the event fields and
clears the flag after it. With the capture interrupt enabled, an edge captured
after `processInfraredInterrupt()` has returned and before the clearing
overwrites the event fields and has its pending flag erased by the clearing:
the receive machine and its log are as the one transition left them, and the
next pass of the loop does nothing. -/
theorem pollInfrared_processes_then_clears (ticks : Nat) (s : State)
    (hp : s.bInfraredInterruptPending = true) (hc : s.CCP2IE = true) :
    pollInfrared s
      = { processInfraredInterrupt s with bInfraredInterruptPending := false } ∧
    (pollInfraredPreempted ticks s).bInfraredInterruptPending = false ∧
    (pollInfraredPreempted ticks s).nPulseWidth = ticks % 65536 ∧
    (pollInfraredPreempted ticks s).nRiseOrFall = (processInfraredInterrupt s).CCP2CON ∧
    (pollInfraredPreempted ticks s).nState = (processInfraredInterrupt s).nState ∧
    (pollInfraredPreempted ticks s).nByte = (processInfraredInterrupt s).nByte ∧
    (pollInfraredPreempted ticks s).nBit = (processInfraredInterrupt s).nBit ∧
    (pollInfraredPreempted ticks s).rxLog = (processInfraredInterrupt s).rxLog ∧
    (pollInfraredPreempted ticks s).dispatched = (processInfraredInterrupt s).dispatched ∧
    pollInfrared (pollInfraredPreempted ticks s) = pollInfraredPreempted ticks s := by
  have he := processInfraredInterrupt_CCP2IE s hc
  have hq : pollInfraredPreempted ticks s
      = { processInfraredInterrupt s with
          CCPR2 := ticks % 65536,
          nPulseWidth := ticks % 65536 % 65536,
          nRiseOrFall := (processInfraredInterrupt s).CCP2CON,
          CCP2CON := (processInfraredInterrupt s).CCP2CON ^^^ 0b00000001,
          TMR1 := 0,
          nEdgeCount := ((processInfraredInterrupt s).nEdgeCount + 1) % 256,
          CCP2IF := false,
          bInfraredInterruptPending := false } := by
    unfold pollInfraredPreempted captureEdge interrupt
    simp only [hp, he, if_true]
  refine ⟨?_, ?_⟩
  · unfold pollInfrared
    rw [if_pos hp]
  · rw [hq]
    refine ⟨rfl, by simp, rfl, rfl, rfl, rfl, rfl, rfl, ?_⟩
    unfold pollInfrared
    simp

theorem pollInfrared_processes_then_clears_witness :
    (pollInfraredPreempted 750
      { powerOnState 0xAA with
        bInfraredInterruptPending := true,
        nPulseWidth := 300,
        CCP2IE := true,
        CCP2CON := 0b00000101 }).bInfraredInterruptPending = false :=
  (pollInfrared_processes_then_clears 750 _ rfl rfl).2.1

/-! ### Dispatcher: the reports sent to the host -/

theorem sendUSBCommand_keyboard (s : State) (h : ux s &&& 0xF0 = USAGE_KEYBOARD) :
    sendUSBCommand s
      = sendUSBKeystroke
          { s with
            dispatched := s.dispatched ++ [s.usbCommand],
            nActivityLEDDelay := 10000,
            ACTIVITY_LED := true } := by
  unfold sendUSBCommand
  exact if_pos h

theorem sendUSBCommand_consumer (s : State) (h : ux s &&& 0xF0 = USAGE_CONSUMER_DEVICE) :
    sendUSBCommand s
      = sendUSBConsumerDeviceCommand
          { s with
            dispatched := s.dispatched ++ [s.usbCommand],
            nActivityLEDDelay := 10000,
            ACTIVITY_LED := true } := by
  have h0 : ¬ ux s &&& 0xF0 = USAGE_KEYBOARD := by rw [h]; decide
  have h1 : ¬ ux s &&& 0xF0 = USAGE_SYSTEM_CONTROL := by rw [h]; decide
  unfold sendUSBCommand
  exact (if_neg h0).trans ((if_neg h1).trans (if_pos h))

theorem sendUSBCommand_local (s : State) (h : ux s &&& 0xF0 = USAGE_LOCAL_IRK_FUNCTION) :
    sendUSBCommand s
      = performLocalIRKFunction
          { s with
            dispatched := s.dispatched ++ [s.usbCommand],
            nActivityLEDDelay := 10000,
            ACTIVITY_LED := true } := by
  have h0 : ¬ ux s &&& 0xF0 = USAGE_KEYBOARD := by rw [h]; decide
  have h1 : ¬ ux s &&& 0xF0 = USAGE_SYSTEM_CONTROL := by rw [h]; decide
  have h2 : ¬ ux s &&& 0xF0 = USAGE_CONSUMER_DEVICE := by rw [h]; decide
  unfold sendUSBCommand
  exact (if_neg h0).trans ((if_neg h1).trans ((if_neg h2).trans (if_pos h)))

theorem sendUSBCommand_reserved (s : State)
    (h0 : ux s &&& 0xF0 ≠ USAGE_KEYBOARD) (h1 : ux s &&& 0xF0 ≠ USAGE_SYSTEM_CONTROL)
    (h2 : ux s &&& 0xF0 ≠ USAGE_CONSUMER_DEVICE)
    (h3 : ux s &&& 0xF0 ≠ USAGE_LOCAL_IRK_FUNCTION) :
    sendUSBCommand s
      = { s with
          dispatched := s.dispatched ++ [s.usbCommand],
          nActivityLEDDelay := 10000,
          ACTIVITY_LED := true } := by
  unfold sendUSBCommand
  exact (if_neg h0).trans ((if_neg h1).trans ((if_neg h2).trans (if_neg h3)))

/-- C16: for a command with Keyboard usage the dispatcher, when USB is ready,
sends the report (`REPORT_ID_KEYBOARD`, `ux`, `0x00`, `yy`) followed by the
all-clear report (`REPORT_ID_KEYBOARD`, 0, 0, 0) and nothing more; when USB is
not ready it sends no report. -/
theorem sendUSBCommand_keyboard_report (s : State)
    (h : ux s &&& 0xF0 = USAGE_KEYBOARD) :
    (s.bUSBReady = true →
      (sendUSBCommand s).hidWrites
        = s.hidWrites ++ [⟨ReportId.REPORT_ID_KEYBOARD, [ux s, 0x00, yy s]⟩,
            ⟨ReportId.REPORT_ID_KEYBOARD, [0, 0, 0]⟩]) ∧
    (s.bUSBReady = false → (sendUSBCommand s).hidWrites = s.hidWrites) := by
  rw [sendUSBCommand_keyboard s h]
  unfold sendUSBKeystroke
  constructor
  · intro hr
    rw [if_pos hr]
    simp [HID_Write, ux, yy]
  · intro hr
    rw [if_neg (by simp [hr])]

theorem sendUSBCommand_keyboard_report_witness :
    (sendUSBCommand { powerOnState 0xAA with usbCommand := 0x0228, bUSBReady := true }).hidWrites
      = [⟨ReportId.REPORT_ID_KEYBOARD, [0x02, 0x00, 0x28]⟩,
          ⟨ReportId.REPORT_ID_KEYBOARD, [0, 0, 0]⟩] :=
  (sendUSBCommand_keyboard_report
    { powerOnState 0xAA with usbCommand := 0x0228, bUSBReady := true } (by decide)).1 rfl

/-- C17, counterexample: for the Consumer Device command `0x2183` (function
code `0x183`) the report carries `yy = 0x83` first and `0x = 0x01` second,
not `0x` followed by `yy`. -/
theorem consumer_report_low_byte_first :
    (sendUSBCommand
      { powerOnState 0xAA with usbCommand := 0x2183, bUSBReady := true }).hidWrites
      = [⟨ReportId.REPORT_ID_CONSUMER_DEVICE, [0x83, 0x01]⟩,
          ⟨ReportId.REPORT_ID_CONSUMER_DEVICE, [0, 0]⟩] ∧
    (sendUSBCommand
      { powerOnState 0xAA with usbCommand := 0x2183, bUSBReady := true }).hidWrites.head?
      ≠ some ⟨ReportId.REPORT_ID_CONSUMER_DEVICE, [0x01, 0x83]⟩ := by
  decide

/-- C17, amended: for a command with Consumer Device usage and USB ready, the
report sent to the host is the report id followed by the byte `yy` (the low
byte of the function code) and then the byte `0x` (the low nibble of `ux`, the
high byte of the function code), in that order; an all-clear report follows. -/
theorem sendUSBCommand_consumer_report (s : State)
    (h : ux s &&& 0xF0 = USAGE_CONSUMER_DEVICE) (hr : s.bUSBReady = true) :
    (sendUSBCommand s).hidWrites
      = s.hidWrites ++ [⟨ReportId.REPORT_ID_CONSUMER_DEVICE, [yy s, ux s &&& 0x0F]⟩,
          ⟨ReportId.REPORT_ID_CONSUMER_DEVICE, [0, 0]⟩] := by
  rw [sendUSBCommand_consumer s h]
  unfold sendUSBConsumerDeviceCommand
  rw [if_pos hr]
  simp [HID_Write, ux, yy]

theorem sendUSBCommand_consumer_report_witness :
    (sendUSBCommand
      { powerOnState 0xAA with usbCommand := 0x20E9, bUSBReady := true }).hidWrites
      = [⟨ReportId.REPORT_ID_CONSUMER_DEVICE, [0xE9, 0x00]⟩,
          ⟨ReportId.REPORT_ID_CONSUMER_DEVICE, [0, 0]⟩] :=
  sendUSBCommand_consumer_report
    { powerOnState 0xAA with usbCommand := 0x20E9, bUSBReady := true } (by decide) rfl

theorem ux_set (s : State) (v : Nat) :
    ux { s with usbCommand := v } = v / 256 % 256 := rfl

theorem yy_set (s : State) (v : Nat) :
    yy { s with usbCommand := v } = v % 256 := rfl

/-- C18, counterexample: in `src/IRK.c` the command `0xF001` is not
"Init USB": `getDesc` names it "Power Switch" and `performLocalIRKFunction`
pulses the power switch and writes nothing to the host; and `0xF003` is not
"Power Switch": it is named "Init USB", pulses no switch and writes the
readiness probe of `enableUSB`. -/
theorem local_function_codes_differ_from_header :
    getDesc (fun _ => "") (fun _ => "") { powerOnState 0xAA with usbCommand := 0xF001 }
      = "Power Switch" ∧
    getDesc (fun _ => "") (fun _ => "") { powerOnState 0xAA with usbCommand := 0xF001 }
      ≠ "Init USB" ∧
    getDesc (fun _ => "") (fun _ => "") { powerOnState 0xAA with usbCommand := 0xF003 }
      = "Init USB" ∧
    getDesc (fun _ => "") (fun _ => "") { powerOnState 0xAA with usbCommand := 0xF003 }
      ≠ "Power Switch" ∧
    (performLocalIRKFunction { powerOnState 0xAA with usbCommand := 0xF001 }).switchLog
      = [SwitchPulse.POWER_SWITCH] ∧
    (performLocalIRKFunction { powerOnState 0xAA with usbCommand := 0xF001 }).hidWrites
      = [] ∧
    (performLocalIRKFunction { powerOnState 0xAA with usbCommand := 0xF003 }).switchLog
      = [] ∧
    (performLocalIRKFunction { powerOnState 0xAA with usbCommand := 0xF003 }).hidWrites
      = [⟨ReportId.REPORT_ID_KEYBOARD, [0, 0, 0]⟩] := by
  decide

/-- C18, amended: in `src/IRK.c` (v2.07) the code `yy = 0x01` of usage F is
"Power Switch", `yy = 0x02` is "Reset Switch" and `yy = 0x03` is "Init USB":
`getDesc` returns these names for `0xF001`, `0xF002` and `0xF003`, and
`performLocalIRKFunction` pulses the power switch for `0x01`, pulses the
reset switch for `0x02` and re-initialises USB for `0x03` (no switch is
pulsed, the readiness probe is written and USB is ready again). -/
theorem local_function_codes (getKeyWithNoShift getKeyWithShift : Nat → String)
    (s : State) :
    getDesc getKeyWithNoShift getKeyWithShift { s with usbCommand := 0xF001 }
      = "Power Switch" ∧
    getDesc getKeyWithNoShift getKeyWithShift { s with usbCommand := 0xF002 }
      = "Reset Switch" ∧
    getDesc getKeyWithNoShift getKeyWithShift { s with usbCommand := 0xF003 }
      = "Init USB" ∧
    (performLocalIRKFunction { s with usbCommand := 0xF001 }).switchLog
      = s.switchLog ++ [SwitchPulse.POWER_SWITCH] ∧
    (performLocalIRKFunction { s with usbCommand := 0xF002 }).switchLog
      = s.switchLog ++ [SwitchPulse.RESET_SWITCH] ∧
    (performLocalIRKFunction { s with usbCommand := 0xF003 }).switchLog = s.switchLog ∧
    (performLocalIRKFunction { s with usbCommand := 0xF003 }).hidWrites
      = s.hidWrites ++ [⟨ReportId.REPORT_ID_KEYBOARD, [0, 0, 0]⟩] ∧
    (performLocalIRKFunction { s with usbCommand := 0xF003 }).bUSBReady = true ∧
    (performLocalIRKFunction { s with usbCommand := 0xF001 }).hidWrites = s.hidWrites := by
  refine ⟨?_, ?_, ?_, ?_, ?_, ?_, ?_, ?_, ?_⟩
  · unfold getDesc
    simp only [ux_set, yy_set]
    rfl
  · unfold getDesc
    simp only [ux_set, yy_set]
    rfl
  · unfold getDesc
    simp only [ux_set, yy_set]
    rfl
  all_goals
    unfold performLocalIRKFunction
    simp only [yy_set]
    rfl

theorem performLocalIRKFunction_hidWrites (s : State) :
    (performLocalIRKFunction s).hidWrites
      = if yy s = CMD_INIT_USB
          then s.hidWrites ++ [⟨ReportId.REPORT_ID_KEYBOARD, [0, 0, 0]⟩]
          else s.hidWrites := by
  unfold performLocalIRKFunction
  split_ifs <;> simp_all [enableUSB, disableUSB, HID_Write]

set_option maxRecDepth 100000 in
theorem usage_nibble : ∀ a < 256, a &&& 0xF0 = a / 16 * 16 := by
  decide

theorem ux_lt (s : State) : ux s < 256 := Nat.mod_lt _ (by decide)

theorem yy_lt (s : State) : yy s < 256 := Nat.mod_lt _ (by decide)

/-- C19, counterexample: the local function Init USB (`0xF003` in
`src/IRK.c`) invokes `HID_Write`: its readiness probe is an all-clear
keyboard report. -/
theorem init_usb_writes_report :
    (sendUSBCommand { powerOnState 0xAA with usbCommand := 0xF003 }).hidWrites
      = [⟨ReportId.REPORT_ID_KEYBOARD, [0, 0, 0]⟩] ∧
    ({ powerOnState 0xAA with usbCommand := 0xF003 } : State).hidWrites = [] := by
  decide

/-- C19, amended: for every command whose usage nibble lies in 3..F,
dispatching it sends no USB report to the host, except for the local function
Init USB (usage F, `yy = CMD_INIT_USB`), whose re-initialisation of USB writes
one all-clear keyboard report as readiness probe. -/
theorem sendUSBCommand_no_report (s : State) (h : 3 ≤ ux s / 16) :
    (sendUSBCommand s).hidWrites
      = if ux s / 16 = 0xF ∧ yy s = CMD_INIT_USB
          then s.hidWrites ++ [⟨ReportId.REPORT_ID_KEYBOARD, [0, 0, 0]⟩]
          else s.hidWrites := by
  have hn := usage_nibble (ux s) (ux_lt s)
  have hl := ux_lt s
  by_cases hF : ux s / 16 = 0xF
  · rw [sendUSBCommand_local s (by rw [hn, hF]), performLocalIRKFunction_hidWrites]
    show (if yy s = CMD_INIT_USB
        then s.hidWrites ++ [⟨ReportId.REPORT_ID_KEYBOARD, [0, 0, 0]⟩]
        else s.hidWrites) = _
    simp [hF]
  · rw [sendUSBCommand_reserved s (by rw [hn]; simp only [USAGE_KEYBOARD]; omega)
      (by rw [hn]; simp only [USAGE_SYSTEM_CONTROL]; omega)
      (by rw [hn]; simp only [USAGE_CONSUMER_DEVICE]; omega)
      (by rw [hn]; simp only [USAGE_LOCAL_IRK_FUNCTION]; omega)]
    simp [hF]

theorem sendUSBCommand_no_report_witness :
    (sendUSBCommand { powerOnState 0xAA with usbCommand := 0xF001 }).hidWrites = [] :=
  sendUSBCommand_no_report { powerOnState 0xAA with usbCommand := 0xF001 } (by decide)

/-! ### Usage selection -/

theorem adjustUsage_eq (nDelta : Int) (s : State) :
    adjustUsage nDelta s
      = { s with usbCommand := adjustedUx nDelta (ux s) * 256 + yy s } := rfl

theorem adjustedUx_lt (nDelta : Int) (a : Nat) : adjustedUx nDelta a < 256 :=
  Nat.mod_lt _ (by decide)

theorem ux_adjustUsage (nDelta : Int) (s : State) :
    ux (adjustUsage nDelta s) = adjustedUx nDelta (ux s) ∧
    yy (adjustUsage nDelta s) = yy s := by
  have h1 := adjustedUx_lt nDelta (ux s)
  have h2 := yy_lt s
  have e1 : ux (adjustUsage nDelta s)
      = (adjustedUx nDelta (ux s) * 256 + yy s) / 256 % 256 := rfl
  have e2 : yy (adjustUsage nDelta s)
      = (adjustedUx nDelta (ux s) * 256 + yy s) % 256 := rfl
  omega

set_option maxRecDepth 1000000 in
theorem adjustedUx_inc : ∀ a < 256,
    adjustedUx 1 a / 16 = (a / 16 + 1) % 16 ∧ adjustedUx 1 a % 16 = a % 16 := by
  decide

set_option maxRecDepth 1000000 in
theorem adjustedUx_dec : ∀ a < 256,
    adjustedUx (-1) a / 16 = (a / 16 + 15) % 16 ∧ adjustedUx (-1) a % 16 = a % 16 := by
  decide

set_option maxRecDepth 1000000 in
theorem adjustedUx_sixteen : ∀ a < 256, Nat.iterate (adjustedUx 1) 16 a = a := by
  decide

theorem adjustUsage_iterate (n : Nat) (s : State) :
    Nat.iterate (adjustUsage 1) (n + 1) s
      = { s with usbCommand := Nat.iterate (adjustedUx 1) (n + 1) (ux s) * 256 + yy s } := by
  induction n with
  | zero => rfl
  | succ n ih =>
    have h1 : Nat.iterate (adjustedUx 1) (n + 1) (ux s) < 256 := by
      rw [Function.iterate_succ_apply']
      exact adjustedUx_lt _ _
    have h2 := yy_lt s
    have e1 : ux { s with
        usbCommand := Nat.iterate (adjustedUx 1) (n + 1) (ux s) * 256 + yy s }
        = (Nat.iterate (adjustedUx 1) (n + 1) (ux s) * 256 + yy s) / 256 % 256 := rfl
    have e2 : yy { s with
        usbCommand := Nat.iterate (adjustedUx 1) (n + 1) (ux s) * 256 + yy s }
        = (Nat.iterate (adjustedUx 1) (n + 1) (ux s) * 256 + yy s) % 256 := rfl
    have e3 : ux { s with
        usbCommand := Nat.iterate (adjustedUx 1) (n + 1) (ux s) * 256 + yy s }
        = Nat.iterate (adjustedUx 1) (n + 1) (ux s) := by omega
    have e4 : yy { s with
        usbCommand := Nat.iterate (adjustedUx 1) (n + 1) (ux s) * 256 + yy s }
        = yy s := by omega
    rw [Function.iterate_succ_apply', ih, adjustUsage_eq, e3, e4,
      Function.iterate_succ_apply' (adjustedUx 1) (n + 1)]

theorem uxyy_eq (s : State) (hu : s.usbCommand < 65536) :
    ux s * 256 + yy s = s.usbCommand := by
  unfold ux yy
  omega

/-- C20: for `nDelta` one of +1 and -1, `adjustUsage(nDelta)` replaces the
high nibble `u` of `ux` by `(u + nDelta) mod 16` and leaves the low nibble of
`ux` and the byte `yy` as they are; +1 from `u = F` gives 0, -1 undoes +1, and
sixteen applications of +1 restore the state. -/
theorem adjustUsage_cycles (s : State) (nDelta : Int) (hd : nDelta = 1 ∨ nDelta = -1)
    (hu : s.usbCommand < 65536) :
    ((ux (adjustUsage nDelta s) / 16 : Nat) : Int)
      = (((ux s / 16 : Nat) : Int) + nDelta) % 16 ∧
    ux (adjustUsage nDelta s) % 16 = ux s % 16 ∧
    yy (adjustUsage nDelta s) = yy s ∧
    (ux s / 16 = 0xF → ux (adjustUsage 1 s) / 16 = 0) ∧
    adjustUsage (-1) (adjustUsage 1 s) = s ∧
    Nat.iterate (adjustUsage 1) 16 s = s := by
  have hl := ux_lt s
  have hi := adjustedUx_inc (ux s) hl
  have hdec := adjustedUx_dec (ux s) hl
  refine ⟨?_, ?_, (ux_adjustUsage _ _).2, ?_, ?_, ?_⟩
  · rw [(ux_adjustUsage _ _).1]
    rcases hd with h | h <;> subst h
    · rw [hi.1]; omega
    · rw [hdec.1]; omega
  · rw [(ux_adjustUsage _ _).1]
    rcases hd with h | h <;> subst h
    · exact hi.2
    · exact hdec.2
  · intro hF
    rw [(ux_adjustUsage _ _).1, hi.1, hF]
  · have hl1 := adjustedUx_lt 1 (ux s)
    have hd1 := adjustedUx_dec (adjustedUx 1 (ux s)) hl1
    have hb : adjustedUx (-1) (adjustedUx 1 (ux s)) = ux s := by omega
    rw [adjustUsage_eq (-1), (ux_adjustUsage 1 s).1, (ux_adjustUsage 1 s).2, hb,
      adjustUsage_eq, uxyy_eq s hu]
  · rw [adjustUsage_iterate 15 s, adjustedUx_sixteen _ hl, uxyy_eq s hu]

theorem adjustUsage_cycles_witness :
    ux (adjustUsage 1 { powerOnState 0xAA with usbCommand := 0xF103 }) / 16 = 0 :=
  (adjustUsage_cycles { powerOnState 0xAA with usbCommand := 0xF103 } 1 (Or.inl rfl)
    (by decide)).2.2.2.1 (by decide)

/-! ### Receive machine: the transitions one by one -/

/-- C22: in `STATE_IR_RESET` an event moves the machine to
`STATE_IR_TRAINING_RECEIVED` if and only if it is a rising edge whose width
passes `IS_PULSE_WIDTH_NEAR(WIDTH_TRAINING_PULSE)`, and otherwise leaves it in
`STATE_IR_RESET` with `nByte = nBit = 0`; in `STATE_IR_TRAINING_RECEIVED` an
event moves it to `STATE_IR_RECEIVING_BITS` if and only if it is a falling
edge whose width passes `IS_PULSE_WIDTH_NEAR(WIDTH_SILENCE_AFTER_TRAINING)`,
and otherwise sends it back to `STATE_IR_RESET`. -/
theorem preamble_transitions (s : State) :
    (s.nState = STATE_IR_RESET →
      ((processInfraredInterrupt s).nState = STATE_IR_TRAINING_RECEIVED ↔
        (bRisingEdge s = true ∧ IS_PULSE_WIDTH_NEAR WIDTH_TRAINING_PULSE s = true)) ∧
      (¬ (bRisingEdge s = true ∧ IS_PULSE_WIDTH_NEAR WIDTH_TRAINING_PULSE s = true) →
        (processInfraredInterrupt s).nState = STATE_IR_RESET ∧
        (processInfraredInterrupt s).nByte = 0 ∧ (processInfraredInterrupt s).nBit = 0)) ∧
    (s.nState = STATE_IR_TRAINING_RECEIVED →
      ((processInfraredInterrupt s).nState = STATE_IR_RECEIVING_BITS ↔
        (bFallingEdge s = true ∧
          IS_PULSE_WIDTH_NEAR WIDTH_SILENCE_AFTER_TRAINING s = true)) ∧
      (¬ (bFallingEdge s = true ∧
          IS_PULSE_WIDTH_NEAR WIDTH_SILENCE_AFTER_TRAINING s = true) →
        (processInfraredInterrupt s).nState = STATE_IR_RESET ∧
        (processInfraredInterrupt s).nByte = 0 ∧ (processInfraredInterrupt s).nBit = 0)) := by
  constructor
  · intro h0
    rw [processInfraredInterrupt_reset s h0]
    by_cases hc : bRisingEdge s = true ∧ IS_PULSE_WIDTH_NEAR WIDTH_TRAINING_PULSE s = true
    · rw [if_pos (by simp [hc.1, hc.2])]
      exact ⟨⟨fun _ => hc, fun _ => rfl⟩, fun h => absurd hc h⟩
    · rw [if_neg (by simpa using hc)]
      refine ⟨⟨fun h => ?_, fun h => absurd h hc⟩, fun _ =>
        ⟨(gotoResetState_fields s).1, (gotoResetState_fields s).2.1,
          (gotoResetState_fields s).2.2.1⟩⟩
      rw [(gotoResetState_fields s).1] at h
      exact absurd h (by decide)
  · intro h0
    rw [processInfraredInterrupt_training s h0]
    by_cases hc : bFallingEdge s = true ∧
        IS_PULSE_WIDTH_NEAR WIDTH_SILENCE_AFTER_TRAINING s = true
    · rw [if_pos (by simp [hc.1, hc.2])]
      exact ⟨⟨fun _ => hc, fun _ => rfl⟩, fun h => absurd hc h⟩
    · rw [if_neg (by simpa using hc)]
      refine ⟨⟨fun h => ?_, fun h => absurd h hc⟩, fun _ =>
        ⟨(gotoResetState_fields s).1, (gotoResetState_fields s).2.1,
          (gotoResetState_fields s).2.2.1⟩⟩
      rw [(gotoResetState_fields s).1] at h
      exact absurd h (by decide)

theorem preamble_transitions_witness :
    (processInfraredInterrupt
      (deliver ⟨true, 750⟩ (powerOnState 0xAA))).nState = STATE_IR_TRAINING_RECEIVED ∧
    (processInfraredInterrupt
      (deliver ⟨false, 450⟩
        { powerOnState 0xAA with nState := STATE_IR_TRAINING_RECEIVED })).nState
      = STATE_IR_RECEIVING_BITS :=
  ⟨((preamble_transitions (deliver ⟨true, 750⟩ (powerOnState 0xAA))).1 rfl).1.mpr
      ⟨by decide, by decide⟩,
    ((preamble_transitions (deliver ⟨false, 450⟩
      { powerOnState 0xAA with nState := STATE_IR_TRAINING_RECEIVED })).2 rfl).1.mpr
      ⟨by decide, by decide⟩⟩

/-- C23: in `STATE_IR_RECEIVING_BITS` a rising edge resets the machine if and
only if its elapsed tick count is strictly greater than
`toTicks (WIDTH_SHORT + WIDTH_ERROR_MARGIN)`; every other rising edge, however
short, leaves the whole state (so `nState`, `nByte`, `nBit`, `cByte` and
`irCommand`) as it is. -/
theorem mark_check (s : State) (h0 : s.nState = STATE_IR_RECEIVING_BITS)
    (hr : bRisingEdge s = true) :
    ((processInfraredInterrupt s).nState = STATE_IR_RESET ↔
      s.nPulseWidth > toTicks (WIDTH_SHORT + WIDTH_ERROR_MARGIN)) ∧
    (s.nPulseWidth > toTicks (WIDTH_SHORT + WIDTH_ERROR_MARGIN) →
      processInfraredInterrupt s = gotoResetState s) ∧
    (¬ s.nPulseWidth > toTicks (WIDTH_SHORT + WIDTH_ERROR_MARGIN) →
      processInfraredInterrupt s = s) := by
  rw [processInfraredInterrupt_bits s h0, if_pos hr, ← MICROSECONDS_eq_toTicks]
  by_cases hc : s.nPulseWidth > MICROSECONDS (WIDTH_SHORT + WIDTH_ERROR_MARGIN)
  · rw [if_pos hc]
    exact ⟨⟨fun _ => hc, fun _ => (gotoResetState_fields s).1⟩, fun _ => rfl,
      fun h => absurd hc h⟩
  · rw [if_neg hc]
    refine ⟨⟨fun h => ?_, fun h => absurd h hc⟩, fun h => absurd h hc, fun _ => rfl⟩
    rw [h0] at h
    exact absurd h (by decide)

theorem mark_check_witness :
    processInfraredInterrupt
        (deliver ⟨true, 3⟩ { powerOnState 0xAA with nState := STATE_IR_RECEIVING_BITS })
      = deliver ⟨true, 3⟩ { powerOnState 0xAA with nState := STATE_IR_RECEIVING_BITS } :=
  (mark_check (deliver ⟨true, 3⟩
    { powerOnState 0xAA with nState := STATE_IR_RECEIVING_BITS }) rfl rfl).2.2 (by decide)

/-- C25: in `STATE_IR_RECEIVING_BITS` a falling edge with elapsed tick count
`t` appends bit 1 exactly when `lo(LONG) < t ≤ hi(LONG)`, appends bit 0
exactly when `lo(SHORT) < t ≤ lo(LONG)`, and resets the machine otherwise,
where `lo x = toTicks (x - margin)` and `hi x = toTicks (x + margin)`; so
every width above `hi(SHORT)` and up to `lo(LONG)` is decoded as bit 0. -/
theorem bit_decision (s : State) (h0 : s.nState = STATE_IR_RECEIVING_BITS)
    (hf : bRisingEdge s = false) :
    (toTicks (WIDTH_LONG - WIDTH_ERROR_MARGIN) < s.nPulseWidth ∧
        s.nPulseWidth ≤ toTicks (WIDTH_LONG + WIDTH_ERROR_MARGIN) →
      processInfraredInterrupt s
        = appendBit { s with
            cByte := (s.cByte <<< 1) % 256 ||| 1,
            rxLog := s.rxLog ++ [RxEvent.bit 1] }) ∧
    (toTicks (WIDTH_SHORT - WIDTH_ERROR_MARGIN) < s.nPulseWidth ∧
        s.nPulseWidth ≤ toTicks (WIDTH_LONG - WIDTH_ERROR_MARGIN) →
      processInfraredInterrupt s
        = appendBit { s with
            cByte := (s.cByte <<< 1) % 256,
            rxLog := s.rxLog ++ [RxEvent.bit 0] }) ∧
    (s.nPulseWidth ≤ toTicks (WIDTH_SHORT - WIDTH_ERROR_MARGIN) ∨
        toTicks (WIDTH_LONG + WIDTH_ERROR_MARGIN) < s.nPulseWidth →
      processInfraredInterrupt s = gotoResetState s) ∧
    (processInfraredInterrupt s).rxLog
      = s.rxLog ++
        [if toTicks (WIDTH_LONG - WIDTH_ERROR_MARGIN) < s.nPulseWidth ∧
            s.nPulseWidth ≤ toTicks (WIDTH_LONG + WIDTH_ERROR_MARGIN) then RxEvent.bit 1
         else if toTicks (WIDTH_SHORT - WIDTH_ERROR_MARGIN) < s.nPulseWidth ∧
            s.nPulseWidth ≤ toTicks (WIDTH_LONG - WIDTH_ERROR_MARGIN) then RxEvent.bit 0
         else RxEvent.reset] ∧
    (toTicks (WIDTH_SHORT + WIDTH_ERROR_MARGIN) < s.nPulseWidth ∧
        s.nPulseWidth ≤ toTicks (WIDTH_LONG - WIDTH_ERROR_MARGIN) →
      (processInfraredInterrupt s).rxLog = s.rxLog ++ [RxEvent.bit 0]) := by
  have hv := threshold_values
  simp only [MICROSECONDS_eq_toTicks] at hv
  obtain ⟨-, -, -, -, v1, v2, v3, v4⟩ := hv
  have hp := processInfraredInterrupt_bits s h0
  simp only [MICROSECONDS_eq_toTicks, hf, Bool.false_eq_true, if_false, v1, v3, v4] at hp
  rw [hp, v1, v2, v3, v4]
  by_cases c1 : s.nPulseWidth > 1312
  · rw [if_pos c1]
    refine ⟨fun h => absurd h.2 (by omega), fun h => absurd h.2 (by omega), fun _ => rfl,
      ?_, fun h => absurd h.2 (by omega)⟩
    rw [(gotoResetState_fields s).2.2.2.2.2.2.2.1, if_neg (by omega), if_neg (by omega)]
  · rw [if_neg c1]
    by_cases c2 : s.nPulseWidth > 1162
    · rw [if_pos c2]
      refine ⟨fun _ => rfl, fun h => absurd h.2 (by omega),
        fun h => absurd h (by omega), ?_, fun h => absurd h.2 (by omega)⟩
      rw [(appendBit_side _).2.2.2.1, if_pos (by omega)]
    · rw [if_neg c2]
      by_cases c3 : s.nPulseWidth > 375
      · rw [if_pos c3]
        refine ⟨fun h => absurd h.1 (by omega), fun _ => rfl,
          fun h => absurd h (by omega), ?_, fun _ => ?_⟩
        · rw [(appendBit_side _).2.2.2.1, if_neg (by omega), if_pos (by omega)]
        · rw [(appendBit_side _).2.2.2.1]
      · rw [if_neg c3]
        refine ⟨fun h => absurd h.1 (by omega), fun h => absurd h.1 (by omega),
          fun _ => rfl, ?_, fun h => absurd h.1 (by omega)⟩
        rw [(gotoResetState_fields s).2.2.2.2.2.2.2.1, if_neg (by omega), if_neg (by omega)]

theorem bit_decision_witness :
    (processInfraredInterrupt
      (deliver ⟨false, 800⟩
        { powerOnState 0xAA with nState := STATE_IR_RECEIVING_BITS })).rxLog
      = [RxEvent.bit 0] :=
  (bit_decision (deliver ⟨false, 800⟩
    { powerOnState 0xAA with nState := STATE_IR_RECEIVING_BITS }) rfl rfl).2.2.2.2
    ⟨by decide, by decide⟩

/-! ### Receive machine: the hand-over of a frame -/

theorem interpretInfraredCommand_usbCommand (s : State)
    (h : ¬ Accepted s.nConfigDeviceAddress s.irCommand) :
    (interpretInfraredCommand s).usbCommand = s.usbCommand ∧
    (interpretInfraredCommand s).hidWrites = s.hidWrites ∧
    (interpretInfraredCommand s).dispatched = s.dispatched := by
  rw [interpretInfraredCommand_not_accepted s h]
  exact ⟨rfl, rfl, rfl⟩

theorem feed_bit_event (s : State) (e : PulseEvent)
    (h0 : s.nState = STATE_IR_RECEIVING_BITS) (hf : e.rising = false)
    (h1 : 375 < e.elapsed) (h2 : e.elapsed ≤ 1312) :
    feed s e
      = appendBit { deliver e s with
          cByte := shiftIn s.cByte (if 1162 < e.elapsed then 1 else 0),
          rxLog := s.rxLog ++ [RxEvent.bit (if 1162 < e.elapsed then 1 else 0)] } := by
  have hm : e.elapsed % 65536 = e.elapsed := by omega
  have c1 : ¬ 1312 < e.elapsed := by omega
  unfold feed
  rw [processInfraredInterrupt_bits _ (by rw [(deliver_fields _ s).1]; exact h0)]
  by_cases c : 1162 < e.elapsed
  · simp [deliver_fields, threshold_values, shiftIn, hf, hm, c, c1]
  · simp [deliver_fields, threshold_values, shiftIn, hf, hm, c, c1, h1]

/-- C27: the event that delivers the 48th bit (a falling edge in the bit
windows, met in `STATE_IR_RECEIVING_BITS` with `nByte = 5` and `nBit = 7`)
only stores the last byte and sets `nState` to `STATE_IR_COMMAND_RECEIVED`:
nothing is handed to `interpretInfraredCommand` and nothing is dispatched.
The next event `e2`, whatever its direction and elapsed time, hands the frame
over once and dispatches the command if the frame passes the validator. -/
theorem deferred_handoff (s : State) (e1 e2 : PulseEvent)
    (h0 : s.nState = STATE_IR_RECEIVING_BITS) (hB : s.nByte = 5) (hb : s.nBit = 7)
    (hf : e1.rising = false)
    (h1 : toTicks (WIDTH_SHORT - WIDTH_ERROR_MARGIN) < e1.elapsed)
    (h2 : e1.elapsed ≤ toTicks (WIDTH_LONG + WIDTH_ERROR_MARGIN)) :
    (feed s e1).nState = STATE_IR_COMMAND_RECEIVED ∧
    (feed s e1).rxLog
      = s.rxLog ++ [RxEvent.bit
          (if toTicks (WIDTH_LONG - WIDTH_ERROR_MARGIN) < e1.elapsed then 1 else 0)] ∧
    (feed s e1).dispatched = s.dispatched ∧
    (feed s e1).usbCommand = s.usbCommand ∧
    (feed (feed s e1) e2).rxLog
      = (feed s e1).rxLog ++ [RxEvent.interpret (feed s e1).irCommand, RxEvent.reset] ∧
    (feed (feed s e1) e2).dispatched
      = s.dispatched ++
        (if Accepted s.nConfigDeviceAddress (feed s e1).irCommand
          then [((feed s e1).irCommand.getD 2 0 <<< 8
                  ||| (feed s e1).irCommand.getD 4 0) % 65536]
          else []) ∧
    (feed (feed s e1) e2).nState = STATE_IR_RESET := by
  have hv := threshold_values
  simp only [MICROSECONDS_eq_toTicks] at hv
  obtain ⟨-, -, -, -, v1, -, v3, v4⟩ := hv
  rw [v1] at h1
  rw [v4] at h2
  rw [v3]
  have hd := deliver_fields e1 s
  have key : (feed s e1).nState = STATE_IR_COMMAND_RECEIVED ∧
      (feed s e1).rxLog
        = s.rxLog ++ [RxEvent.bit (if 1162 < e1.elapsed then 1 else 0)] ∧
      (feed s e1).dispatched = s.dispatched ∧
      (feed s e1).usbCommand = s.usbCommand ∧
      (feed s e1).nConfigDeviceAddress = s.nConfigDeviceAddress := by
    rw [feed_bit_event s e1 h0 hf h1 h2]
    obtain ⟨a1, -, -, -⟩ := appendBit_wrap
      { deliver e1 s with
        cByte := shiftIn s.cByte (if 1162 < e1.elapsed then 1 else 0),
        rxLog := s.rxLog ++ [RxEvent.bit (if 1162 < e1.elapsed then 1 else 0)] }
      (hd.2.2.1.trans hb) (le_of_eq (hd.2.1.trans hB))
    obtain ⟨-, b2, b3, b4, b5, -⟩ := appendBit_side
      { deliver e1 s with
        cByte := shiftIn s.cByte (if 1162 < e1.elapsed then 1 else 0),
        rxLog := s.rxLog ++ [RxEvent.bit (if 1162 < e1.elapsed then 1 else 0)] }
    refine ⟨a1.trans ?_, b4, b5.trans hd.2.2.2.2.2.2.2.2.1, b2.trans hd.2.2.2.2.2.1,
      b3.trans hd.2.2.2.2.2.2.1⟩
    exact if_pos (hd.2.1.trans hB)
  obtain ⟨k1, k2, k3, k4, k5⟩ := key
  have hc := feed_command (feed s e1) e2 k1
  have hi := interpretInfraredCommand_fields (disableInfraredCapture (deliver e2 (feed s e1)))
  have hir : (disableInfraredCapture (deliver e2 (feed s e1))).irCommand
      = (feed s e1).irCommand := rfl
  have hlog : (disableInfraredCapture (deliver e2 (feed s e1))).rxLog
      = (feed s e1).rxLog := rfl
  have haddr : (disableInfraredCapture (deliver e2 (feed s e1))).nConfigDeviceAddress
      = (feed s e1).nConfigDeviceAddress := rfl
  have hdis : (disableInfraredCapture (deliver e2 (feed s e1))).dispatched
      = (feed s e1).dispatched := rfl
  refine ⟨k1, k2, k3, k4, ?_, ?_, ?_⟩
  · rw [hc, (enableInfraredCapture_fields _).2.2.2.2.2.2.2.1, hi.2.2.2.2.2.2.1, hir, hlog,
      List.append_assoc]
    rfl
  · rw [hc, (enableInfraredCapture_fields _).2.2.2.2.2.2.2.2.1, hi.2.2.2.2.2.2.2, hir, haddr,
      hdis, k3, k5]
    simp only [nModifiers, nCommand, hir]
  · rw [hc]
    exact (enableInfraredCapture_fields _).1

theorem deferred_handoff_witness :
    (feed (feed
      { powerOnState 0xAA with
        nState := STATE_IR_RECEIVING_BITS,
        nByte := 5,
        nBit := 7,
        cByte := 0x6B,
        irCommand := [0xAA, 0x55, 0x00, 0xFF, 0x28, 0x00] }
      ⟨false, 1237⟩) ⟨false, 60000⟩).dispatched = [0x0028] :=
  (deferred_handoff
    { powerOnState 0xAA with
      nState := STATE_IR_RECEIVING_BITS,
      nByte := 5,
      nBit := 7,
      cByte := 0x6B,
      irCommand := [0xAA, 0x55, 0x00, 0xFF, 0x28, 0x00] }
    ⟨false, 1237⟩ ⟨false, 60000⟩ rfl rfl rfl rfl (by decide) (by decide)).2.2.2.2.2.1

/-- C29: for every configured device address, `interpretInfraredCommand`
applied to a scratch buffer of six zero bytes dispatches nothing: it returns
after its tests, so `usbCommand`, the dispatch log and the reports sent stay
as they are. -/
theorem all_zero_frame_rejected (s : State) (h : s.irCommand = List.replicate 6 0) :
    interpretInfraredCommand s
      = { s with rxLog := s.rxLog ++ [RxEvent.interpret s.irCommand] } ∧
    (interpretInfraredCommand s).dispatched = s.dispatched ∧
    (interpretInfraredCommand s).usbCommand = s.usbCommand ∧
    (interpretInfraredCommand s).hidWrites = s.hidWrites := by
  have hn : ¬ Accepted s.nConfigDeviceAddress s.irCommand := by
    rw [h]
    intro ha
    exact ha.2.1 (by decide)
  have hu := interpretInfraredCommand_usbCommand s hn
  exact ⟨interpretInfraredCommand_not_accepted s hn, hu.2.2, hu.1, hu.2.1⟩

theorem all_zero_frame_rejected_witness :
    (interpretInfraredCommand (powerOnState 0x00)).dispatched = [] :=
  (all_zero_frame_rejected (powerOnState 0x00) rfl).2.1

/-! ### Transmit encoder: weight and duration of a frame -/

set_option maxRecDepth 1000000 in
theorem pair_weight : ∀ b < 256,
    (frameBits [b, complementByte b]).count 1 = 8 ∧
    (frameBits [b, complementByte b]).count 0 = 8 ∧
    (((frameBits [b, complementByte b]).flatMap bitSegments).map Segment.duration).sum
      = 27600 := by
  decide

theorem frameBits_pairs (a b c d e f : Nat) :
    frameBits [a, b, c, d, e, f] = frameBits [a, b] ++ frameBits [c, d] ++ frameBits [e, f] := by
  simp [frameBits]

theorem complementByte_mod (x : Nat) : complementByte x = complementByte (x % 256) := by
  simp [complementByte]

/-- C30: for every address and command, the 48 bits that
`transmitInfraredCommand` emits contain exactly 24 ones and 24 zeros, and the
pulse train from the start of the training burst to the end of the
terminating mark lasts 85000 microseconds. -/
theorem frame_weight_and_duration (s : State) :
    emitted s = pulseTrain (buildInfraredFrame s) ++ [Segment.pause 100] ∧
    (frameBits (buildInfraredFrame s)).length = 48 ∧
    (frameBits (buildInfraredFrame s)).count 1 = 24 ∧
    (frameBits (buildInfraredFrame s)).count 0 = 24 ∧
    ((pulseTrain (buildInfraredFrame s)).map Segment.duration).sum
      = 1000 + 600 + 48 * 600 + 24 * 1650 + 24 * 600 + 600 ∧
    ((pulseTrain (buildInfraredFrame s)).map Segment.duration).sum = 85000 := by
  have ha := pair_weight (s.nConfigDeviceAddress % 256) (Nat.mod_lt _ (by decide))
  have hu := pair_weight (ux s) (Nat.mod_lt _ (by decide))
  have hy := pair_weight (yy s) (Nat.mod_lt _ (by decide))
  have hb : buildInfraredFrame s
      = [s.nConfigDeviceAddress % 256, complementByte (s.nConfigDeviceAddress % 256),
          ux s, complementByte (ux s), yy s, complementByte (yy s)] := by
    unfold buildInfraredFrame
    rw [← complementByte_mod]
  have hsum : ((pulseTrain (buildInfraredFrame s)).map Segment.duration).sum = 85000 := by
    rw [hb]
    unfold pulseTrain
    rw [frameBits_pairs]
    simp only [List.flatMap_append, List.map_append, List.sum_append, ha.2.2, hu.2.2, hy.2.2]
    rfl
  refine ⟨emitted_eq s, ?_, ?_, ?_, hsum, hsum⟩
  · simp [buildInfraredFrame, frameBits]
  · rw [hb, frameBits_pairs, List.count_append, List.count_append, ha.1, hu.1, hy.1]
  · rw [hb, frameBits_pairs, List.count_append, List.count_append, ha.2.1, hu.2.1, hy.2.1]

/-! ### Receive machine: the buffer index -/

theorem indexInv_congr (s t : State) (h : IndexInv s) (h1 : t.nState = s.nState)
    (h2 : t.nByte = s.nByte) (h3 : t.nBit = s.nBit) (h4 : t.irCommand = s.irCommand) :
    IndexInv t := by
  unfold IndexInv at h ⊢
  rw [h1, h2, h3, h4]
  exact h

theorem indexInv_gotoResetState (s : State) : IndexInv (gotoResetState s) := by
  obtain ⟨h1, h2, h3, -, h5, -⟩ := gotoResetState_fields s
  exact ⟨by rw [h5]; rfl, Or.inl ⟨Or.inl h1, h2, h3⟩⟩

theorem indexInv_enableInfraredCapture (s : State) : IndexInv (enableInfraredCapture s) := by
  obtain ⟨h1, h2, h3, -, h5, -⟩ := enableInfraredCapture_fields s
  exact ⟨by rw [h5]; rfl, Or.inl ⟨Or.inl h1, h2, h3⟩⟩

theorem indexInv_appendBit (s : State) (hl : s.irCommand.length = 6)
    (h0 : s.nState = STATE_IR_RECEIVING_BITS) (hB : s.nByte ≤ 5) (hb : s.nBit ≤ 7) :
    IndexInv (appendBit s) := by
  by_cases h7 : s.nBit = 7
  · obtain ⟨a1, a2, a3, a4⟩ := appendBit_wrap s h7 hB
    refine ⟨by rw [a4, List.length_set]; exact hl, ?_⟩
    by_cases h5 : s.nByte = 5
    · rw [if_pos h5] at a1
      exact Or.inr (Or.inr ⟨a1, by rw [a2, h5], a3⟩)
    · rw [if_neg h5] at a1
      exact Or.inr (Or.inl ⟨a1.trans h0, by rw [a2]; omega, by rw [a3]; omega⟩)
  · obtain ⟨a1, a2, a3, a4⟩ := appendBit_step s (by omega)
    exact ⟨by rw [a4]; exact hl,
      Or.inr (Or.inl ⟨a1.trans h0, by rw [a2]; exact hB, by rw [a3]; omega⟩)⟩

theorem indexInv_processInfraredInterrupt (s : State) (h : IndexInv s) :
    IndexInv (processInfraredInterrupt s) := by
  obtain ⟨hl, ⟨h0 | h0, hB, hb⟩ | ⟨h0, hB, hb⟩ | ⟨h0, hB, hb⟩⟩ := h
  · rw [processInfraredInterrupt_reset s h0]
    split_ifs
    · exact ⟨hl, Or.inl ⟨Or.inr rfl, hB, hb⟩⟩
    · exact indexInv_gotoResetState s
  · rw [processInfraredInterrupt_training s h0]
    split_ifs
    · exact ⟨hl, Or.inr (Or.inl ⟨rfl, by rw [show _ = s.nByte from rfl, hB]; decide,
        by rw [show _ = s.nBit from rfl, hb]; decide⟩)⟩
    · exact indexInv_gotoResetState s
  · rw [processInfraredInterrupt_bits s h0]
    split_ifs
    · exact indexInv_gotoResetState s
    · exact ⟨hl, Or.inr (Or.inl ⟨h0, hB, hb⟩)⟩
    · exact indexInv_gotoResetState s
    · exact indexInv_appendBit _ hl h0 hB hb
    · exact indexInv_appendBit _ hl h0 hB hb
    · exact indexInv_gotoResetState s
  · rw [processInfraredInterrupt_command s h0]
    exact indexInv_enableInfraredCapture _

theorem captureEdge_core (ticks : Nat) (s : State) :
    (captureEdge ticks s).nState = s.nState ∧ (captureEdge ticks s).nByte = s.nByte ∧
    (captureEdge ticks s).nBit = s.nBit ∧ (captureEdge ticks s).irCommand = s.irCommand := by
  unfold captureEdge interrupt
  simp only []
  split_ifs <;> exact ⟨rfl, rfl, rfl, rfl⟩

theorem indexInv_transmitInfraredCommand (s : State) :
    IndexInv (transmitInfraredCommand s) := by
  have h : ∃ t, transmitInfraredCommand s
      = { enableInfraredCapture t with ACTIVITY_LED := false } := ⟨_, rfl⟩
  obtain ⟨t, ht⟩ := h
  rw [ht]
  exact indexInv_congr (enableInfraredCapture t) _ (indexInv_enableInfraredCapture t)
    rfl rfl rfl rfl

theorem indexInv_of_reachable (s : State) (h : Reachable s) : IndexInv s := by
  induction h with
  | start s => exact indexInv_enableInfraredCapture s
  | deliver e s _ ih =>
    exact indexInv_congr _ _ ih (deliver_fields e s).1 (deliver_fields e s).2.1
      (deliver_fields e s).2.2.1 (deliver_fields e s).2.2.2.2.1
  | capture ticks s _ ih =>
    exact indexInv_congr _ _ ih (captureEdge_core ticks s).1 (captureEdge_core ticks s).2.1
      (captureEdge_core ticks s).2.2.1 (captureEdge_core ticks s).2.2.2
  | process s _ ih => exact indexInv_processInfraredInterrupt s ih
  | reset s _ ih => exact indexInv_gotoResetState s
  | transmit s _ ih => exact indexInv_transmitInfraredCommand s

/-- C28: in every state reachable from the state after
`enableInfraredCapture` by captured events and by `processInfraredInterrupt`,
`gotoResetState` and `transmitInfraredCommand` steps, `nBit ≤ 7` and
`nByte ≤ 6`, the buffer has its six bytes, and `nByte ≤ 5` in
`STATE_IR_RECEIVING_BITS`, the only state in which `appendBit` is called: the
store `irCommand.b[nByte] = cByte` writes inside the buffer. -/
theorem buffer_index_invariant (s : State) (h : Reachable s) :
    s.nBit ≤ 7 ∧ s.nByte ≤ 6 ∧ s.irCommand.length = 6 ∧
    (s.nState = STATE_IR_RECEIVING_BITS → s.nByte ≤ 5 ∧ s.nByte < s.irCommand.length) := by
  obtain ⟨hl, ⟨h0, hB, hb⟩ | ⟨h0, hB, hb⟩ | ⟨h0, hB, hb⟩⟩ := indexInv_of_reachable s h
  · refine ⟨by omega, by omega, hl, fun h2 => ?_⟩
    rcases h0 with h0 | h0 <;> rw [h0] at h2 <;> exact absurd h2 (by decide)
  · exact ⟨hb, by omega, hl, fun _ => ⟨hB, by omega⟩⟩
  · refine ⟨by omega, by omega, hl, fun h2 => ?_⟩
    rw [h0] at h2
    exact absurd h2 (by decide)

theorem buffer_index_invariant_witness :
    (processInfraredInterrupt
      (deliver ⟨true, 750⟩ (enableInfraredCapture (powerOnState 0xAA)))).nBit ≤ 7 :=
  (buffer_index_invariant _
    (Reachable.process _ (Reachable.deliver ⟨true, 750⟩ _
      (Reachable.start (powerOnState 0xAA))))).1

/-! ### The scratch buffer on reset -/

theorem appendBit_nState (s : State) :
    (appendBit s).nState = s.nState ∨ (appendBit s).nState = STATE_IR_COMMAND_RECEIVED := by
  unfold appendBit
  simp only []
  split_ifs
  · exact Or.inr rfl
  · exact Or.inl rfl
  · exact Or.inl rfl

/-- C24, counterexample: in `src/smt/IRK.c` (48 MHz) the receive machine has
stored the byte `0xAA` and is receiving bits when a mark of 3000 ticks
arrives; the machine goes to `STATE_IR_RESET` and the scratch buffer still
holds `0xAA`. -/
theorem smt_reset_keeps_scratch_buffer :
    (Smt.processInfraredInterrupt 48000 id
      (deliver ⟨true, 3000⟩
        { powerOnState 0xAA with
          nState := STATE_IR_RECEIVING_BITS,
          nByte := 1,
          irCommand := [0xAA, 0, 0, 0, 0, 0] })).nState = STATE_IR_RESET ∧
    (Smt.processInfraredInterrupt 48000 id
      (deliver ⟨true, 3000⟩
        { powerOnState 0xAA with
          nState := STATE_IR_RECEIVING_BITS,
          nByte := 1,
          irCommand := [0xAA, 0, 0, 0, 0, 0] })).irCommand = [0xAA, 0, 0, 0, 0, 0] := by
  decide

/-- C24, amended: in `src/IRK.c` all six bytes of the scratch buffer are zero
after `gotoResetState`, after every run of `processInfraredInterrupt` that
ends in `STATE_IR_RESET` (timing anomaly, rejected frame, dispatched frame)
and after a transmission; in `src/smt/IRK.c` `gotoResetState` leaves the
scratch buffer as it is. -/
theorem scratch_buffer_on_reset (s : State) :
    (gotoResetState s).nState = STATE_IR_RESET ∧
    (gotoResetState s).irCommand = List.replicate 6 0 ∧
    ((processInfraredInterrupt s).nState = STATE_IR_RESET →
      (processInfraredInterrupt s).irCommand = List.replicate 6 0) ∧
    (transmitInfraredCommand s).nState = STATE_IR_RESET ∧
    (transmitInfraredCommand s).irCommand = List.replicate 6 0 ∧
    (Smt.gotoResetState s).nState = STATE_IR_RESET ∧
    (Smt.gotoResetState s).irCommand = s.irCommand := by
  have hg : ∀ t : State, (gotoResetState t).irCommand = List.replicate 6 0 :=
    fun t => (gotoResetState_fields t).2.2.2.2.1
  have ht : ∃ t, transmitInfraredCommand s
      = { enableInfraredCapture t with ACTIVITY_LED := false } := ⟨_, rfl⟩
  obtain ⟨t, ht⟩ := ht
  refine ⟨(gotoResetState_fields s).1, hg s, ?_, ?_, ?_, rfl, rfl⟩
  · intro h
    by_cases c0 : s.nState = STATE_IR_RESET
    · rw [processInfraredInterrupt_reset s c0] at h ⊢
      split_ifs at h ⊢
      exact hg s
    by_cases c1 : s.nState = STATE_IR_TRAINING_RECEIVED
    · rw [processInfraredInterrupt_training s c1] at h ⊢
      split_ifs at h ⊢
      exact hg s
    by_cases c2 : s.nState = STATE_IR_RECEIVING_BITS
    · have hx : ∀ x : State, x.nState = s.nState →
          (appendBit x).nState ≠ STATE_IR_RESET := by
        intro x hx
        rcases appendBit_nState x with h1 | h1
        · rw [h1, hx, c2]; decide
        · rw [h1]; decide
      rw [processInfraredInterrupt_bits s c2] at h ⊢
      split_ifs at h ⊢
      · exact hg s
      · exact absurd h c0
      · exact hg s
      · exact absurd h (hx _ rfl)
      · exact absurd h (hx _ rfl)
      · exact hg s
    by_cases c3 : s.nState = STATE_IR_COMMAND_RECEIVED
    · rw [processInfraredInterrupt_command s c3]
      exact (enableInfraredCapture_fields _).2.2.2.2.1
    · rw [processInfraredInterrupt, if_neg c0, if_neg c1, if_neg c2, if_neg c3] at h
      exact absurd h c0
  · rw [ht]
    exact (enableInfraredCapture_fields t).1
  · rw [ht]
    exact (enableInfraredCapture_fields t).2.2.2.2.1

theorem scratch_buffer_on_reset_witness :
    (processInfraredInterrupt
      (deliver ⟨true, 3000⟩
        { powerOnState 0xAA with
          nState := STATE_IR_RECEIVING_BITS,
          nByte := 1,
          irCommand := [0xAA, 0, 0, 0, 0, 0] })).irCommand = List.replicate 6 0 :=
  (scratch_buffer_on_reset _).2.2.1 (by decide)

/-! ### Bit assembly -/

theorem chunk_append (vs w : List Nat) (j : Nat) (h : 8 * j + 8 ≤ vs.length) :
    ((vs ++ w).drop (8 * j)).take 8 = (vs.drop (8 * j)).take 8 := by
  rw [List.drop_append_of_le_length (by omega),
    List.take_append_of_le_length (by rw [List.length_drop]; omega)]

theorem chunk_map_congr (vs w : List Nat) (B : Nat) (h : 8 * B ≤ vs.length) :
    (List.range B).map (fun j => byteOfBits (((vs ++ w).drop (8 * j)).take 8))
      = (List.range B).map (fun j => byteOfBits ((vs.drop (8 * j)).take 8)) := by
  apply List.map_congr_left
  intro j hj
  have hj' := List.mem_range.mp hj
  rw [chunk_append vs w j (by omega)]

theorem shiftIn_lt (c v : Nat) (hv : v ≤ 1) : shiftIn c v < 256 := by
  rw [shiftIn_eq c v hv]
  exact Nat.mod_lt _ (by decide)

theorem assembled_congr (s0 s t : State) (vs : List Nat) (h : Assembled s0 vs s)
    (h1 : t.nState = s.nState) (h2 : t.nByte = s.nByte) (h3 : t.nBit = s.nBit)
    (h4 : t.cByte = s.cByte) (h5 : t.irCommand = s.irCommand)
    (h6 : SameSide s t) (h7 : t.rxLog = s.rxLog) : Assembled s0 vs t := by
  unfold Assembled at h ⊢
  rw [h1, h2, h3, h4, h5, h7]
  obtain ⟨a1, a2, a3, a4, a5, a6, a7, a8, a9⟩ := h
  exact ⟨a1, a2, a3, a4, a5, a6, a7, a8.trans h6, a9⟩

theorem assembled_bit (s0 s t : State) (vs : List Nat) (v : Nat) (h : Assembled s0 vs s)
    (hk : vs.length < 48) (hv : v ≤ 1)
    (h1 : t.nState = s.nState) (h2 : t.nByte = s.nByte) (h3 : t.nBit = s.nBit)
    (h4 : t.cByte = shiftIn s.cByte v) (h5 : t.irCommand = s.irCommand)
    (h6 : SameSide s t) (h7 : t.rxLog = s.rxLog ++ [RxEvent.bit v]) :
    Assembled s0 (vs ++ [v]) (appendBit t) := by
  obtain ⟨a1, a2, a3, a4, a5, a6, a7, a8, a9⟩ := h
  rw [if_neg (by omega)] at a3
  obtain ⟨b1, b2, b3, b4, b5, b6, -, -⟩ := appendBit_side t
  have hside : SameSide s0 (appendBit t) :=
    a8.trans (h6.trans ⟨b2, b3, b5, b6⟩)
  have hlog : (appendBit t).rxLog = s0.rxLog ++ (vs ++ [v]).map RxEvent.bit := by
    rw [b4, h7, a9, List.map_append, List.append_assoc]
    rfl
  have hlen : (vs ++ [v]).length = vs.length + 1 := by simp
  have hdrop : (vs ++ [v]).drop (8 * (vs.length / 8))
      = vs.drop (8 * (vs.length / 8)) ++ [v] :=
    List.drop_append_of_le_length (by omega)
  have hcur : (vs.drop (8 * (vs.length / 8))).length = vs.length % 8 := by
    rw [List.length_drop]; omega
  unfold Assembled
  rw [hlen]
  by_cases h7' : vs.length % 8 = 7
  · obtain ⟨c1, c2, c3, c4⟩ := appendBit_wrap t (by rw [h3, a5, h7'])
      (by rw [h2, a4]; omega)
    have hq : (vs.length + 1) / 8 = vs.length / 8 + 1 := by omega
    have hr : (vs.length + 1) % 8 = 0 := by omega
    have hbyte : shiftIn s.cByte v
        = byteOfBits (((vs ++ [v]).drop (8 * (vs.length / 8))).take 8) := by
      rw [hdrop, List.take_of_length_le (by rw [List.length_append, hcur]; simp; omega),
        byteOfBits_concat, ← a7, h7']
      have hm := shiftIn_mod s.cByte v 7 hv (by decide)
      have hl := shiftIn_lt s.cByte v hv
      rw [← hm]
      omega
    refine ⟨?_, by omega, ?_, ?_, ?_, ?_, ?_, hside, hlog⟩
    · rw [c4, List.length_set, h5]; exact a1
    · rw [c1, h2, a4, h1, a3]
      by_cases h5' : vs.length / 8 = 5
      · rw [if_pos h5', if_pos (by omega)]
      · rw [if_neg h5', if_neg (by omega)]
    · rw [c2, h2, a4, hq]
    · rw [c3, hr]
    · rw [hq, c4, h2, a4, h4, h5, take_succ_set _ _ _ (by omega), a6, List.range_succ,
        List.map_append, chunk_map_congr vs [v] _ (by omega)]
      simp only [List.map_cons, List.map_nil]
      rw [← hbyte]
    · rw [hr, hq, List.drop_of_length_le (by rw [hlen]; omega)]
      simp [byteOfBits, Nat.mod_one]
  · obtain ⟨c1, c2, c3, c4⟩ := appendBit_step t (by rw [h3, a5]; omega)
    have hq : (vs.length + 1) / 8 = vs.length / 8 := by omega
    have hr : (vs.length + 1) % 8 = vs.length % 8 + 1 := by omega
    refine ⟨?_, by omega, ?_, ?_, ?_, ?_, ?_, hside, hlog⟩
    · rw [c4, h5]; exact a1
    · rw [c1, h1, a3, if_neg (by omega)]
    · rw [c2, h2, a4, hq]
    · rw [c3, h3, a5, hr]
    · rw [hq, c4, h5, a6, chunk_map_congr vs [v] _ (by omega)]
    · rw [hr, hq, hdrop, byteOfBits_concat, ← a7, b1, h4]
      exact shiftIn_mod s.cByte v _ hv (by omega)

theorem assembled_start (s : State) (h0 : s.nState = STATE_IR_RECEIVING_BITS)
    (hB : s.nByte = 0) (hb : s.nBit = 0) (hl : s.irCommand.length = 6) :
    Assembled s [] s := by
  refine ⟨hl, by simp, ?_, ?_, ?_, ?_, ?_, SameSide.refl s, by simp⟩
  · rw [h0]; rfl
  · rw [hB]; rfl
  · rw [hb]; rfl
  · simp
  · simp [byteOfBits, Nat.mod_one]

theorem bitsOf_concat (longLo : Nat) (es : List PulseEvent) (e : PulseEvent) :
    bitsOf longLo (es ++ [e])
      = bitsOf longLo es ++ (if e.rising then [] else [bitValue longLo e]) := by
  unfold bitsOf
  cases h : e.rising <;> simp [List.filter_append, h]

theorem bitsOf_dropLast_le (longLo : Nat) (es : List PulseEvent) :
    (bitsOf longLo es.dropLast).length ≤ (bitsOf longLo es).length := by
  unfold bitsOf
  rw [List.length_map, List.length_map]
  exact ((List.dropLast_sublist es).filter _).length_le

theorem bitValue_le (longLo : Nat) (e : PulseEvent) : bitValue longLo e ≤ 1 := by
  unfold bitValue
  split_ifs <;> omega

/-- Marks and spaces accepted in `STATE_IR_RECEIVING_BITS`, fed to a receive
machine that is about to receive the first bit of a frame, up to the event
that completes the frame. -/
theorem assemble_events (step : State → PulseEvent → State)
    (shortLo shortHi longLo longHi : Nat)
    (hd : DecodesBits shortLo shortHi longLo longHi step) (s : State)
    (h0 : s.nState = STATE_IR_RECEIVING_BITS) (hB : s.nByte = 0) (hb : s.nBit = 0)
    (hl : s.irCommand.length = 6) (es : List PulseEvent) :
    (∀ e ∈ es, IsMarkEvent shortHi e ∨ IsBitEvent shortLo longHi e) →
    (bitsOf longLo es.dropLast).length < 48 →
    Assembled s (bitsOf longLo es) (es.foldl step s) := by
  induction es using List.reverseRecOn with
  | nil => intro _ _; exact assembled_start s h0 hB hb hl
  | append_singleton es e ih =>
    intro hes hk
    rw [List.dropLast_concat] at hk
    have ha := ih (fun x hx => hes x (by simp [hx]))
      (lt_of_le_of_lt (bitsOf_dropLast_le longLo es) hk)
    have hs : (es.foldl step s).nState = STATE_IR_RECEIVING_BITS := by
      rw [ha.2.2.1, if_neg (by omega)]
    rw [List.foldl_append, List.foldl_cons, List.foldl_nil, bitsOf_concat]
    rcases hes e (by simp) with hm | hbit
    · rw [hd.1 _ e hs hm, if_pos hm.1, List.append_nil]
      obtain ⟨d1, d2, d3, d4, d5, d6, d7, d8, d9, d10, -⟩ := deliver_fields e (es.foldl step s)
      exact assembled_congr _ _ _ _ ha d1 d2 d3 d4 d5 ⟨d6, d7, d9, d10⟩ d8
    · rw [hd.2 _ e hs hbit, if_neg (by rw [hbit.1]; decide)]
      obtain ⟨d1, d2, d3, d4, d5, d6, d7, d8, d9, d10, -⟩ := deliver_fields e (es.foldl step s)
      exact assembled_bit _ _ _ _ _ ha hk (bitValue_le _ _) d1 d2 d3 rfl d5
        ⟨d6, d7, d9, d10⟩ rfl

theorem byteOfBits_eight (l : List Nat) (h : l.length = 8) :
    byteOfBits l = Finset.sum (Finset.range 8) (fun i => l.getD i 0 * 2 ^ (7 - i)) := by
  match l, h with
  | [a, b, c, d, e, f, g, h], _ =>
    simp [byteOfBits, Finset.sum_range_succ]
    ring

theorem byteOfBits_chunk (vs : List Nat) (j : Nat) (h : 8 * j + 8 ≤ vs.length) :
    byteOfBits ((vs.drop (8 * j)).take 8) = byteAt vs j := by
  rw [byteOfBits_eight _ (by rw [List.length_take, List.length_drop]; omega)]
  unfold byteAt
  apply Finset.sum_congr rfl
  intro i hi
  have hi' := Finset.mem_range.mp hi
  congr 1
  simp only [List.getD_eq_getElem?_getD, List.getElem?_take, List.getElem?_drop, hi',
    if_true]

theorem assembled_bytes (s0 s : State) (vs : List Nat) (h : Assembled s0 vs s) (j : Nat)
    (hj : j < vs.length / 8) : s.irCommand.getD j 0 = byteAt vs j := by
  obtain ⟨-, -, -, -, -, a6, -⟩ := h
  have h1 : (s.irCommand.take (vs.length / 8)).getD j 0 = s.irCommand.getD j 0 := by
    simp only [List.getD_eq_getElem?_getD, List.getElem?_take, hj, if_true]
  rw [← h1, a6]
  simp only [List.getD_eq_getElem?_getD, List.getElem?_map, List.getElem?_range hj,
    Option.map_some', Option.getD_some]
  exact byteOfBits_chunk vs j (by omega)

theorem toTicks_values :
    toTicks (WIDTH_TRAINING_PULSE - WIDTH_ERROR_MARGIN) = 675 ∧
    toTicks (WIDTH_TRAINING_PULSE + WIDTH_ERROR_MARGIN) = 825 ∧
    toTicks (WIDTH_SILENCE_AFTER_TRAINING - WIDTH_ERROR_MARGIN) = 375 ∧
    toTicks (WIDTH_SILENCE_AFTER_TRAINING + WIDTH_ERROR_MARGIN) = 525 ∧
    toTicks (WIDTH_SHORT - WIDTH_ERROR_MARGIN) = 375 ∧
    toTicks (WIDTH_SHORT + WIDTH_ERROR_MARGIN) = 525 ∧
    toTicks (WIDTH_LONG - WIDTH_ERROR_MARGIN) = 1162 ∧
    toTicks (WIDTH_LONG + WIDTH_ERROR_MARGIN) = 1312 := by decide

theorem feed_decodesBits :
    DecodesBits (toTicks (WIDTH_SHORT - WIDTH_ERROR_MARGIN))
      (toTicks (WIDTH_SHORT + WIDTH_ERROR_MARGIN))
      (toTicks (WIDTH_LONG - WIDTH_ERROR_MARGIN))
      (toTicks (WIDTH_LONG + WIDTH_ERROR_MARGIN)) feed := by
  obtain ⟨-, -, -, -, v1, v2, v3, v4⟩ := toTicks_values
  rw [v1, v2, v3, v4]
  constructor
  · intro s e h0 hm
    exact feed_mark s e h0 hm.1 hm.2
  · intro s e h0 hbit
    exact feed_bit_event s e h0 hbit.1 hbit.2.1 hbit.2.2

/-- C21: start in `STATE_IR_RECEIVING_BITS` with `nByte = 0`, `nBit = 0` and
any `cByte`, and feed accepted events (marks of at most `hi(SHORT)` ticks and
spaces of more than `lo(SHORT)` and at most `hi(LONG)` ticks), none after the
space that delivers bit 48. With `k` spaces fed, of values `v0 .. v(k-1)`:
if `k < 48` the state is still `STATE_IR_RECEIVING_BITS` with
`nByte = k div 8` and `nBit = k mod 8`; if `k = 48` the state is
`STATE_IR_COMMAND_RECEIVED`; and every completed byte `j` of `irCommand` is
the sum of `v(8j+i) * 2^(7-i)` over `i` in `0..7`. -/
theorem bit_assembly (s : State) (es : List PulseEvent)
    (h0 : s.nState = STATE_IR_RECEIVING_BITS) (hB : s.nByte = 0) (hb : s.nBit = 0)
    (hl : s.irCommand.length = 6)
    (hes : ∀ e ∈ es, IsMarkEvent (toTicks (WIDTH_SHORT + WIDTH_ERROR_MARGIN)) e ∨
      IsBitEvent (toTicks (WIDTH_SHORT - WIDTH_ERROR_MARGIN))
        (toTicks (WIDTH_LONG + WIDTH_ERROR_MARGIN)) e)
    (hk : (bitsOf (toTicks (WIDTH_LONG - WIDTH_ERROR_MARGIN)) es.dropLast).length < 48) :
    ((bitsOf (toTicks (WIDTH_LONG - WIDTH_ERROR_MARGIN)) es).length < 48 →
      (feedAll s es).nState = STATE_IR_RECEIVING_BITS ∧
      (feedAll s es).nByte
        = (bitsOf (toTicks (WIDTH_LONG - WIDTH_ERROR_MARGIN)) es).length / 8 ∧
      (feedAll s es).nBit
        = (bitsOf (toTicks (WIDTH_LONG - WIDTH_ERROR_MARGIN)) es).length % 8) ∧
    ((bitsOf (toTicks (WIDTH_LONG - WIDTH_ERROR_MARGIN)) es).length = 48 →
      (feedAll s es).nState = STATE_IR_COMMAND_RECEIVED) ∧
    (∀ j, j < (bitsOf (toTicks (WIDTH_LONG - WIDTH_ERROR_MARGIN)) es).length / 8 →
      (feedAll s es).irCommand.getD j 0
        = byteAt (bitsOf (toTicks (WIDTH_LONG - WIDTH_ERROR_MARGIN)) es) j) := by
  have ha := assemble_events feed _ _ _ _ feed_decodesBits s h0 hB hb hl es hes hk
  refine ⟨fun h => ⟨?_, ha.2.2.2.1, ha.2.2.2.2.1⟩, fun h => ?_,
    fun j hj => assembled_bytes _ _ _ ha j hj⟩
  · show (es.foldl feed s).nState = _
    rw [ha.2.2.1, if_neg (by omega)]
  · show (es.foldl feed s).nState = _
    rw [ha.2.2.1, if_pos h]

theorem bit_assembly_witness :
    (feedAll { powerOnState 0xAA with nState := STATE_IR_RECEIVING_BITS, cByte := 0xFF }
      [⟨true, 450⟩, ⟨false, 1237⟩]).nState = STATE_IR_RECEIVING_BITS ∧
    (feedAll { powerOnState 0xAA with nState := STATE_IR_RECEIVING_BITS, cByte := 0xFF }
      [⟨true, 450⟩, ⟨false, 1237⟩]).nByte = 0 ∧
    (feedAll { powerOnState 0xAA with nState := STATE_IR_RECEIVING_BITS, cByte := 0xFF }
      [⟨true, 450⟩, ⟨false, 1237⟩]).nBit = 1 :=
  (bit_assembly { powerOnState 0xAA with nState := STATE_IR_RECEIVING_BITS, cByte := 0xFF }
    [⟨true, 450⟩, ⟨false, 1237⟩] rfl rfl rfl rfl
    (by
      intro e he
      simp only [List.mem_cons, List.mem_singleton, List.mem_nil_iff, or_false] at he
      rcases he with h | h <;> subst h
      · exact Or.inl ⟨rfl, by decide⟩
      · exact Or.inr ⟨rfl, by decide, by decide⟩)
    (by decide)).1 (by decide)

/-! ### Jitter: a frame received inside its windows -/

theorem assemble_pairs (step : State → PulseEvent → State) (lo hi : Nat → Nat)
    (hd : DecodesBits (lo WIDTH_SHORT) (hi WIDTH_SHORT) (lo WIDTH_LONG) (hi WIDTH_LONG) step)
    (h1 : hi WIDTH_SHORT ≤ lo WIDTH_LONG)
    (h3 : lo WIDTH_LONG ≤ hi WIDTH_LONG) (s0 : State) (tail : List Segment) :
    ∀ bits : List Nat, (∀ v ∈ bits, v ≤ 1) → ∀ (vs : List Nat) (s : State)
      (es : List PulseEvent), Assembled s0 vs s → vs.length + bits.length ≤ 48 →
      Jittered lo hi (bits.flatMap bitSegments ++ tail) es →
      ∃ es2 s', Jittered lo hi tail es2 ∧ Assembled s0 (vs ++ bits) s' ∧
        es.foldl step s = es2.foldl step s' := by
  intro bits
  induction bits with
  | nil =>
    intro _ vs s es ha _ hj
    exact ⟨es, s, by simpa using hj, by simpa using ha, rfl⟩
  | cons v bits ih =>
    intro hv vs s es ha hlen hj
    have hv1 : v ≤ 1 := hv v (by simp)
    have hlen' : vs.length + bits.length + 1 ≤ 48 := by
      simp only [List.length_cons] at hlen; omega
    have htrain : (v :: bits).flatMap bitSegments ++ tail
        = Segment.mark WIDTH_SHORT
          :: Segment.space (if v = 1 then WIDTH_LONG else WIDTH_SHORT)
          :: (bits.flatMap bitSegments ++ tail) := by
      simp [bitSegments]
    unfold Jittered at hj
    rw [htrain] at hj
    obtain ⟨em, es1, hem, hj1, rfl⟩ := List.forall₂_cons_left_iff.mp hj
    obtain ⟨eb, es2, heb, hj2, rfl⟩ := List.forall₂_cons_left_iff.mp hj1
    simp only [InWindow] at hem heb
    have hs : s.nState = STATE_IR_RECEIVING_BITS := by
      rw [ha.2.2.1, if_neg (by omega)]
    have hmark : IsMarkEvent (hi WIDTH_SHORT) em := ⟨hem.1, le_of_lt hem.2.2⟩
    have hbit : IsBitEvent (lo WIDTH_SHORT) (hi WIDTH_LONG) eb
        ∧ bitValue (lo WIDTH_LONG) eb = v := by
      unfold bitValue
      by_cases c : v = 1
      · rw [if_pos c] at heb
        exact ⟨⟨heb.1, by omega, by omega⟩, by rw [if_pos heb.2.1, c]⟩
      · rw [if_neg c] at heb
        exact ⟨⟨heb.1, heb.2.1, by omega⟩, by rw [if_neg (by omega)]; omega⟩
    obtain ⟨d1, d2, d3, d4, d5, d6, d7, d8, d9, d10, -⟩ := deliver_fields em s
    obtain ⟨g1, g2, g3, g4, g5, g6, g7, g8, g9, g10, -⟩ := deliver_fields eb (deliver em s)
    have ha1 : Assembled s0 vs (deliver em s) :=
      assembled_congr _ _ _ _ ha d1 d2 d3 d4 d5 ⟨d6, d7, d9, d10⟩ d8
    have ha2 := assembled_bit s0 (deliver em s)
      { deliver eb (deliver em s) with
        cByte := shiftIn (deliver em s).cByte (bitValue (lo WIDTH_LONG) eb),
        rxLog := (deliver em s).rxLog ++ [RxEvent.bit (bitValue (lo WIDTH_LONG) eb)] }
      vs (bitValue (lo WIDTH_LONG) eb) ha1 (by omega) (bitValue_le _ _) g1 g2 g3 rfl g5
      ⟨g6, g7, g9, g10⟩ rfl
    rw [hbit.2] at ha2
    obtain ⟨es3, s', k1, k2, k3⟩ := ih (fun w hw => hv w (by simp [hw])) (vs ++ [v]) _ es2 ha2
      (by rw [List.length_append]; simp; omega) hj2
    refine ⟨es3, s', k1, by simpa using k2, ?_⟩
    rw [List.foldl_cons, List.foldl_cons, hd.1 s em hs hmark,
      hd.2 (deliver em s) eb (d1.trans hs) hbit.1, hbit.2]
    exact k3

set_option maxRecDepth 1000000 in
theorem byteOfBits_bits : ∀ b < 256, byteOfBits ((List.range 8).map (bitMsbFirst b)) = b := by
  decide

theorem frame_chunks (f : List Nat) (hb : ∀ b ∈ f, b < 256) :
    (List.range f.length).map (fun j => byteOfBits (((frameBits f).drop (8 * j)).take 8))
      = f := by
  induction f with
  | nil => rfl
  | cons b bs ih =>
    have hl : ((List.range 8).map (bitMsbFirst b)).length = 8 := by simp
    rw [List.length_cons, List.range_succ_eq_map, List.map_cons, List.map_map, frameBits_cons]
    congr 1
    · rw [Nat.mul_zero, List.drop_zero, List.take_left' hl]
      exact byteOfBits_bits b (hb b (by simp))
    · refine Eq.trans ?_ (ih (fun x hx => hb x (by simp [hx])))
      apply List.map_congr_left
      intro j _
      simp only [Function.comp]
      rw [show 8 * Nat.succ j = ((List.range 8).map (bitMsbFirst b)).length + 8 * j by
        rw [hl]; omega, List.drop_append]

theorem frameBits_length (f : List Nat) : (frameBits f).length = 8 * f.length := by
  induction f with
  | nil => rfl
  | cons b bs ih =>
    rw [frameBits_cons, List.length_append, ih, List.length_cons]
    simp
    omega

theorem frameBits_le (f : List Nat) : ∀ v ∈ frameBits f, v ≤ 1 := by
  intro v hv
  simp only [frameBits, List.mem_flatMap, List.mem_map, List.mem_range] at hv
  obtain ⟨b, -, i, -, rfl⟩ := hv
  unfold bitMsbFirst
  omega

theorem assembled_frame (s0 s : State) (f : List Nat) (h : Assembled s0 (frameBits f) s)
    (hf : f.length = 6) (hb : ∀ b ∈ f, b < 256) :
    s.nState = STATE_IR_COMMAND_RECEIVED ∧ s.irCommand = f := by
  have hl : (frameBits f).length = 48 := by rw [frameBits_length, hf]
  obtain ⟨a1, -, a3, -, -, a6, -⟩ := h
  rw [hl] at a3 a6
  refine ⟨a3, ?_⟩
  rw [List.take_of_length_le (by omega)] at a6
  rw [a6, show 48 / 8 = f.length by rw [hf]]
  exact frame_chunks f hb

/-- A frame whose events lie inside the windows of their nominal classes,
received from rest up to its 48th bit. -/
theorem decode_jittered (step : State → PulseEvent → State) (lo hi : Nat → Nat)
    (hp : DecodesPreamble (lo WIDTH_TRAINING_PULSE) (hi WIDTH_TRAINING_PULSE)
      (lo WIDTH_SILENCE_AFTER_TRAINING) (hi WIDTH_SILENCE_AFTER_TRAINING) step)
    (hd : DecodesBits (lo WIDTH_SHORT) (hi WIDTH_SHORT) (lo WIDTH_LONG) (hi WIDTH_LONG) step)
    (h1 : hi WIDTH_SHORT ≤ lo WIDTH_LONG) (h3 : lo WIDTH_LONG ≤ hi WIDTH_LONG)
    (s : State) (f : List Nat) (tail : List Segment) (es : List PulseEvent)
    (hs : InReset s) (hf : f.length = 6) (hb : ∀ b ∈ f, b < 256)
    (hj : Jittered lo hi
      (Segment.mark WIDTH_TRAINING_PULSE :: Segment.space WIDTH_SILENCE_AFTER_TRAINING
        :: ((frameBits f).flatMap bitSegments ++ tail)) es) :
    ∃ es2 X, Jittered lo hi tail es2 ∧ X.nState = STATE_IR_COMMAND_RECEIVED ∧
      X.irCommand = f ∧ SameSide s X ∧
      X.rxLog = s.rxLog ++ (frameBits f).map RxEvent.bit ∧
      es.foldl step s = es2.foldl step X := by
  obtain ⟨s1, s2, s3, s4⟩ := hs
  unfold Jittered at hj
  obtain ⟨et, es1, het, hj1, rfl⟩ := List.forall₂_cons_left_iff.mp hj
  obtain ⟨ei, es2, hei, hj2, rfl⟩ := List.forall₂_cons_left_iff.mp hj1
  simp only [InWindow] at het hei
  have e1 := hp.1 s et s1 het.1 het.2.1 het.2.2
  have e2 := hp.2 { deliver et s with nState := STATE_IR_TRAINING_RECEIVED } ei rfl
    hei.1 hei.2.1 hei.2.2
  obtain ⟨d1, d2, d3, d4, d5, d6, d7, d8, d9, d10, -⟩ := deliver_fields et s
  have ha0 : Assembled
      { deliver ei { deliver et s with nState := STATE_IR_TRAINING_RECEIVED } with
        nState := STATE_IR_RECEIVING_BITS }
      []
      { deliver ei { deliver et s with nState := STATE_IR_TRAINING_RECEIVED } with
        nState := STATE_IR_RECEIVING_BITS } :=
    assembled_start _ rfl (d2.trans s2) (d3.trans s3) (by
      show (deliver et s).irCommand.length = 6
      rw [d5]; exact s4)
  obtain ⟨es3, X, k1, k2, k3⟩ := assemble_pairs step lo hi hd h1 h3 _ tail (frameBits f)
    (frameBits_le f) [] _ es2 ha0 (by rw [frameBits_length, hf]; simp) hj2
  rw [List.nil_append] at k2
  obtain ⟨m1, m2⟩ := assembled_frame _ _ f k2 hf hb
  refine ⟨es3, X, k1, m1, m2, ?_, ?_, ?_⟩
  · have hq := k2.2.2.2.2.2.2.2.1
    exact ⟨hq.1.trans d6, hq.2.1.trans d7, hq.2.2.1.trans d9, hq.2.2.2.trans d10⟩
  · rw [k2.2.2.2.2.2.2.2.2]
    show (deliver et s).rxLog ++ _ = _
    rw [d8]
  · rw [List.foldl_cons, List.foldl_cons, e1, e2]
    exact k3

theorem edgesOf_eq_edgesAt (train : List Segment) : edgesOf train = edgesAt toTicks train := by
  induction train with
  | nil => rfl
  | cons seg train ih =>
    have h1 : edgesOf (seg :: train) = edgeOf seg ++ edgesOf train := by
      simp [edgesOf]
    have h2 : edgesAt toTicks (seg :: train)
        = edgesAt toTicks [seg] ++ edgesAt toTicks train := by
      simp [edgesAt]
    rw [h1, h2, ih]
    cases seg <;> rfl

theorem edgesAt_jittered (lo hi ticks : Nat → Nat) (train : List Segment)
    (h : ∀ seg ∈ train, ∃ us, (seg = Segment.mark us ∨ seg = Segment.space us) ∧
      lo us < ticks us ∧ ticks us < hi us) :
    Jittered lo hi train (edgesAt ticks train) := by
  unfold Jittered
  induction train with
  | nil => exact List.Forall₂.nil
  | cons seg train ih =>
    obtain ⟨us, hseg, h1, h2⟩ := h seg (by simp)
    have ht := ih (fun x hx => h x (by simp [hx]))
    rcases hseg with rfl | rfl
    · exact List.Forall₂.cons ⟨rfl, h1, h2⟩ ht
    · exact List.Forall₂.cons ⟨rfl, h1, h2⟩ ht

theorem pulseTrain_eq (f : List Nat) :
    pulseTrain f
      = Segment.mark WIDTH_TRAINING_PULSE :: Segment.space WIDTH_SILENCE_AFTER_TRAINING
        :: ((frameBits f).flatMap bitSegments ++ [Segment.mark WIDTH_SHORT]) := by
  simp [pulseTrain]

theorem pulseTrain_dropLast (f : List Nat) :
    (pulseTrain f).dropLast
      = Segment.mark WIDTH_TRAINING_PULSE :: Segment.space WIDTH_SILENCE_AFTER_TRAINING
        :: ((frameBits f).flatMap bitSegments ++ []) := by
  unfold pulseTrain
  rw [List.dropLast_concat, List.append_nil]
  rfl

theorem pulseTrain_segments (f : List Nat) : ∀ seg ∈ pulseTrain f,
    seg = Segment.mark WIDTH_TRAINING_PULSE ∨ seg = Segment.space WIDTH_SHORT ∨
    seg = Segment.mark WIDTH_SHORT ∨ seg = Segment.space WIDTH_LONG := by
  intro seg hseg
  simp only [pulseTrain, bitSegments, List.mem_append, List.mem_cons, List.mem_singleton,
    List.mem_flatMap, List.mem_nil_iff, or_false] at hseg
  rcases hseg with (h | h) | h
  · rcases h with h | h
    · exact Or.inl h
    · exact Or.inr (Or.inl h)
  · obtain ⟨v, -, h | h⟩ := h
    · exact Or.inr (Or.inr (Or.inl h))
    · split_ifs at h
      · exact Or.inr (Or.inr (Or.inr h))
      · exact Or.inr (Or.inl h)
  · exact Or.inr (Or.inr (Or.inl h))

theorem nominal_jittered (lo hi ticks : Nat → Nat) (f : List Nat)
    (h1 : lo WIDTH_TRAINING_PULSE < ticks WIDTH_TRAINING_PULSE ∧
      ticks WIDTH_TRAINING_PULSE < hi WIDTH_TRAINING_PULSE)
    (h2 : lo WIDTH_SHORT < ticks WIDTH_SHORT ∧ ticks WIDTH_SHORT < hi WIDTH_SHORT)
    (h3 : lo WIDTH_LONG < ticks WIDTH_LONG ∧ ticks WIDTH_LONG < hi WIDTH_LONG)
    (train : List Segment) (ht : ∀ seg ∈ train, seg ∈ pulseTrain f) :
    Jittered lo hi train (edgesAt ticks train) := by
  apply edgesAt_jittered
  intro seg hseg
  rcases pulseTrain_segments f seg (ht seg hseg) with h | h | h | h
  · exact ⟨_, Or.inl h, h1⟩
  · exact ⟨_, Or.inr h, h2⟩
  · exact ⟨_, Or.inl h, h2⟩
  · exact ⟨_, Or.inr h, h3⟩

theorem feed_decodesPreamble :
    DecodesPreamble (toTicks (WIDTH_TRAINING_PULSE - WIDTH_ERROR_MARGIN))
      (toTicks (WIDTH_TRAINING_PULSE + WIDTH_ERROR_MARGIN))
      (toTicks (WIDTH_SILENCE_AFTER_TRAINING - WIDTH_ERROR_MARGIN))
      (toTicks (WIDTH_SILENCE_AFTER_TRAINING + WIDTH_ERROR_MARGIN)) feed := by
  obtain ⟨v1, v2, v3, v4, -⟩ := toTicks_values
  rw [v1, v2, v3, v4]
  exact ⟨fun s e h0 hr h1 h2 => feed_training s e h0 hr h1 h2,
    fun s e h0 hr h1 h2 => feed_silence s e h0 hr h1 h2⟩

/-- A frame with every event inside the window of its class, received by
`src/IRK.c` from rest: the frame is handed over as sent. -/
theorem feed_jittered (s : State) (f : List Nat) (es : List PulseEvent)
    (hs : InReset s) (hf : f.length = 6) (hb : ∀ b ∈ f, b < 256)
    (hj : Jittered (fun x => toTicks (x - WIDTH_ERROR_MARGIN))
      (fun x => toTicks (x + WIDTH_ERROR_MARGIN)) (pulseTrain f) es) :
    (feedAll s es).rxLog
      = s.rxLog ++ (frameBits f).map RxEvent.bit ++ [RxEvent.interpret f, RxEvent.reset] ∧
    (feedAll s es).dispatched
      = s.dispatched ++
        (if Accepted s.nConfigDeviceAddress f
          then [(f.getD 2 0 <<< 8 ||| f.getD 4 0) % 65536] else []) ∧
    (feedAll s es).nState = STATE_IR_RESET ∧ (feedAll s es).nByte = 0 ∧
    (feedAll s es).nBit = 0 ∧ (feedAll s es).irCommand = List.replicate 6 0 := by
  rw [pulseTrain_eq] at hj
  obtain ⟨es2, X, k1, k2, k3, k4, k5, k6⟩ := decode_jittered feed
    (fun x => toTicks (x - WIDTH_ERROR_MARGIN)) (fun x => toTicks (x + WIDTH_ERROR_MARGIN))
    feed_decodesPreamble feed_decodesBits (by decide) (by decide) s f _ es hs hf hb hj
  unfold Jittered at k1
  obtain ⟨em, es3, -, hn, rfl⟩ := List.forall₂_cons_left_iff.mp k1
  rw [List.forall₂_nil_left_iff.mp hn] at k6
  have hfeed : feedAll s es = feed X em := k6
  rw [hfeed, feed_command X em k2]
  have hi := interpretInfraredCommand_fields (disableInfraredCapture (deliver em X))
  have hir : (disableInfraredCapture (deliver em X)).irCommand = f := k3
  have hlog : (disableInfraredCapture (deliver em X)).rxLog = X.rxLog := rfl
  have haddr : (disableInfraredCapture (deliver em X)).nConfigDeviceAddress
      = s.nConfigDeviceAddress := k4.2.1
  have hdis : (disableInfraredCapture (deliver em X)).dispatched = s.dispatched := k4.2.2.1
  obtain ⟨q1, q2, q3, -, q5, -, -, q8, q9, -⟩ := enableInfraredCapture_fields
    (interpretInfraredCommand (disableInfraredCapture (deliver em X)))
  refine ⟨?_, ?_, q1, q2, q3, q5⟩
  · rw [q8, hi.2.2.2.2.2.2.1, hir, hlog, k5]
    simp
  · rw [q9, hi.2.2.2.2.2.2.2, hir, haddr, hdis]
    simp only [nModifiers, nCommand, hir]

/-! ### The receive machine of `src/smt/IRK.c` -/

theorem smt_threshold_values :
    Smt.TIMER1_RATE 24000 = 750000 ∧ Smt.TIMER1_RATE 48000 = 1500000 ∧
    (Smt.SMALLEST 24000 WIDTH_TRAINING_PULSE = 525 ∧
      Smt.LARGEST 24000 WIDTH_TRAINING_PULSE = 975 ∧
      Smt.SMALLEST 24000 WIDTH_SILENCE_AFTER_TRAINING = 225 ∧
      Smt.LARGEST 24000 WIDTH_SILENCE_AFTER_TRAINING = 675 ∧
      Smt.SMALLEST 24000 WIDTH_SHORT = 225 ∧ Smt.LARGEST 24000 WIDTH_SHORT = 675 ∧
      Smt.SMALLEST 24000 WIDTH_LONG = 1012 ∧ Smt.LARGEST 24000 WIDTH_LONG = 1462) ∧
    (Smt.SMALLEST 48000 WIDTH_TRAINING_PULSE = 1050 ∧
      Smt.LARGEST 48000 WIDTH_TRAINING_PULSE = 1950 ∧
      Smt.SMALLEST 48000 WIDTH_SILENCE_AFTER_TRAINING = 450 ∧
      Smt.LARGEST 48000 WIDTH_SILENCE_AFTER_TRAINING = 1350 ∧
      Smt.SMALLEST 48000 WIDTH_SHORT = 450 ∧ Smt.LARGEST 48000 WIDTH_SHORT = 1350 ∧
      Smt.SMALLEST 48000 WIDTH_LONG = 2025 ∧ Smt.LARGEST 48000 WIDTH_LONG = 2925) := by
  decide

theorem smt_nominal_values :
    Smt.MICROSECONDS 24000 WIDTH_TRAINING_PULSE = 750 ∧
    Smt.MICROSECONDS 24000 WIDTH_SHORT = 450 ∧ Smt.MICROSECONDS 24000 WIDTH_LONG = 1237 ∧
    Smt.MICROSECONDS 48000 WIDTH_TRAINING_PULSE = 1500 ∧
    Smt.MICROSECONDS 48000 WIDTH_SHORT = 900 ∧ Smt.MICROSECONDS 48000 WIDTH_LONG = 2475 := by
  decide

theorem smt_process_reset (fosc : Nat) (interp : State → State) (s : State)
    (h0 : s.nState = STATE_IR_RESET) :
    Smt.processInfraredInterrupt fosc interp s
      = if bRisingEdge s && Smt.IS_PULSE_WIDTH_NEAR fosc WIDTH_TRAINING_PULSE s then
          { s with nState := STATE_IR_TRAINING_RECEIVED }
        else Smt.gotoResetState s := by
  rw [Smt.processInfraredInterrupt, if_pos h0]

theorem smt_process_training (fosc : Nat) (interp : State → State) (s : State)
    (h0 : s.nState = STATE_IR_TRAINING_RECEIVED) :
    Smt.processInfraredInterrupt fosc interp s
      = if bFallingEdge s && Smt.IS_PULSE_WIDTH_NEAR fosc WIDTH_SILENCE_AFTER_TRAINING s then
          { s with nState := STATE_IR_RECEIVING_BITS }
        else Smt.gotoResetState s := by
  rw [Smt.processInfraredInterrupt, if_neg (by rw [h0]; decide), if_pos h0]

theorem smt_process_bits (fosc : Nat) (interp : State → State) (s : State)
    (h0 : s.nState = STATE_IR_RECEIVING_BITS) :
    Smt.processInfraredInterrupt fosc interp s
      = if bRisingEdge s then
          if s.nPulseWidth > Smt.LARGEST fosc WIDTH_SHORT then
            Smt.gotoResetState s
          else s
        else
          if s.nPulseWidth > Smt.LARGEST fosc WIDTH_LONG then
            Smt.gotoResetState s
          else if s.nPulseWidth > Smt.SMALLEST fosc WIDTH_LONG then
            appendBit { s with
              cByte := (s.cByte <<< 1) % 256 ||| 1,
              rxLog := s.rxLog ++ [RxEvent.bit 1] }
          else if s.nPulseWidth > Smt.SMALLEST fosc WIDTH_SHORT then
            appendBit { s with
              cByte := (s.cByte <<< 1) % 256,
              rxLog := s.rxLog ++ [RxEvent.bit 0] }
          else Smt.gotoResetState s := by
  rw [Smt.processInfraredInterrupt, if_neg (by rw [h0]; decide), if_neg (by rw [h0]; decide),
    if_pos h0]

theorem smt_decodesBits (fosc : Nat) (interp : State → State)
    (hS : Smt.LARGEST fosc WIDTH_SHORT < 65536) (hL : Smt.LARGEST fosc WIDTH_LONG < 65536) :
    DecodesBits (Smt.SMALLEST fosc WIDTH_SHORT) (Smt.LARGEST fosc WIDTH_SHORT)
      (Smt.SMALLEST fosc WIDTH_LONG) (Smt.LARGEST fosc WIDTH_LONG)
      (Smt.feed fosc interp) := by
  constructor
  · intro s e h0 hm
    obtain ⟨hr, hw⟩ := hm
    have hm : e.elapsed % 65536 = e.elapsed := Nat.mod_eq_of_lt (by omega)
    have h3 : ¬ (Smt.LARGEST fosc WIDTH_SHORT < e.elapsed) := by omega
    unfold Smt.feed
    rw [smt_process_bits _ _ _ (by rw [(deliver_fields e s).1]; exact h0)]
    simp [deliver_fields, hr, hm, h3]
  · intro s e h0 hbit
    obtain ⟨hf, h1, h2⟩ := hbit
    have hm : e.elapsed % 65536 = e.elapsed := Nat.mod_eq_of_lt (by omega)
    have c1 : ¬ (Smt.LARGEST fosc WIDTH_LONG < e.elapsed) := by omega
    unfold Smt.feed
    rw [smt_process_bits _ _ _ (by rw [(deliver_fields e s).1]; exact h0)]
    by_cases c : Smt.SMALLEST fosc WIDTH_LONG < e.elapsed
    · simp [deliver_fields, shiftIn, bitValue, hf, hm, c, c1]
    · simp [deliver_fields, shiftIn, bitValue, hf, hm, c, c1, h1]

theorem smt_decodesPreamble (fosc : Nat) (interp : State → State)
    (hT : Smt.LARGEST fosc WIDTH_TRAINING_PULSE < 65536)
    (hI : Smt.LARGEST fosc WIDTH_SILENCE_AFTER_TRAINING < 65536) :
    DecodesPreamble (Smt.SMALLEST fosc WIDTH_TRAINING_PULSE)
      (Smt.LARGEST fosc WIDTH_TRAINING_PULSE)
      (Smt.SMALLEST fosc WIDTH_SILENCE_AFTER_TRAINING)
      (Smt.LARGEST fosc WIDTH_SILENCE_AFTER_TRAINING) (Smt.feed fosc interp) := by
  constructor
  · intro s e h0 hr h1 h2
    have hm : e.elapsed % 65536 = e.elapsed := Nat.mod_eq_of_lt (by omega)
    unfold Smt.feed
    rw [smt_process_reset _ _ _ (by rw [(deliver_fields e s).1]; exact h0)]
    simp [deliver_fields, Smt.IS_PULSE_WIDTH_NEAR, hr, hm, h1, h2]
  · intro s e h0 hr h1 h2
    have hm : e.elapsed % 65536 = e.elapsed := Nat.mod_eq_of_lt (by omega)
    unfold Smt.feed
    rw [smt_process_training _ _ _ (by rw [(deliver_fields e s).1]; exact h0)]
    simp [deliver_fields, Smt.IS_PULSE_WIDTH_NEAR, hr, hm, h1, h2]

/-- A frame with every event inside the window of its class, received by
`src/smt/IRK.c` from rest up to its 48th bit: the machine then holds the
frame as sent and waits to hand it over. -/
theorem smt_feed_jittered (fosc : Nat) (interp : State → State)
    (hfosc : fosc = 24000 ∨ fosc = 48000) (s : State) (f : List Nat)
    (es : List PulseEvent) (hs : InReset s) (hf : f.length = 6) (hb : ∀ b ∈ f, b < 256)
    (hj : Jittered (Smt.SMALLEST fosc) (Smt.LARGEST fosc) (pulseTrain f).dropLast es) :
    (es.foldl (Smt.feed fosc interp) s).nState = STATE_IR_COMMAND_RECEIVED ∧
    (es.foldl (Smt.feed fosc interp) s).irCommand = f := by
  have hbounds : Smt.LARGEST fosc WIDTH_TRAINING_PULSE < 65536 ∧
      Smt.LARGEST fosc WIDTH_SILENCE_AFTER_TRAINING < 65536 ∧
      Smt.LARGEST fosc WIDTH_SHORT < 65536 ∧ Smt.LARGEST fosc WIDTH_LONG < 65536 ∧
      Smt.LARGEST fosc WIDTH_SHORT ≤ Smt.SMALLEST fosc WIDTH_LONG ∧
      Smt.SMALLEST fosc WIDTH_LONG ≤ Smt.LARGEST fosc WIDTH_LONG := by
    rcases hfosc with h | h <;> subst h <;> decide
  obtain ⟨b1, b2, b3, b4, b5, b6⟩ := hbounds
  rw [pulseTrain_dropLast] at hj
  obtain ⟨es2, X, k1, k2, k3, -, -, k6⟩ := decode_jittered (Smt.feed fosc interp)
    (Smt.SMALLEST fosc) (Smt.LARGEST fosc) (smt_decodesPreamble fosc interp b1 b2)
    (smt_decodesBits fosc interp b3 b4) b5 b6 s f _ es hs hf hb hj
  unfold Jittered at k1
  rw [List.forall₂_nil_left_iff.mp k1] at k6
  rw [k6]
  exact ⟨k2, k3⟩

/-- C26: jitter tolerance. In `src/IRK.c` (margin 100, 0.75 ticks per
microsecond) and in `src/smt/IRK.c` (margin 300, `__FOSC__` 24000 or 48000,
so 750000 or 1500000 ticks per second) the acceptance ranges of the short and
of the long space are disjoint, `hi(SHORT) ≤ lo(LONG)`. The nominal tick
counts of an encoded frame lie strictly inside the windows of their classes,
and every list of events that does so is decoded to the frame that was
encoded: `src/IRK.c`, fed the whole pulse train from rest, logs the bits of
`f`, hands over `f` itself, dispatches as for `f` and is back at rest;
`src/smt/IRK.c`, fed the pulse train up to its 48th bit, is in
`STATE_IR_COMMAND_RECEIVED` with `f` in the buffer, about to hand it over. -/
theorem jitter_tolerance (s : State) (f : List Nat) (es : List PulseEvent) (fosc : Nat)
    (interpretInfraredCommand : State → State)
    (hs : InReset s) (hf : f.length = 6) (hb : ∀ b ∈ f, b < 256)
    (hfosc : fosc = 24000 ∨ fosc = 48000) :
    toTicks (WIDTH_SHORT + WIDTH_ERROR_MARGIN) ≤ toTicks (WIDTH_LONG - WIDTH_ERROR_MARGIN) ∧
    Smt.TIMER1_RATE 24000 = 750000 ∧ Smt.TIMER1_RATE 48000 = 1500000 ∧
    Smt.LARGEST fosc WIDTH_SHORT ≤ Smt.SMALLEST fosc WIDTH_LONG ∧
    Jittered (fun x => toTicks (x - WIDTH_ERROR_MARGIN))
      (fun x => toTicks (x + WIDTH_ERROR_MARGIN)) (pulseTrain f) (edgesOf (pulseTrain f)) ∧
    (Jittered (fun x => toTicks (x - WIDTH_ERROR_MARGIN))
        (fun x => toTicks (x + WIDTH_ERROR_MARGIN)) (pulseTrain f) es →
      (feedAll s es).rxLog
        = s.rxLog ++ (frameBits f).map RxEvent.bit
          ++ [RxEvent.interpret f, RxEvent.reset] ∧
      (feedAll s es).rxLog = (feedAll s (edgesOf (pulseTrain f))).rxLog ∧
      (feedAll s es).dispatched = (feedAll s (edgesOf (pulseTrain f))).dispatched ∧
      (feedAll s es).nState = (feedAll s (edgesOf (pulseTrain f))).nState ∧
      (feedAll s es).nByte = (feedAll s (edgesOf (pulseTrain f))).nByte ∧
      (feedAll s es).nBit = (feedAll s (edgesOf (pulseTrain f))).nBit ∧
      (feedAll s es).irCommand = (feedAll s (edgesOf (pulseTrain f))).irCommand) ∧
    Jittered (Smt.SMALLEST fosc) (Smt.LARGEST fosc) (pulseTrain f).dropLast
      (edgesAt (Smt.MICROSECONDS fosc) (pulseTrain f).dropLast) ∧
    (Jittered (Smt.SMALLEST fosc) (Smt.LARGEST fosc) (pulseTrain f).dropLast es →
      (es.foldl (Smt.feed fosc interpretInfraredCommand) s).nState
        = STATE_IR_COMMAND_RECEIVED ∧
      (es.foldl (Smt.feed fosc interpretInfraredCommand) s).irCommand = f ∧
      ((edgesAt (Smt.MICROSECONDS fosc) (pulseTrain f).dropLast).foldl
        (Smt.feed fosc interpretInfraredCommand) s).irCommand = f) := by
  have hnom : Jittered (fun x => toTicks (x - WIDTH_ERROR_MARGIN))
      (fun x => toTicks (x + WIDTH_ERROR_MARGIN)) (pulseTrain f) (edgesOf (pulseTrain f)) := by
    rw [edgesOf_eq_edgesAt]
    exact nominal_jittered _ _ _ f (by decide) (by decide) (by decide) _ (fun _ h => h)
  have hsmt : Jittered (Smt.SMALLEST fosc) (Smt.LARGEST fosc) (pulseTrain f).dropLast
      (edgesAt (Smt.MICROSECONDS fosc) (pulseTrain f).dropLast) := by
    have hsub : ∀ seg ∈ (pulseTrain f).dropLast, seg ∈ pulseTrain f :=
      fun seg h => (List.dropLast_sublist _).subset h
    rcases hfosc with h | h <;> subst h
    · exact nominal_jittered _ _ _ f (by decide) (by decide) (by decide) _ hsub
    · exact nominal_jittered _ _ _ f (by decide) (by decide) (by decide) _ hsub
  have hdis : Smt.LARGEST fosc WIDTH_SHORT ≤ Smt.SMALLEST fosc WIDTH_LONG := by
    rcases hfosc with h | h <;> subst h <;> decide
  refine ⟨by decide, by decide, by decide, hdis, hnom, fun hj => ?_, hsmt, fun hj => ?_⟩
  · obtain ⟨a1, a2, a3, a4, a5, a6⟩ := feed_jittered s f es hs hf hb hj
    obtain ⟨n1, n2, n3, n4, n5, n6⟩ := feed_jittered s f _ hs hf hb hnom
    exact ⟨a1, a1.trans n1.symm, a2.trans n2.symm, a3.trans n3.symm, a4.trans n4.symm,
      a5.trans n5.symm, a6.trans n6.symm⟩
  · obtain ⟨a1, a2⟩ := smt_feed_jittered fosc interpretInfraredCommand hfosc s f es hs hf hb hj
    exact ⟨a1, a2,
      (smt_feed_jittered fosc interpretInfraredCommand hfosc s f _ hs hf hb hsmt).2⟩

theorem jitter_tolerance_witness :
    (feedAll (powerOnState 0xAA)
      (edgesOf (pulseTrain [0xAA, 0x55, 0x00, 0xFF, 0x28, 0xD7]))).rxLog
      = (powerOnState 0xAA).rxLog
        ++ (frameBits [0xAA, 0x55, 0x00, 0xFF, 0x28, 0xD7]).map RxEvent.bit
        ++ [RxEvent.interpret [0xAA, 0x55, 0x00, 0xFF, 0x28, 0xD7], RxEvent.reset] ∧
    ((edgesAt (Smt.MICROSECONDS 48000)
        (pulseTrain [0xAA, 0x55, 0x00, 0xFF, 0x28, 0xD7]).dropLast).foldl
      (Smt.feed 48000 id) (powerOnState 0xAA)).irCommand
      = [0xAA, 0x55, 0x00, 0xFF, 0x28, 0xD7] :=
  ⟨((jitter_tolerance (powerOnState 0xAA) [0xAA, 0x55, 0x00, 0xFF, 0x28, 0xD7]
      (edgesOf (pulseTrain [0xAA, 0x55, 0x00, 0xFF, 0x28, 0xD7])) 48000 id
      (by decide) rfl (by decide) (Or.inr rfl)).2.2.2.2.2.1
      (jitter_tolerance (powerOnState 0xAA) [0xAA, 0x55, 0x00, 0xFF, 0x28, 0xD7]
        [] 48000 id (by decide) rfl (by decide) (Or.inr rfl)).2.2.2.2.1).1,
    ((jitter_tolerance (powerOnState 0xAA) [0xAA, 0x55, 0x00, 0xFF, 0x28, 0xD7]
      (edgesAt (Smt.MICROSECONDS 48000)
        (pulseTrain [0xAA, 0x55, 0x00, 0xFF, 0x28, 0xD7]).dropLast) 48000 id
      (by decide) rfl (by decide) (Or.inr rfl)).2.2.2.2.2.2.2
      (jitter_tolerance (powerOnState 0xAA) [0xAA, 0x55, 0x00, 0xFF, 0x28, 0xD7]
        [] 48000 id (by decide) rfl (by decide) (Or.inr rfl)).2.2.2.2.2.2.1).2.1⟩

/-! ### The threshold constants of `src/smt/IRK.c` at 48 MHz -/

theorem smt_long_product :
    (WIDTH_LONG + Smt.WIDTH_ERROR_MARGIN) * Smt.TIMER1_RATE 48000 = 2925000000 := by
  decide

theorem smt_unsigned_wide (w x : Nat) (hx : x * Smt.TIMER1_RATE 48000 < 2 ^ 32) :
    Smt.MICROSECONDS_unsigned (32 + w) 48000 x = Smt.MICROSECONDS 48000 x := by
  have hp : 2 ^ 32 ≤ 2 ^ (32 + w) := Nat.pow_le_pow_right (by decide) (by omega)
  unfold Smt.MICROSECONDS_unsigned Smt.MICROSECONDS
  rw [Nat.mod_eq_of_lt (lt_of_lt_of_le hx hp)]

theorem smt_unsigned_long (w : Nat) :
    Smt.MICROSECONDS_unsigned w 48000 (WIDTH_LONG + Smt.WIDTH_ERROR_MARGIN) = 2925
      ↔ 32 ≤ w := by
  constructor
  · intro h
    by_contra hc
    have hw : w < 32 := by omega
    revert h
    interval_cases w <;> decide
  · intro h
    obtain ⟨k, rfl⟩ := Nat.exists_eq_add_of_le h
    rw [smt_unsigned_wide k _ (by decide)]
    decide

theorem smt_signed_long (w : Nat) :
    Smt.MICROSECONDS_signed w 48000 (WIDTH_LONG + Smt.WIDTH_ERROR_MARGIN) = 2925
      ↔ 33 ≤ w := by
  constructor
  · intro h
    by_contra hc
    have hw : w < 33 := by omega
    revert h
    interval_cases w <;> decide
  · intro h
    have hp : 2 ^ 32 ≤ 2 ^ (w - 1) := Nat.pow_le_pow_right (by decide) (by omega)
    have hq : 2 ^ 32 ≤ 2 ^ w := Nat.pow_le_pow_right (by decide) (by omega)
    unfold Smt.MICROSECONDS_signed
    simp only []
    rw [smt_long_product, Nat.mod_eq_of_lt (by omega), if_pos (by omega)]
    decide

/-- C31: in `src/smt/IRK.c` with a 48 MHz clock the Timer1 rate is 1500000
ticks per second and the thresholds `MICROSECONDS(x)` are 450, 1350, 1050,
1950, 2025 and 2925 ticks, all below `2^16`. Every product `x * TIMER1_RATE`
is below `2^32`, so unsigned arithmetic of 32 bits or more gives these values;
the product for the upper bound of the long space is 2925000000, above
`2^31 - 1`: formed in unsigned arithmetic of `w` bits the expression gives
2925 exactly when `w ≥ 32`, formed in signed arithmetic exactly when `w ≥ 33`
(signed 32-bit arithmetic gives -1369). -/
theorem smt_threshold_width :
    Smt.TIMER1_RATE 48000 = 48000000 / 4 / 8 ∧ Smt.TIMER1_RATE 48000 = 1500000 ∧
    (Smt.SMALLEST 48000 WIDTH_SHORT = 450 ∧ Smt.LARGEST 48000 WIDTH_SHORT = 1350 ∧
      Smt.SMALLEST 48000 WIDTH_SILENCE_AFTER_TRAINING = 450 ∧
      Smt.LARGEST 48000 WIDTH_SILENCE_AFTER_TRAINING = 1350 ∧
      Smt.SMALLEST 48000 WIDTH_TRAINING_PULSE = 1050 ∧
      Smt.LARGEST 48000 WIDTH_TRAINING_PULSE = 1950 ∧
      Smt.SMALLEST 48000 WIDTH_LONG = 2025 ∧ Smt.LARGEST 48000 WIDTH_LONG = 2925) ∧
    (Smt.LARGEST 48000 WIDTH_SHORT < 2 ^ 16 ∧ Smt.LARGEST 48000 WIDTH_TRAINING_PULSE < 2 ^ 16 ∧
      Smt.LARGEST 48000 WIDTH_LONG < 2 ^ 16) ∧
    ((WIDTH_SHORT - Smt.WIDTH_ERROR_MARGIN) * Smt.TIMER1_RATE 48000 < 2 ^ 32 ∧
      (WIDTH_SHORT + Smt.WIDTH_ERROR_MARGIN) * Smt.TIMER1_RATE 48000 < 2 ^ 32 ∧
      (WIDTH_TRAINING_PULSE - Smt.WIDTH_ERROR_MARGIN) * Smt.TIMER1_RATE 48000 < 2 ^ 32 ∧
      (WIDTH_TRAINING_PULSE + Smt.WIDTH_ERROR_MARGIN) * Smt.TIMER1_RATE 48000 < 2 ^ 32 ∧
      (WIDTH_LONG - Smt.WIDTH_ERROR_MARGIN) * Smt.TIMER1_RATE 48000 < 2 ^ 32 ∧
      (WIDTH_LONG + Smt.WIDTH_ERROR_MARGIN) * Smt.TIMER1_RATE 48000 < 2 ^ 32) ∧
    (WIDTH_LONG + Smt.WIDTH_ERROR_MARGIN) * Smt.TIMER1_RATE 48000 = 2925000000 ∧
    (WIDTH_LONG + Smt.WIDTH_ERROR_MARGIN) * Smt.TIMER1_RATE 48000 > 2 ^ 31 - 1 ∧
    (WIDTH_LONG - Smt.WIDTH_ERROR_MARGIN) * Smt.TIMER1_RATE 48000 ≤ 2 ^ 31 - 1 ∧
    (∀ w, Smt.MICROSECONDS_unsigned w 48000 (WIDTH_LONG + Smt.WIDTH_ERROR_MARGIN) = 2925
      ↔ 32 ≤ w) ∧
    (∀ w, Smt.MICROSECONDS_signed w 48000 (WIDTH_LONG + Smt.WIDTH_ERROR_MARGIN) = 2925
      ↔ 33 ≤ w) ∧
    Smt.MICROSECONDS_signed 32 48000 (WIDTH_LONG + Smt.WIDTH_ERROR_MARGIN) = -1369 ∧
    (∀ w,
      Smt.MICROSECONDS_unsigned (32 + w) 48000 (WIDTH_SHORT - Smt.WIDTH_ERROR_MARGIN) = 450 ∧
      Smt.MICROSECONDS_unsigned (32 + w) 48000 (WIDTH_SHORT + Smt.WIDTH_ERROR_MARGIN) = 1350 ∧
      Smt.MICROSECONDS_unsigned (32 + w) 48000
        (WIDTH_TRAINING_PULSE - Smt.WIDTH_ERROR_MARGIN) = 1050 ∧
      Smt.MICROSECONDS_unsigned (32 + w) 48000
        (WIDTH_TRAINING_PULSE + Smt.WIDTH_ERROR_MARGIN) = 1950 ∧
      Smt.MICROSECONDS_unsigned (32 + w) 48000 (WIDTH_LONG - Smt.WIDTH_ERROR_MARGIN) = 2025 ∧
      Smt.MICROSECONDS_unsigned (32 + w) 48000 (WIDTH_LONG + Smt.WIDTH_ERROR_MARGIN)
        = 2925) := by
  refine ⟨by decide, by decide, by decide, by decide, by decide, by decide, by decide,
    by decide, smt_unsigned_long, smt_signed_long, by decide, fun w => ?_⟩
  rw [smt_unsigned_wide w _ (by decide), smt_unsigned_wide w _ (by decide),
    smt_unsigned_wide w _ (by decide), smt_unsigned_wide w _ (by decide),
    smt_unsigned_wide w _ (by decide), smt_unsigned_wide w _ (by decide)]
  decide

/-! ### Diagnostics do not steer the receive machine: `src/smt/IRK.c` -/

theorem ite_state_ind (P : State → Prop) (c : Prop) [Decidable c] (a b : State)
    (ha : P a) (hb : P b) : P (if c then a else b) := by
  split_ifs <;> assumption

theorem smt_performLocalIRKFunction_keeps : Keeps Smt.performLocalIRKFunction := by
  intro s
  unfold Smt.performLocalIRKFunction
  repeat' (first
    | refine ite_state_ind
        (fun r => r.nState = s.nState ∧ r.nByte = s.nByte ∧ r.nBit = s.nBit ∧
          r.cByte = s.cByte ∧ r.irCommand = s.irCommand ∧ r.usbCommand = s.usbCommand ∧
          r.nConfigDeviceAddress = s.nConfigDeviceAddress ∧ r.rxLog = s.rxLog ∧
          r.dispatched = s.dispatched ∧ r.irOut = s.irOut ∧
          r.nPulseWidth = s.nPulseWidth ∧ r.nRiseOrFall = s.nRiseOrFall) _ _ _ ?_ ?_
    | exact ⟨rfl, rfl, rfl, rfl, rfl, rfl, rfl, rfl, rfl, rfl, rfl, rfl⟩)

theorem smt_executeCommand_fields (s : State) :
    (Smt.executeCommand s).nState = s.nState ∧ (Smt.executeCommand s).nByte = s.nByte ∧
    (Smt.executeCommand s).nBit = s.nBit ∧ (Smt.executeCommand s).cByte = s.cByte ∧
    (Smt.executeCommand s).irCommand = s.irCommand ∧
    (Smt.executeCommand s).usbCommand = s.usbCommand ∧
    (Smt.executeCommand s).nConfigDeviceAddress = s.nConfigDeviceAddress ∧
    (Smt.executeCommand s).rxLog = s.rxLog ∧
    (Smt.executeCommand s).dispatched = s.dispatched ++ [s.usbCommand] := by
  unfold Smt.executeCommand
  simp only []
  split_ifs <;>
    simp [sendUSBKeystroke_keeps _, sendUSBSystemControlCommand_keeps _,
      sendUSBConsumerDeviceCommand_keeps _, smt_performLocalIRKFunction_keeps _]

theorem smt_interpret_accepted (s : State)
    (h : Accepted s.nConfigDeviceAddress s.irCommand) :
    Smt.interpretInfraredCommand s
      = Smt.executeCommand
          (if s.bDebugMode then
            Smt.showDebugInfo
              { s with rxLog := s.rxLog ++ [RxEvent.interpret s.irCommand],
                       usbCommand := (nModifiers s <<< 8 ||| nCommand s) % 65536 }
          else
            Smt.updateLCD
              { s with rxLog := s.rxLog ++ [RxEvent.interpret s.irCommand],
                       usbCommand := (nModifiers s <<< 8 ||| nCommand s) % 65536 }) := by
  obtain ⟨ha, h01, h23, h45⟩ := h
  unfold Smt.interpretInfraredCommand
  simp only [nAddress, nAddressInverted, nModifiers, nModifiersInverted, nCommand,
    nCommandInverted]
  have hn : ¬ (s.irCommand.getD 0 0 ≠ s.nConfigDeviceAddress
      ∧ s.irCommand.getD 0 0 ≠ BROADCAST_ADDRESS) := by
    rintro ⟨h1, h2⟩
    rcases ha with h | h
    · exact h1 h
    · exact h2 h
  rw [if_neg hn, if_neg h01, if_neg h23, if_neg h45]

theorem smt_interpret_not_accepted (s : State)
    (h : ¬ Accepted s.nConfigDeviceAddress s.irCommand) :
    Smt.interpretInfraredCommand s
      = { s with rxLog := s.rxLog ++ [RxEvent.interpret s.irCommand] } := by
  unfold Smt.interpretInfraredCommand
  simp only [nAddress, nAddressInverted, nModifiers, nModifiersInverted, nCommand,
    nCommandInverted]
  unfold Accepted at h
  have key : ∀ (h1 : ¬(s.irCommand.getD 0 0 ≠ s.nConfigDeviceAddress
        ∧ s.irCommand.getD 0 0 ≠ BROADCAST_ADDRESS))
      (h2 : ¬ s.irCommand.getD 0 0 ^^^ s.irCommand.getD 1 0 = 0)
      (h3 : ¬ s.irCommand.getD 2 0 ^^^ s.irCommand.getD 3 0 = 0)
      (h4 : ¬ s.irCommand.getD 4 0 ^^^ s.irCommand.getD 5 0 = 0), False := by
    intro h1 h2 h3 h4
    apply h
    refine ⟨?_, h2, h3, h4⟩
    by_contra hc
    push_neg at hc
    exact h1 hc
  split_ifs with h1 h2 h3 h4
  · rfl
  · rfl
  · rfl
  · rfl
  · exact (key h1 h2 h3 h4).elim
  · exact (key h1 h2 h3 h4).elim

theorem smt_interpret_fields (s : State) :
    (Smt.interpretInfraredCommand s).nState = s.nState ∧
    (Smt.interpretInfraredCommand s).nByte = s.nByte ∧
    (Smt.interpretInfraredCommand s).nBit = s.nBit ∧
    (Smt.interpretInfraredCommand s).cByte = s.cByte ∧
    (Smt.interpretInfraredCommand s).irCommand = s.irCommand ∧
    (Smt.interpretInfraredCommand s).nConfigDeviceAddress = s.nConfigDeviceAddress ∧
    (Smt.interpretInfraredCommand s).rxLog
      = s.rxLog ++ [RxEvent.interpret s.irCommand] ∧
    (Smt.interpretInfraredCommand s).dispatched
      = s.dispatched ++
        (if Accepted s.nConfigDeviceAddress s.irCommand
          then [(nModifiers s <<< 8 ||| nCommand s) % 65536] else []) := by
  by_cases h : Accepted s.nConfigDeviceAddress s.irCommand
  · rw [smt_interpret_accepted s h, if_pos h]
    cases hd : s.bDebugMode <;>
      simp [smt_executeCommand_fields _, Smt.showDebugInfo, Smt.updateLCD]
  · rw [smt_interpret_not_accepted s h, if_neg h]
    simp

theorem smt_gotoResetState_fields (s : State) :
    (Smt.gotoResetState s).nState = STATE_IR_RESET ∧ (Smt.gotoResetState s).nByte = 0 ∧
    (Smt.gotoResetState s).nBit = 0 ∧ (Smt.gotoResetState s).cByte = s.cByte ∧
    (Smt.gotoResetState s).irCommand = s.irCommand ∧
    (Smt.gotoResetState s).nConfigDeviceAddress = s.nConfigDeviceAddress ∧
    (Smt.gotoResetState s).rxLog = s.rxLog ++ [RxEvent.reset] ∧
    (Smt.gotoResetState s).dispatched = s.dispatched :=
  ⟨rfl, rfl, rfl, rfl, rfl, rfl, rfl, rfl⟩

theorem smt_enableInfraredCapture_fields (s : State) :
    (Smt.enableInfraredCapture s).nState = STATE_IR_RESET ∧
    (Smt.enableInfraredCapture s).nByte = 0 ∧ (Smt.enableInfraredCapture s).nBit = 0 ∧
    (Smt.enableInfraredCapture s).cByte = s.cByte ∧
    (Smt.enableInfraredCapture s).irCommand = s.irCommand ∧
    (Smt.enableInfraredCapture s).nConfigDeviceAddress = s.nConfigDeviceAddress ∧
    (Smt.enableInfraredCapture s).rxLog = s.rxLog ++ [RxEvent.reset] ∧
    (Smt.enableInfraredCapture s).dispatched = s.dispatched :=
  ⟨rfl, rfl, rfl, rfl, rfl, rfl, rfl, rfl⟩

theorem smt_process_command (fosc : Nat) (interp : State → State) (s : State)
    (h0 : s.nState = STATE_IR_COMMAND_RECEIVED) :
    Smt.processInfraredInterrupt fosc interp s
      = Smt.enableInfraredCapture (interp (disableInfraredCapture s)) := by
  rw [Smt.processInfraredInterrupt, if_neg (by rw [h0]; decide), if_neg (by rw [h0]; decide),
    if_neg (by rw [h0]; decide), if_pos h0]

theorem smt_processInfraredInterrupt_sameCore (fosc : Nat) (s t : State)
    (h : SameCore s t) (hw : s.nPulseWidth = t.nPulseWidth)
    (he : bRisingEdge s = bRisingEdge t) :
    SameCore (Smt.processInfraredInterrupt fosc Smt.interpretInfraredCommand s)
      (Smt.processInfraredInterrupt fosc Smt.interpretInfraredCommand t) ∧
    ∃ new,
      (Smt.processInfraredInterrupt fosc Smt.interpretInfraredCommand s).dispatched
        = s.dispatched ++ new ∧
      (Smt.processInfraredInterrupt fosc Smt.interpretInfraredCommand t).dispatched
        = t.dispatched ++ new := by
  have h' := h
  obtain ⟨h1, h2, h3, h4, h5, h6⟩ := h'
  have hf : bFallingEdge s = bFallingEdge t := by simp [bFallingEdge, he]
  have hn : ∀ x, Smt.IS_PULSE_WIDTH_NEAR fosc x s = Smt.IS_PULSE_WIDTH_NEAR fosc x t := by
    intro x; simp [Smt.IS_PULSE_WIDTH_NEAR, hw]
  have hg : SameCore (Smt.gotoResetState s) (Smt.gotoResetState t) :=
    ⟨rfl, rfl, rfl, h4, h5, h6⟩
  have hgd : (Smt.gotoResetState s).dispatched = s.dispatched ++ [] ∧
      (Smt.gotoResetState t).dispatched = t.dispatched ++ [] := by
    simp [smt_gotoResetState_fields _]
  by_cases c0 : s.nState = STATE_IR_RESET
  · rw [smt_process_reset _ _ s c0, smt_process_reset _ _ t (h1 ▸ c0), he, hn]
    split_ifs
    · exact ⟨⟨rfl, h2, h3, h4, h5, h6⟩, [], by simp, by simp⟩
    · exact ⟨hg, [], hgd⟩
  by_cases c1 : s.nState = STATE_IR_TRAINING_RECEIVED
  · rw [smt_process_training _ _ s c1, smt_process_training _ _ t (h1 ▸ c1), hf, hn]
    split_ifs
    · exact ⟨⟨rfl, h2, h3, h4, h5, h6⟩, [], by simp, by simp⟩
    · exact ⟨hg, [], hgd⟩
  by_cases c2 : s.nState = STATE_IR_RECEIVING_BITS
  · rw [smt_process_bits _ _ s c2, smt_process_bits _ _ t (h1 ▸ c2), he, hw]
    split_ifs
    · exact ⟨hg, [], hgd⟩
    · exact ⟨h, [], by simp, by simp⟩
    · exact ⟨hg, [], hgd⟩
    · refine ⟨appendBit_sameCore _ _ ⟨h1, h2, h3, ?_, h5, h6⟩, [], ?_, ?_⟩
      · simp [h4]
      · simp [appendBit_side _]
      · simp [appendBit_side _]
    · refine ⟨appendBit_sameCore _ _ ⟨h1, h2, h3, ?_, h5, h6⟩, [], ?_, ?_⟩
      · simp [h4]
      · simp [appendBit_side _]
      · simp [appendBit_side _]
    · exact ⟨hg, [], hgd⟩
  by_cases c3 : s.nState = STATE_IR_COMMAND_RECEIVED
  · rw [smt_process_command _ _ s c3, smt_process_command _ _ t (h1 ▸ c3)]
    refine ⟨?_, (if Accepted s.nConfigDeviceAddress s.irCommand
          then [(nModifiers s <<< 8 ||| nCommand s) % 65536] else []), ?_, ?_⟩
    · simp only [SameCore, smt_enableInfraredCapture_fields _, smt_interpret_fields _,
        and_self, true_and]
      exact ⟨h4, h5, h6⟩
    · rw [(smt_enableInfraredCapture_fields _).2.2.2.2.2.2.2,
        (smt_interpret_fields _).2.2.2.2.2.2.2]
      rfl
    · rw [(smt_enableInfraredCapture_fields _).2.2.2.2.2.2.2,
        (smt_interpret_fields _).2.2.2.2.2.2.2]
      show t.dispatched ++ (if Accepted t.nConfigDeviceAddress t.irCommand
          then [(nModifiers t <<< 8 ||| nCommand t) % 65536] else []) = _
      rw [← h5, ← h6]
      simp only [nModifiers, nCommand, h5]
  · have d0 : ¬ t.nState = STATE_IR_RESET := h1 ▸ c0
    have d1 : ¬ t.nState = STATE_IR_TRAINING_RECEIVED := h1 ▸ c1
    have d2 : ¬ t.nState = STATE_IR_RECEIVING_BITS := h1 ▸ c2
    have d3 : ¬ t.nState = STATE_IR_COMMAND_RECEIVED := h1 ▸ c3
    rw [Smt.processInfraredInterrupt, if_neg c0, if_neg c1, if_neg c2, if_neg c3,
      Smt.processInfraredInterrupt, if_neg d0, if_neg d1, if_neg d2, if_neg d3]
    exact ⟨h, [], by simp, by simp⟩

/-- C14: in both firmware variants, two runs of `processInfraredInterrupt`
that start from states agreeing on `nState`, `nByte`, `nBit`, `cByte`,
`irCommand`, the configured address and the event (elapsed ticks and edge
direction), and differing arbitrarily otherwise (in `src/IRK.c` the debug
mode, the pending debug status, the debug record and the edge counter; in
`src/smt/IRK.c`, at any clock, `resetCount` and the debug mode), end agreeing
on `nState`, `nByte`, `nBit`, `cByte` and `irCommand` and hand the same
commands to the dispatcher, or both none. -/
theorem diagnostics_do_not_steer (s t : State) (fosc : Nat)
    (hState : s.nState = t.nState) (hByte : s.nByte = t.nByte) (hBit : s.nBit = t.nBit)
    (hc : s.cByte = t.cByte) (hir : s.irCommand = t.irCommand)
    (ha : s.nConfigDeviceAddress = t.nConfigDeviceAddress)
    (hw : s.nPulseWidth = t.nPulseWidth) (he : bRisingEdge s = bRisingEdge t) :
    ((processInfraredInterrupt s).nState = (processInfraredInterrupt t).nState ∧
      (processInfraredInterrupt s).nByte = (processInfraredInterrupt t).nByte ∧
      (processInfraredInterrupt s).nBit = (processInfraredInterrupt t).nBit ∧
      (processInfraredInterrupt s).cByte = (processInfraredInterrupt t).cByte ∧
      (processInfraredInterrupt s).irCommand = (processInfraredInterrupt t).irCommand ∧
      ∃ new, (processInfraredInterrupt s).dispatched = s.dispatched ++ new ∧
        (processInfraredInterrupt t).dispatched = t.dispatched ++ new) ∧
    ((Smt.processInfraredInterrupt fosc Smt.interpretInfraredCommand s).nState
        = (Smt.processInfraredInterrupt fosc Smt.interpretInfraredCommand t).nState ∧
      (Smt.processInfraredInterrupt fosc Smt.interpretInfraredCommand s).nByte
        = (Smt.processInfraredInterrupt fosc Smt.interpretInfraredCommand t).nByte ∧
      (Smt.processInfraredInterrupt fosc Smt.interpretInfraredCommand s).nBit
        = (Smt.processInfraredInterrupt fosc Smt.interpretInfraredCommand t).nBit ∧
      (Smt.processInfraredInterrupt fosc Smt.interpretInfraredCommand s).cByte
        = (Smt.processInfraredInterrupt fosc Smt.interpretInfraredCommand t).cByte ∧
      (Smt.processInfraredInterrupt fosc Smt.interpretInfraredCommand s).irCommand
        = (Smt.processInfraredInterrupt fosc Smt.interpretInfraredCommand t).irCommand ∧
      ∃ new,
        (Smt.processInfraredInterrupt fosc Smt.interpretInfraredCommand s).dispatched
          = s.dispatched ++ new ∧
        (Smt.processInfraredInterrupt fosc Smt.interpretInfraredCommand t).dispatched
          = t.dispatched ++ new) := by
  obtain ⟨⟨h1, h2, h3, h4, h5, _⟩, h7⟩ :=
    processInfraredInterrupt_sameCore s t ⟨hState, hByte, hBit, hc, hir, ha⟩ hw he
  obtain ⟨⟨g1, g2, g3, g4, g5, _⟩, g7⟩ :=
    smt_processInfraredInterrupt_sameCore fosc s t ⟨hState, hByte, hBit, hc, hir, ha⟩ hw he
  exact ⟨⟨h1, h2, h3, h4, h5, h7⟩, ⟨g1, g2, g3, g4, g5, g7⟩⟩

theorem diagnostics_do_not_steer_witness :
    (processInfraredInterrupt
        { powerOnState 0xAA with
          nState := STATE_IR_COMMAND_RECEIVED,
          irCommand := [0xAA, 0x55, 0x00, 0xFF, 0x28, 0xD7] }).nState
      = (processInfraredInterrupt
        { powerOnState 0xAA with
          nState := STATE_IR_COMMAND_RECEIVED,
          irCommand := [0xAA, 0x55, 0x00, 0xFF, 0x28, 0xD7],
          bDebugMode := true,
          nEdgeCount := 98,
          resetCount := 7 }).nState ∧
    (Smt.processInfraredInterrupt 48000 Smt.interpretInfraredCommand
        { powerOnState 0xAA with
          nState := STATE_IR_COMMAND_RECEIVED,
          irCommand := [0xAA, 0x55, 0x00, 0xFF, 0x28, 0xD7] }).irCommand
      = (Smt.processInfraredInterrupt 48000 Smt.interpretInfraredCommand
        { powerOnState 0xAA with
          nState := STATE_IR_COMMAND_RECEIVED,
          irCommand := [0xAA, 0x55, 0x00, 0xFF, 0x28, 0xD7],
          bDebugMode := true,
          nEdgeCount := 98,
          resetCount := 7 }).irCommand :=
  ⟨(diagnostics_do_not_steer _ _ 48000 rfl rfl rfl rfl rfl rfl rfl rfl).1.1,
    (diagnostics_do_not_steer _ _ 48000 rfl rfl rfl rfl rfl rfl rfl rfl).2.2.2.2.2.1⟩

end IRK
